import Mathlib

set_option autoImplicit false

/-!
# NES emulator core: 6502 CPU (`Cpu.cpp`) and APU (`Apu.cpp`)

A shallow embedding of the instruction interpreter of `Cpu.cpp` and of the
audio unit of `Apu.cpp`.

Machine integers are natural numbers; every store into a `uint8` location is
reduced modulo `256` and every store into a `uint16` location modulo `65536`.
Registers of a state read by a theorem are assumed in range by explicit
hypotheses.

The headers `Base.h`, `Bitfield.h`, `Memory.h`, `MemoryMap.h`, `Cpu.h` and
`OpCodeTable.h` are not part of the sources at hand.  What `Cpu.cpp` and
`Apu.cpp` use from them (the casts `TO8`/`TO16`, the masks `BITS`, the status
bit field, the CPU address space, the APU register addresses and the opcode
table entry) is modelled below and marked as such.

Debug-only statements (`assert`, the `printf` based debugger) and the
notification hooks `OnCpuMemoryRead`/`OnCpuMemoryWrite` do not change the CPU
registers or memory and are left out.
-/

namespace NesEmu

/-! ## Casts and memory (absent headers) -/

/-- Modelled from the spec: the cast `TO16` of `Base.h` (absent), conversion to
an unsigned 16-bit integer. -/
def TO16 (v : Nat) : Nat := v % 65536

/-- Modelled from the spec: the cast `TO8` of `Base.h` (absent), conversion to
an unsigned 8-bit integer. -/
def TO8 (v : Nat) : Nat := v % 256

/-- Modelled from the spec: the CPU address space `CpuRam` of `Memory.h`
(absent), a byte for each 16-bit address. -/
abbrev CpuRam := Nat → Nat

namespace CpuRam

/-- Modelled from the spec: `CpuRam::kStackBase` (absent), the stack lives in
page `0x01`. -/
def kStackBase : Nat := 0x0100

/-- Modelled from the spec: `CpuRam::kResetVector` (absent), the reset vector
`0xFFFC`. -/
def kResetVector : Nat := 0xFFFC

/-- Modelled from the spec: `CpuRam::kIrqVector` (absent), the IRQ/BRK vector
`0xFFFE`. -/
def kIrqVector : Nat := 0xFFFE

/-- Modelled from the spec: `CpuRam::Read8(uint16 address)` (absent): the byte
stored at the address. -/
def Read8 (ram : CpuRam) (address : Nat) : Nat := ram (address % 65536) % 256

/-- Modelled from the spec: `CpuRam::Write8(uint16 address, uint8 value)`
(absent): stores the byte at the address and nowhere else. -/
def Write8 (ram : CpuRam) (address value : Nat) : CpuRam :=
  fun a => if a = address % 65536 then value % 256 else ram a

/-- Modelled from the spec: `CpuRam::Read16(uint16 address)` (absent): the
little-endian 16-bit value stored at `address` and `address + 1`. -/
def Read16 (ram : CpuRam) (address : Nat) : Nat :=
  Read8 ram address ||| (Read8 ram (address + 1) <<< 8)

end CpuRam

/-! ## Flag helpers (`Cpu.cpp`, anonymous namespace) -/

/-- `CalcNegativeFlag(uint16 v)`: bit 7 is set. -/
def CalcNegativeFlag (v : Nat) : Nat := if v &&& 0x0080 ≠ 0 then 1 else 0

/-- `CalcNegativeFlag(uint8 v)`: bit 7 is set. -/
def CalcNegativeFlag8 (v : Nat) : Nat := if v &&& 0x80 ≠ 0 then 1 else 0

/-- `CalcZeroFlag(uint16 v)`: the lower 8 bits are all 0. -/
def CalcZeroFlag (v : Nat) : Nat := if v &&& 0x00FF = 0 then 1 else 0

/-- `CalcZeroFlag(uint8 v)`. -/
def CalcZeroFlag8 (v : Nat) : Nat := if v = 0 then 1 else 0

/-- `CalcCarryFlag(uint16 v)`: the upper 8 bits are non-zero. -/
def CalcCarryFlag (v : Nat) : Nat := if v &&& 0xFF00 ≠ 0 then 1 else 0

/-- `CalcOverflowFlag(uint8 a, uint8 b, uint16 r)`, returned as a `uint8`. -/
def CalcOverflowFlag (a b r : Nat) : Nat :=
  TO8 ((TO16 a ^^^ r) &&& (TO16 b ^^^ r) &&& 0x0080)

namespace StatusFlag

def Carry : Nat := 0x01
def Zero : Nat := 0x02
def InterruptsOff : Nat := 0x04
def Decimal : Nat := 0x08
def BrkExecuted : Nat := 0x10
def Unused : Nat := 0x20
def Overflow : Nat := 0x40
def Negative : Nat := 0x80

end StatusFlag

/-! ## The status bit field (absent header `Bitfield.h`) -/

namespace Bitfield8

/-- Modelled from the spec: `Bitfield8::ClearAll()` (absent): all flags 0. -/
def ClearAll : Nat := 0

/-- Modelled from the spec: `Bitfield8::Set(bits)` (absent): raises the given
bits and keeps the others, as `SEC`, `SED`, `SEI` and `Reset` need. -/
def Set (p bits : Nat) : Nat := (p ||| bits) % 256

/-- Modelled from the spec: `Bitfield8::Clear(bits)` (absent): lowers the given
bits and keeps the others, as `CLC`, `CLD`, `CLI` and `CLV` need. -/
def Clear (p bits : Nat) : Nat := p &&& (0xFF ^^^ (bits % 256))

/-- Modelled from the spec: the overload `Bitfield8::Set(bits, enabled)`
(absent): raises the bits when `enabled` is non-zero, lowers them otherwise. -/
def SetEnabled (p bits enabled : Nat) : Nat :=
  if enabled ≠ 0 then Set p bits else Clear p bits

/-- Modelled from the spec: `Bitfield8::Test(bits)` (absent): 1 when one of the
bits is raised, else 0. -/
def Test (p bits : Nat) : Nat := if p &&& bits ≠ 0 then 1 else 0

/-- Modelled from the spec: `Bitfield8::Value()` (absent): the status byte. -/
def Value (p : Nat) : Nat := p

end Bitfield8

/-! ## Opcode table entries (absent header `OpCodeTable.h`) -/

/-- The addressing modes dispatched on by `Cpu::UpdateOperand`. -/
inductive AddressMode where
  | Immedt | Implid | Accumu | Relatv | ZeroPg | ZPIdxX | ZPIdxY
  | Absolu | AbIdxX | AbIdxY | Indrct | IdxInd | IndIdx
  deriving DecidableEq, Repr

/-- The mnemonics dispatched on by `Cpu::ExecuteInstruction`. -/
inductive OpCodeName where
  | ADC | AND | ASL | BCC | BCS | BEQ | BIT | BMI | BNE | BPL | BRK | BVC | BVS
  | CLC | CLD | CLI | CLV | CMP | CPX | CPY | DEC | DEX | DEY | EOR | INC | INX
  | INY | JMP | JSR | LDA | LDX | LDY | LSR | NOP | ORA | PHA | PHP | PLA | PLP
  | ROL | ROR | RTI | RTS | SBC | SEC | SED | SEI | STA | STX | STY | TAX | TAY
  | TSX | TXA | TXS | TYA
  deriving DecidableEq, Repr

/-- Modelled from the spec: the record `OpCodeEntry` (absent): the fields that
`Cpu.cpp` reads through `m_pEntry`. -/
structure OpCodeEntry where
  opCodeName : OpCodeName
  addrMode : AddressMode
  numBytes : Nat
  deriving DecidableEq, Repr

/-! ## CPU state -/

/-- The members of class `Cpu` used by `Cpu.cpp`: the registers, the decoded
entry, the operand address and the memory reached through `m_pRam`. -/
structure Cpu where
  A : Nat
  X : Nat
  Y : Nat
  SP : Nat
  PC : Nat
  P : Nat
  m_pEntry : OpCodeEntry
  m_operandAddress : Nat
  m_pRam : CpuRam

open CpuRam StatusFlag

namespace Cpu

/-- `Cpu::Reset`. -/
def Reset (c : Cpu) : Cpu :=
  let P0 := Bitfield8.ClearAll
  let P1 := Bitfield8.Set P0 Unused
  let P2 := Bitfield8.Set P1 BrkExecuted
  let P3 := Bitfield8.Set P2 InterruptsOff
  { c with A := 0, X := 0, Y := 0, SP := TO8 0x0FD, P := P3,
           PC := Read16 c.m_pRam kResetVector }

/-- `Cpu::UpdateOperand`. -/
def UpdateOperand (c : Cpu) : Cpu :=
  match c.m_pEntry.addrMode with
  | .Immedt => { c with m_operandAddress := TO16 (c.PC + 1) }
  | .Implid => c
  | .Accumu => c
  | .Relatv =>
      -- int8 offset: the byte read as a signed value in [-128, 127]
      let raw := Read8 c.m_pRam (c.PC + 1)
      let offset := if raw < 128 then raw else raw + 65536 - 256
      { c with m_operandAddress := TO16 (c.PC + c.m_pEntry.numBytes + offset) }
  | .ZeroPg => { c with m_operandAddress := TO16 (Read8 c.m_pRam (c.PC + 1)) }
  | .ZPIdxX =>
      { c with m_operandAddress := TO16 (Read8 c.m_pRam (c.PC + 1) + c.X) &&& 0x00FF }
  | .ZPIdxY =>
      { c with m_operandAddress := TO16 (Read8 c.m_pRam (c.PC + 1) + c.Y) &&& 0x00FF }
  | .Absolu => { c with m_operandAddress := Read16 c.m_pRam (c.PC + 1) }
  | .AbIdxX => { c with m_operandAddress := TO16 (Read16 c.m_pRam (c.PC + 1) + c.X) }
  | .AbIdxY => { c with m_operandAddress := TO16 (Read16 c.m_pRam (c.PC + 1) + c.Y) }
  | .Indrct =>
      let indirectAddress1 := Read16 c.m_pRam (c.PC + 1)
      let indirectAddress2 :=
        (indirectAddress1 &&& 0xFF00) ||| ((indirectAddress1 + 1) &&& 0x00FF)
      let lo := TO16 (Read8 c.m_pRam indirectAddress1)
      let hi := TO16 (Read8 c.m_pRam indirectAddress2)
      { c with m_operandAddress := TO16 (lo ||| (hi <<< 8)) }
  | .IdxInd =>
      let indirectAddress := TO16 (Read8 c.m_pRam (c.PC + 1) + c.X) &&& 0x00FF
      { c with m_operandAddress := Read16 c.m_pRam indirectAddress }
  | .IndIdx =>
      let indirectAddress := TO16 (Read8 c.m_pRam (c.PC + 1))
      { c with m_operandAddress := TO16 (Read16 c.m_pRam indirectAddress + c.Y) }

/-- `Cpu::GetAccumOrMemValue`. -/
def GetAccumOrMemValue (c : Cpu) : Nat :=
  if c.m_pEntry.addrMode = AddressMode.Accumu then c.A
  else Read8 c.m_pRam c.m_operandAddress

/-- `Cpu::SetAccumOrMemValue`. -/
def SetAccumOrMemValue (c : Cpu) (value : Nat) : Cpu :=
  if c.m_pEntry.addrMode = AddressMode.Accumu then { c with A := TO8 value }
  else { c with m_pRam := Write8 c.m_pRam c.m_operandAddress value }

/-- `Cpu::GetMemValue`. -/
def GetMemValue (c : Cpu) : Nat := Read8 c.m_pRam c.m_operandAddress

/-- `Cpu::SetMemValue`. -/
def SetMemValue (c : Cpu) (value : Nat) : Cpu :=
  { c with m_pRam := Write8 c.m_pRam c.m_operandAddress value }

/-- `Cpu::GetBranchOrJmpLocation`. -/
def GetBranchOrJmpLocation (c : Cpu) : Nat := c.m_operandAddress

/-- `Cpu::Push8`: store at `kStackBase + SP`, then `--SP` on a `uint8`. -/
def Push8 (c : Cpu) (value : Nat) : Cpu :=
  { c with m_pRam := Write8 c.m_pRam (kStackBase + c.SP) value,
           SP := (c.SP + 255) % 256 }

/-- `Cpu::Push16`: high byte first, then low byte. -/
def Push16 (c : Cpu) (value : Nat) : Cpu :=
  Push8 (Push8 c (value >>> 8)) (value &&& 0x00FF)

/-- `Cpu::Pop8`: `++SP` on a `uint8`, then read at `kStackBase + SP`. -/
def Pop8 (c : Cpu) : Nat × Cpu :=
  let c1 := { c with SP := (c.SP + 1) % 256 }
  (Read8 c1.m_pRam (kStackBase + c1.SP), c1)

/-- `Cpu::Pop16`: `TO16(Pop8()) | TO16(Pop8()) << 8`, the operands evaluated
from left to right (low byte popped first). -/
def Pop16 (c : Cpu) : Nat × Cpu :=
  let r1 := Pop8 c
  let r2 := Pop8 r1.2
  (TO16 (TO16 r1.1 ||| (TO16 r2.1 <<< 8)), r2.2)

/-- The switch of `Cpu::ExecuteInstruction`, before the closing program
counter update. -/
def ExecuteOpCode (c : Cpu) : Cpu :=
  match c.m_pEntry.opCodeName with
  | .ADC =>
      let value := GetMemValue c
      let result := TO16 (TO16 c.A + TO16 value + TO16 (Bitfield8.Test c.P Carry))
      let P1 := Bitfield8.SetEnabled c.P Negative (CalcNegativeFlag result)
      let P2 := Bitfield8.SetEnabled P1 Zero (CalcZeroFlag result)
      let P3 := Bitfield8.SetEnabled P2 Carry (CalcCarryFlag result)
      let P4 := Bitfield8.SetEnabled P3 Overflow (CalcOverflowFlag c.A value result)
      { c with P := P4, A := TO8 result }
  | .AND =>
      let a := c.A &&& GetMemValue c
      let P1 := Bitfield8.SetEnabled c.P Negative (CalcNegativeFlag8 a)
      let P2 := Bitfield8.SetEnabled P1 Zero (CalcZeroFlag8 a)
      { c with A := a, P := P2 }
  | .ASL =>
      let result := TO16 (TO16 (GetAccumOrMemValue c) <<< 1)
      let P1 := Bitfield8.SetEnabled c.P Negative (CalcNegativeFlag result)
      let P2 := Bitfield8.SetEnabled P1 Zero (CalcZeroFlag result)
      let P3 := Bitfield8.SetEnabled P2 Carry (CalcCarryFlag result)
      SetAccumOrMemValue { c with P := P3 } (TO8 result)
  | .BCC =>
      if Bitfield8.Test c.P Carry = 0 then { c with PC := GetBranchOrJmpLocation c } else c
  | .BCS =>
      if Bitfield8.Test c.P Carry ≠ 0 then { c with PC := GetBranchOrJmpLocation c } else c
  | .BEQ =>
      if Bitfield8.Test c.P Zero ≠ 0 then { c with PC := GetBranchOrJmpLocation c } else c
  | .BIT =>
      let result := c.A &&& GetMemValue c
      let P1 := Bitfield8.SetEnabled c.P Negative (result &&& 0x80)
      let P2 := Bitfield8.SetEnabled P1 Overflow (result &&& 0x40)
      let P3 := Bitfield8.SetEnabled P2 Zero (CalcZeroFlag8 result)
      { c with P := P3 }
  | .BMI =>
      if Bitfield8.Test c.P Negative ≠ 0 then { c with PC := GetBranchOrJmpLocation c } else c
  | .BNE =>
      if Bitfield8.Test c.P Zero = 0 then { c with PC := GetBranchOrJmpLocation c } else c
  | .BPL =>
      if Bitfield8.Test c.P Negative = 0 then { c with PC := GetBranchOrJmpLocation c } else c
  | .BRK =>
      let returnAddr := TO16 (c.PC + c.m_pEntry.numBytes)
      let c1 := Push16 c returnAddr
      let c2 := { c1 with P := Bitfield8.Set c1.P BrkExecuted }
      let c3 := Push8 c2 (Bitfield8.Value c2.P)
      let c4 := { c3 with P := Bitfield8.Set c3.P InterruptsOff }
      { c4 with PC := Read16 c4.m_pRam kIrqVector }
  | .BVC =>
      if Bitfield8.Test c.P Overflow = 0 then { c with PC := GetBranchOrJmpLocation c } else c
  | .BVS =>
      if Bitfield8.Test c.P Overflow ≠ 0 then { c with PC := GetBranchOrJmpLocation c } else c
  | .CLC => { c with P := Bitfield8.Clear c.P Carry }
  | .CLD => { c with P := Bitfield8.Clear c.P Decimal }
  | .CLI => { c with P := Bitfield8.Clear c.P InterruptsOff }
  | .CLV => { c with P := Bitfield8.Clear c.P Overflow }
  | .CMP =>
      -- uint16 result of an int subtraction: reduced modulo 65536
      let result := TO16 (TO16 c.A + 65536 - TO16 (GetMemValue c))
      let P1 := Bitfield8.SetEnabled c.P Negative (CalcNegativeFlag result)
      let P2 := Bitfield8.SetEnabled P1 Zero (CalcZeroFlag result)
      let P3 := Bitfield8.SetEnabled P2 Carry (CalcCarryFlag result)
      { c with P := P3 }
  | .CPX =>
      let result := TO16 (TO16 c.X + 65536 - TO16 (GetMemValue c))
      let P1 := Bitfield8.SetEnabled c.P Negative (CalcNegativeFlag result)
      let P2 := Bitfield8.SetEnabled P1 Zero (CalcZeroFlag result)
      let P3 := Bitfield8.SetEnabled P2 Carry (CalcCarryFlag result)
      { c with P := P3 }
  | .CPY =>
      let result := TO16 (TO16 c.Y + 65536 - TO16 (GetMemValue c))
      let P1 := Bitfield8.SetEnabled c.P Negative (CalcNegativeFlag result)
      let P2 := Bitfield8.SetEnabled P1 Zero (CalcZeroFlag result)
      let P3 := Bitfield8.SetEnabled P2 Carry (CalcCarryFlag result)
      { c with P := P3 }
  | .DEC =>
      let result := TO8 (GetMemValue c + 256 - 1)
      let P1 := Bitfield8.SetEnabled c.P Negative (CalcNegativeFlag8 result)
      let P2 := Bitfield8.SetEnabled P1 Zero (CalcZeroFlag8 result)
      SetMemValue { c with P := P2 } result
  | .DEX =>
      let x := TO8 (c.X + 256 - 1)
      let P1 := Bitfield8.SetEnabled c.P Negative (CalcNegativeFlag8 x)
      let P2 := Bitfield8.SetEnabled P1 Zero (CalcZeroFlag8 x)
      { c with X := x, P := P2 }
  | .DEY =>
      let y := TO8 (c.Y + 256 - 1)
      let P1 := Bitfield8.SetEnabled c.P Negative (CalcNegativeFlag8 y)
      let P2 := Bitfield8.SetEnabled P1 Zero (CalcZeroFlag8 y)
      { c with Y := y, P := P2 }
  | .EOR =>
      let a := c.A ^^^ GetMemValue c
      let P1 := Bitfield8.SetEnabled c.P Negative (CalcNegativeFlag8 a)
      let P2 := Bitfield8.SetEnabled P1 Zero (CalcZeroFlag8 a)
      { c with A := a, P := P2 }
  | .INC =>
      let result := TO8 (GetMemValue c + 1)
      let P1 := Bitfield8.SetEnabled c.P Negative (CalcNegativeFlag8 result)
      let P2 := Bitfield8.SetEnabled P1 Zero (CalcZeroFlag8 result)
      SetMemValue { c with P := P2 } result
  | .INX =>
      let x := TO8 (c.X + 1)
      let P1 := Bitfield8.SetEnabled c.P Negative (CalcNegativeFlag8 x)
      let P2 := Bitfield8.SetEnabled P1 Zero (CalcZeroFlag8 x)
      { c with X := x, P := P2 }
  | .INY =>
      let y := TO8 (c.Y + 1)
      let P1 := Bitfield8.SetEnabled c.P Negative (CalcNegativeFlag8 y)
      let P2 := Bitfield8.SetEnabled P1 Zero (CalcZeroFlag8 y)
      { c with Y := y, P := P2 }
  | .JMP => { c with PC := GetBranchOrJmpLocation c }
  | .JSR =>
      let returnAddr := TO16 (c.PC + c.m_pEntry.numBytes + 65536 - 1)
      let c1 := Push16 c returnAddr
      { c1 with PC := GetBranchOrJmpLocation c1 }
  | .LDA =>
      let a := GetMemValue c
      let P1 := Bitfield8.SetEnabled c.P Negative (CalcNegativeFlag8 a)
      let P2 := Bitfield8.SetEnabled P1 Zero (CalcZeroFlag8 a)
      { c with A := a, P := P2 }
  | .LDX =>
      let x := GetMemValue c
      let P1 := Bitfield8.SetEnabled c.P Negative (CalcNegativeFlag8 x)
      let P2 := Bitfield8.SetEnabled P1 Zero (CalcZeroFlag8 x)
      { c with X := x, P := P2 }
  | .LDY =>
      let y := GetMemValue c
      let P1 := Bitfield8.SetEnabled c.P Negative (CalcNegativeFlag8 y)
      let P2 := Bitfield8.SetEnabled P1 Zero (CalcZeroFlag8 y)
      { c with Y := y, P := P2 }
  | .LSR =>
      -- the shifted value is computed for the flags and is not stored
      let value := GetAccumOrMemValue c
      let result := TO8 (value >>> 1)
      let P1 := Bitfield8.SetEnabled c.P Carry (value &&& 0x01)
      let P2 := Bitfield8.SetEnabled P1 Zero (CalcZeroFlag8 result)
      let P3 := Bitfield8.Clear P2 Negative
      { c with P := P3 }
  | .NOP => c
  | .ORA =>
      let a := c.A ||| GetMemValue c
      let P1 := Bitfield8.SetEnabled c.P Negative (CalcNegativeFlag8 a)
      let P2 := Bitfield8.SetEnabled P1 Zero (CalcZeroFlag8 a)
      { c with A := a, P := P2 }
  | .PHA => Push8 c c.A
  | .PHP =>
      let c1 := { c with P := Bitfield8.Set c.P BrkExecuted }
      Push8 c1 (Bitfield8.Value c1.P)
  | .PLA =>
      let r := Pop8 c
      let a := r.1
      let P1 := Bitfield8.SetEnabled r.2.P Negative (CalcNegativeFlag8 a)
      let P2 := Bitfield8.SetEnabled P1 Zero (CalcZeroFlag8 a)
      { r.2 with A := a, P := P2 }
  | .PLP =>
      let r := Pop8 c
      { r.2 with P := Bitfield8.Set r.2.P r.1 }
  | .ROL =>
      let result :=
        TO16 ((TO16 (GetAccumOrMemValue c) <<< 1) ||| TO16 (Bitfield8.Test c.P Carry))
      let P1 := Bitfield8.SetEnabled c.P Carry (CalcCarryFlag result)
      let P2 := Bitfield8.SetEnabled P1 Negative (CalcNegativeFlag result)
      let P3 := Bitfield8.SetEnabled P2 Zero (CalcZeroFlag result)
      SetAccumOrMemValue { c with P := P3 } (TO8 result)
  | .ROR =>
      let value := GetAccumOrMemValue c
      let result := TO8 ((value >>> 1) &&& (Bitfield8.Test c.P Carry <<< 7))
      let P1 := Bitfield8.SetEnabled c.P Carry (value &&& 0x01)
      let P2 := Bitfield8.SetEnabled P1 Negative (CalcNegativeFlag8 result)
      let P3 := Bitfield8.SetEnabled P2 Zero (CalcZeroFlag8 result)
      SetAccumOrMemValue { c with P := P3 } result
  | .RTI =>
      let r := Pop8 c
      let c1 := { r.2 with P := Bitfield8.Set r.2.P r.1 }
      let r2 := Pop16 c1
      { r2.2 with PC := r2.1 }
  | .RTS =>
      let r := Pop16 c
      { r.2 with PC := TO16 (r.1 + 1) }
  | .SBC =>
      -- uint8 value = -GetMemValue(): the two's complement of the operand
      let value := TO8 (256 - GetMemValue c)
      let result := TO16 (TO16 c.A + TO16 value + TO16 (Bitfield8.Test c.P Carry))
      let P1 := Bitfield8.SetEnabled c.P Negative (CalcNegativeFlag result)
      let P2 := Bitfield8.SetEnabled P1 Zero (CalcZeroFlag result)
      let P3 := Bitfield8.SetEnabled P2 Carry (CalcCarryFlag result)
      let P4 := Bitfield8.SetEnabled P3 Overflow (CalcOverflowFlag c.A value result)
      { c with P := P4, A := TO8 result }
  | .SEC => { c with P := Bitfield8.Set c.P Carry }
  | .SED => { c with P := Bitfield8.Set c.P Decimal }
  | .SEI => { c with P := Bitfield8.Set c.P InterruptsOff }
  | .STA => SetMemValue c c.A
  | .STX => SetMemValue c c.X
  | .STY => SetMemValue c c.Y
  | .TAX =>
      let x := c.A
      let P1 := Bitfield8.SetEnabled c.P Negative (CalcNegativeFlag8 x)
      let P2 := Bitfield8.SetEnabled P1 Zero (CalcZeroFlag8 x)
      { c with X := x, P := P2 }
  | .TAY =>
      let y := c.A
      let P1 := Bitfield8.SetEnabled c.P Negative (CalcNegativeFlag8 y)
      let P2 := Bitfield8.SetEnabled P1 Zero (CalcZeroFlag8 y)
      { c with Y := y, P := P2 }
  | .TSX =>
      let x := c.SP
      let P1 := Bitfield8.SetEnabled c.P Negative (CalcNegativeFlag8 x)
      let P2 := Bitfield8.SetEnabled P1 Zero (CalcZeroFlag8 x)
      { c with X := x, P := P2 }
  | .TXA =>
      let a := c.X
      let P1 := Bitfield8.SetEnabled c.P Negative (CalcNegativeFlag8 a)
      let P2 := Bitfield8.SetEnabled P1 Zero (CalcZeroFlag8 a)
      { c with A := a, P := P2 }
  | .TXS => { c with SP := c.X }
  | .TYA =>
      let a := c.Y
      let P1 := Bitfield8.SetEnabled c.P Negative (CalcNegativeFlag8 a)
      let P2 := Bitfield8.SetEnabled P1 Zero (CalcZeroFlag8 a)
      { c with A := a, P := P2 }

/-- `Cpu::ExecuteInstruction`: the switch, then the program counter moves to the
next instruction when it still holds its value from before the switch. -/
def ExecuteInstruction (c : Cpu) : Cpu :=
  let startPC := c.PC
  let c1 := ExecuteOpCode c
  if startPC = c1.PC then { c1 with PC := TO16 (c1.PC + c1.m_pEntry.numBytes) } else c1

/-- `Cpu::Run`: one instruction is decoded, its operand resolved, and it is
executed.  The opcode table `g_ppOpCodeTable` is absent: the entry it holds for
the opcode byte at `PC` is the argument `entry`. -/
def Run (entry : OpCodeEntry) (c : Cpu) : Cpu :=
  ExecuteInstruction (UpdateOperand { c with m_pEntry := entry })

/-- Consecutive `Push8` calls, one for each byte of the list, first byte
first. -/
def pushAll : List Nat → Cpu → Cpu
  | [], c => c
  | b :: bs, c => pushAll bs (Push8 c b)

/-- Consecutive `Pop8` calls: the bytes returned, in the order of the calls, and
the final state. -/
def popN : Nat → Cpu → List Nat × Cpu
  | 0, c => ([], c)
  | n + 1, c =>
      let r := Pop8 c
      let rest := popN n r.2
      (r.1 :: rest.1, rest.2)

end Cpu

end NesEmu

/-! ## APU (`Apu.cpp`, `Apu.h`)

Unsigned members are natural numbers reduced at every store; the `int` member
`m_frameSequencer`, the `int16` tables and the samples are integers.  The SDL
calls and the debug file dump have no effect on the members and are left out.
The waveform and length tables are members filled by `GenerateWaveForm`; they
are fields of the state.  In the longer functions the successive values of the
state are bound with `have`, one binding for each statement of the source.
-/

namespace NesEmu

/-- Conversion of an `int` to `int16` (two's-complement wrap). -/
def toInt16 (x : Int) : Int := (x + 32768) % 65536 - 32768

/-- Modelled from the spec: the mask `BITS(...)` of `Base.h` (absent): the
listed bit positions raised. -/
def BITS (bits : List Nat) : Nat := bits.foldl (fun m b => m ||| (1 <<< b)) 0

namespace CpuMemory

/-- Modelled from the spec: the APU register addresses of `MemoryMap.h`
(absent), `0x4000-0x4017` with the channel enable register at `0x4015` and the
frame counter at `0x4017`. -/
def kApuPulse1ChannelA : Nat := 0x4000
def kApuPulse1ChannelB : Nat := 0x4001
def kApuPulse1ChannelC : Nat := 0x4002
def kApuPulse1ChannelD : Nat := 0x4003
def kApuTriangleChannelA : Nat := 0x4008
def kApuTriangleChannelB : Nat := 0x400A
def kApuTriangleChannelC : Nat := 0x400B
def kApuNoiseChannelA : Nat := 0x400C
def kApuNoiseChannelB : Nat := 0x400E
def kApuNoiseChannelC : Nat := 0x400F
def kApuControlStatus : Nat := 0x4015
def kApuFrameCounter : Nat := 0x4017

end CpuMemory

/-- `struct PulseData` of `Apu.h`. -/
structure PulseData where
  m_pulseDuty : Nat
  m_pulseHaltLoop : Nat
  m_pulseConstant : Nat
  m_pulseVolume : Nat
  m_pulseSweepEnabled : Nat
  m_pulseSweepPeriod : Nat
  m_pulseSweepNeg : Nat
  m_pulseSweepShift : Nat
  m_pulseSweepReload : Bool
  m_pulseSweepDivider : Nat
  m_pulseSweepTargetPeriod : Nat
  m_pulseTimer : Nat
  m_pulseLength : Nat
  m_pulseSequencer : Nat
  m_pulseEnabled : Nat
  m_pulseEnvelopeDivider : Nat
  m_pulseEnvelopeCounter : Nat
  m_startFlag : Bool
  deriving DecidableEq, Repr

/-- The members of class `Apu`; `m_pulses[0]` and `m_pulses[1]` are the fields
`m_pulses0` and `m_pulses1`. -/
structure Apu where
  m_frameCounter : Nat
  m_cycleCounter : Nat
  m_frameSequencer : Int
  m_lastPause : Bool
  m_pulseWaveFormDuty : Nat → Nat → Int
  m_triangleWaveForm : Nat → Int
  m_noiseFreq : Nat → Nat
  m_noiseWaveForm : Nat → Int
  m_noteLength : Nat → Nat
  m_DMCEnabled : Nat
  m_DMCLength : Nat
  m_frameSequencerMode : Nat
  m_frameSequencerIRQDisable : Nat
  m_pulses0 : PulseData
  m_pulses1 : PulseData
  m_triangleControlFlag : Nat
  m_triangleCounterReload : Nat
  m_triangleTimer : Nat
  m_triangleLength : Nat
  m_triangleReloadFlag : Bool
  m_triangleSequencer : Nat
  m_triangleEnabled : Nat
  m_triangleCounter : Nat
  m_noiseHaltFlag : Nat
  m_noiseConstant : Nat
  m_noiseVolume : Nat
  m_noiseMode : Nat
  m_noisePeriod : Nat
  m_noiseLength : Nat
  m_noiseSequencer : Nat
  m_noiseLinearFeedback : Nat
  m_noiseEnabled : Nat
  m_noiseEnvelopeRestart : Bool
  m_noiseEnvelopeDivider : Nat
  m_noiseEnvelopeCounter : Nat

open CpuMemory

namespace Apu

/-- The element `m_pulses[p]`, for `p` 0 or 1. -/
def pulse (a : Apu) (p : Nat) : PulseData := if p = 0 then a.m_pulses0 else a.m_pulses1

/-- Assignment to the element `m_pulses[p]`, for `p` 0 or 1. -/
def setPulse (a : Apu) (p : Nat) (d : PulseData) : Apu :=
  if p = 0 then { a with m_pulses0 := d } else { a with m_pulses1 := d }

/-- The body of the loop of `Apu::Reset` over the pulse channels. -/
def ResetPulse (d : PulseData) : PulseData :=
  { d with m_pulseTimer := 0, m_pulseEnabled := 0, m_startFlag := false,
           m_pulseSweepReload := false, m_pulseSweepTargetPeriod := 0,
           m_pulseVolume := 0, m_pulseSequencer := 0 }

/-- `Apu::Reset`. -/
def Reset (a : Apu) : Apu :=
  { a with m_frameCounter := 0,
           m_pulses0 := ResetPulse a.m_pulses0,
           m_pulses1 := ResetPulse a.m_pulses1,
           m_triangleSequencer := 0, m_triangleTimer := 0, m_triangleEnabled := 0,
           m_noiseSequencer := 0, m_noiseLinearFeedback := 1, m_noiseEnabled := 0,
           m_noiseLength := 0, m_cycleCounter := 0, m_frameSequencer := 0 }

/-- The body of the loop of `Apu::ExecuteEnvelope` over the pulse channels. -/
def EnvelopePulse (d : PulseData) : PulseData :=
  if d.m_startFlag then
    { d with m_startFlag := false, m_pulseEnvelopeCounter := 15,
             m_pulseEnvelopeDivider := (d.m_pulseVolume + 1) % 256 }
  else
    have d1 := { d with m_pulseEnvelopeDivider := (d.m_pulseEnvelopeDivider + 255) % 256 }
    if d1.m_pulseEnvelopeDivider = 0 then
      have d2 := { d1 with m_pulseEnvelopeDivider := (d1.m_pulseVolume + 1) % 256 }
      if d2.m_pulseEnvelopeCounter ≠ 0 then
        { d2 with m_pulseEnvelopeCounter := (d2.m_pulseEnvelopeCounter + 255) % 256 }
      else if d2.m_pulseHaltLoop ≠ 0 then
        { d2 with m_pulseEnvelopeCounter := 15 }
      else d2
    else d1

/-- `Apu::ExecuteEnvelope`. -/
def ExecuteEnvelope (a : Apu) : Apu :=
  have a1 := { a with m_pulses0 := EnvelopePulse a.m_pulses0 }
  have a2 := { a1 with m_pulses1 := EnvelopePulse a1.m_pulses1 }
  have a3 :=
    if a2.m_triangleReloadFlag then
      have b := { a2 with m_triangleCounter := a2.m_triangleCounterReload }
      if b.m_triangleControlFlag = 0 then { b with m_triangleReloadFlag := false } else b
    else if a2.m_triangleCounter ≠ 0 then
      { a2 with m_triangleCounter := (a2.m_triangleCounter + 255) % 256 }
    else a2
  if a3.m_noiseEnvelopeRestart then
    { a3 with m_noiseEnvelopeRestart := false, m_noiseEnvelopeCounter := 15,
              m_noiseEnvelopeDivider := (a3.m_noiseVolume + 1) % 256 }
  else
    have b1 := { a3 with m_noiseEnvelopeDivider := (a3.m_noiseEnvelopeDivider + 255) % 256 }
    if b1.m_noiseEnvelopeDivider = 0 then
      have b2 := { b1 with m_noiseEnvelopeDivider := (b1.m_noiseVolume + 1) % 256 }
      if b2.m_noiseEnvelopeCounter ≠ 0 then
        { b2 with m_noiseEnvelopeCounter := (b2.m_noiseEnvelopeCounter + 255) % 256 }
      else if b2.m_noiseHaltFlag ≠ 0 then
        { b2 with m_noiseEnvelopeCounter := 15 }
      else b2
    else b1

/-- The body of the loop of `Apu::ExecuteLengthAndSweep` over the pulse
channels, for channel `p`. -/
def LengthAndSweepPulse (p : Nat) (d : PulseData) : PulseData :=
  have d1 :=
    if d.m_pulseEnabled ≠ 0 ∧ d.m_pulseLength ≠ 0 ∧ d.m_pulseHaltLoop = 0 then
      { d with m_pulseLength := (d.m_pulseLength + 255) % 256 }
    else d
  -- reloadSweepPeriod, forceUpdatePulseTimer and the channel after the divider step
  have r : Bool × Bool × PulseData :=
    if d1.m_pulseSweepReload then
      (true, decide (d1.m_pulseSweepDivider = 0), { d1 with m_pulseSweepReload := false })
    else if d1.m_pulseSweepDivider ≠ 0 then
      (false, false, { d1 with m_pulseSweepDivider := (d1.m_pulseSweepDivider + 255) % 256 })
    else (true, false, d1)
  have reloadSweepPeriod := r.1
  have forceUpdatePulseTimer := r.2.1
  have d2 := r.2.2
  have d3 :=
    if reloadSweepPeriod = true ∧ d2.m_pulseSweepEnabled ≠ 0 then
      have e := { d2 with m_pulseSweepDivider := (d2.m_pulseSweepPeriod + 1) % 256 }
      have sweeping0 : Int := toInt16 ((e.m_pulseTimer >>> e.m_pulseSweepShift : Nat) : Int)
      have sweeping : Int :=
        if e.m_pulseSweepNeg ≠ 0 then
          have s1 := toInt16 (-sweeping0)
          if p = 0 then toInt16 (s1 - 1) else s1
        else sweeping0
      { e with m_pulseSweepTargetPeriod := (((e.m_pulseTimer : Int) + sweeping) % 65536).toNat }
    else d2
  if d3.m_pulseSweepEnabled ≠ 0 ∧ d3.m_pulseSweepShift ≠ 0 ∧
      (d3.m_pulseSweepDivider = 0 ∨ forceUpdatePulseTimer = true) then
    if ¬ (d3.m_pulseTimer < 8 ∨ d3.m_pulseSweepTargetPeriod > 0x7FF) then
      { d3 with m_pulseTimer := d3.m_pulseSweepTargetPeriod }
    else d3
  else d3

/-- `Apu::ExecuteLengthAndSweep`. -/
def ExecuteLengthAndSweep (a : Apu) : Apu :=
  have a1 := { a with m_pulses0 := LengthAndSweepPulse 0 a.m_pulses0 }
  have a2 := { a1 with m_pulses1 := LengthAndSweepPulse 1 a1.m_pulses1 }
  have a3 :=
    if a2.m_triangleEnabled ≠ 0 ∧ a2.m_triangleLength ≠ 0 ∧ a2.m_triangleControlFlag = 0 then
      { a2 with m_triangleLength := (a2.m_triangleLength + 255) % 256 }
    else a2
  if a3.m_noiseEnabled ≠ 0 ∧ a3.m_noiseLength ≠ 0 ∧ a3.m_noiseHaltFlag = 0 then
    { a3 with m_noiseLength := (a3.m_noiseLength + 255) % 256 }
  else a3

/-- `case 0` of the switch of `Apu::Execute` (mode 0, 4-step). -/
def ExecuteMode0 (a : Apu) : Apu :=
  let b1 := if a.m_frameSequencer ≥ 4 then { a with m_frameSequencer := 0 } else a
  let b2 :=
    if b1.m_frameSequencer = 1 ∨ b1.m_frameSequencer = 3 then ExecuteLengthAndSweep b1
    else b1
  ExecuteEnvelope b2

/-- `case 1` of the switch of `Apu::Execute` (mode 1, 5-step). -/
def ExecuteMode1 (a : Apu) : Apu :=
  let b1 := if a.m_frameSequencer ≥ 5 then { a with m_frameSequencer := 0 } else a
  let b2 :=
    if b1.m_frameSequencer = 0 ∨ b1.m_frameSequencer = 2 then ExecuteLengthAndSweep b1
    else b1
  if b2.m_frameSequencer ≤ 3 then ExecuteEnvelope b2 else b2

/-- `Apu::Execute`.  The `int` counter `m_frameSequencer` is an unbounded
integer. -/
def Execute (a : Apu) (cpuCycles : Nat) : Apu :=
  let a1 := { a with m_cycleCounter := (a.m_cycleCounter + cpuCycles % 4294967296) % 4294967296 }
  if a1.m_cycleCounter < 7457 then a1
  else
    let a2 := { a1 with m_cycleCounter := a1.m_cycleCounter - 7457 }
    let a3 :=
      if a2.m_frameSequencerMode = 0 then ExecuteMode0 a2
      else if a2.m_frameSequencerMode = 1 then ExecuteMode1 a2
      else a2
    { a3 with m_frameSequencer := a3.m_frameSequencer + 1 }

/-- The body of the loop of `Apu::HandleCpuWrite` over the pulse channels, for
channel `p`. -/
def HandleCpuWritePulse (p : Nat) (cpuAddress value : Nat) (a : Apu) : Apu :=
  let pulseAddressOffset := (p <<< 2) % 65536
  let d := a.pulse p
  if cpuAddress = kApuPulse1ChannelA + pulseAddressOffset then
    a.setPulse p
      { d with m_pulseDuty := ((value &&& BITS [7, 6]) >>> 6) % 256,
               m_pulseHaltLoop := ((value &&& BITS [5]) >>> 5) % 256,
               m_pulseConstant := ((value &&& BITS [4]) >>> 4) % 256,
               m_pulseVolume := ((value &&& BITS [0, 1, 2, 3]) >>> 0) % 256 }
  else if cpuAddress = kApuPulse1ChannelB + pulseAddressOffset then
    a.setPulse p
      { d with m_pulseSweepEnabled := ((value &&& BITS [7]) >>> 7) % 256,
               m_pulseSweepPeriod := ((value &&& BITS [6, 5, 4]) >>> 4) % 256,
               m_pulseSweepNeg := ((value &&& BITS [3]) >>> 3) % 256,
               m_pulseSweepShift := ((value &&& BITS [0, 1, 2]) >>> 0) % 256,
               m_pulseSweepReload := true }
  else if cpuAddress = kApuPulse1ChannelC + pulseAddressOffset then
    a.setPulse p
      { d with m_pulseTimer := ((d.m_pulseTimer &&& 0xFFFFFF00) ||| value) % 65536 }
  else if cpuAddress = kApuPulse1ChannelD + pulseAddressOffset then
    a.setPulse p
      { d with m_pulseLength := a.m_noteLength ((value &&& BITS [7, 6, 5, 4, 3]) >>> 3) % 256,
               m_pulseTimer :=
                 ((d.m_pulseTimer &&& 0xFFFFF8FF) ||| ((value &&& BITS [0, 1, 2]) <<< 8)) % 65536,
               m_startFlag := true }
  else a

/-- `Apu::HandleCpuWrite`; `value` is a `uint8`. -/
def HandleCpuWrite (a : Apu) (cpuAddress value : Nat) : Apu :=
  have a1 := HandleCpuWritePulse 0 cpuAddress value a
  have a2 := HandleCpuWritePulse 1 cpuAddress value a1
  if cpuAddress = kApuControlStatus then
    have b1 := { a2 with m_DMCEnabled := ((value &&& BITS [4]) >>> 4) % 256 }
    have b2 := if b1.m_DMCEnabled = 0 then { b1 with m_DMCLength := 0 } else b1
    have b3 := { b2 with m_noiseEnabled := ((value &&& BITS [3]) >>> 3) % 256 }
    have b4 := if b3.m_noiseEnabled = 0 then { b3 with m_noiseLength := 0 } else b3
    have b5 := { b4 with m_triangleEnabled := ((value &&& BITS [2]) >>> 2) % 256 }
    have b6 := if b5.m_triangleEnabled = 0 then { b5 with m_triangleLength := 0 } else b5
    have p1 : PulseData := { b6.m_pulses1 with m_pulseEnabled := ((value &&& BITS [1]) >>> 1) % 256 }
    have p1a : PulseData := if p1.m_pulseEnabled = 0 then { p1 with m_pulseLength := 0 } else p1
    have p0 : PulseData := { b6.m_pulses0 with m_pulseEnabled := ((value &&& BITS [0]) >>> 0) % 256 }
    have p0a : PulseData := if p0.m_pulseEnabled = 0 then { p0 with m_pulseLength := 0 } else p0
    { b6 with m_pulses1 := p1a, m_pulses0 := p0a }
  else if cpuAddress = kApuFrameCounter then
    { a2 with m_frameSequencerMode := ((value &&& BITS [7]) >>> 7) % 256,
              m_frameSequencerIRQDisable := ((value &&& BITS [6]) >>> 6) % 256 }
  else if cpuAddress = kApuTriangleChannelA then
    { a2 with m_triangleControlFlag := ((value &&& BITS [7]) >>> 7) % 256,
              m_triangleCounterReload := ((value &&& (0xFFFFFFFF ^^^ BITS [7])) >>> 0) % 256 }
  else if cpuAddress = kApuTriangleChannelB then
    { a2 with m_triangleTimer := ((a2.m_triangleTimer &&& 0xFFFFFF00) ||| value) % 65536 }
  else if cpuAddress = kApuTriangleChannelC then
    { a2 with m_triangleLength := a2.m_noteLength ((value &&& BITS [7, 6, 5, 4, 3]) >>> 3) % 256,
              m_triangleTimer :=
                ((a2.m_triangleTimer &&& 0xFFFFF8FF) ||| ((value &&& BITS [0, 1, 2]) <<< 8)) % 65536,
              m_triangleReloadFlag := true }
  else if cpuAddress = kApuNoiseChannelA then
    { a2 with m_noiseHaltFlag := ((value &&& BITS [5]) >>> 5) % 256,
              m_noiseConstant := ((value &&& BITS [4]) >>> 4) % 256,
              m_noiseVolume := ((value &&& BITS [0, 1, 2, 3]) >>> 0) % 256 }
  else if cpuAddress = kApuNoiseChannelB then
    { a2 with m_noiseMode := ((value &&& BITS [7]) >>> 7) % 256,
              m_noisePeriod := ((value &&& BITS [0, 1, 2, 3]) >>> 0) % 256 }
  else if cpuAddress = kApuNoiseChannelC then
    { a2 with m_noiseLength := a2.m_noteLength ((value &&& BITS [7, 6, 5, 4, 3]) >>> 3) % 256,
              m_noiseEnvelopeRestart := true }
  else a2

/-- The sample loop of the pulse mixing of `Apu::FillSoundBuffer`: from the
phase accumulator and the samples to the new accumulator and samples. -/
def pulseSamples (wave : Nat → Int) (freq : Nat) (volume : Int) :
    Nat → List Int → Nat × List Int
  | seq, [] => (seq, [])
  | seq, x :: xs =>
      let sequencer := ((seq >>> 14) &&& 7) % 256
      let r := pulseSamples wave freq volume ((seq + freq) % 4294967296) xs
      (r.1, toInt16 (x + toInt16 (wave sequencer * volume)) :: r.2)

/-- The body of the loop of `Apu::FillSoundBuffer` over the pulse channels, for
channel `p`. -/
def mixPulse (p : Nat) (s : Apu × List Int) : Apu × List Int :=
  let a := s.1
  let d := a.pulse p
  if d.m_pulseEnabled = 0 ∨ d.m_pulseLength = 0 then s
  else
    let freq := 5319481 / (16 * (d.m_pulseTimer + 1))
    let volume0 : Int :=
      if d.m_pulseConstant ≠ 0 then (d.m_pulseVolume : Int) else (d.m_pulseEnvelopeCounter : Int)
    let volume : Int :=
      if d.m_pulseTimer < 8 ∨ d.m_pulseSweepTargetPeriod > 0x7FF then 0 else volume0
    if volume = 0 then s
    else
      let r := pulseSamples (a.m_pulseWaveFormDuty d.m_pulseDuty) freq volume
        d.m_pulseSequencer s.2
      (a.setPulse p { d with m_pulseSequencer := r.1 }, r.2)

/-- The sample loop of the running triangle of `Apu::FillSoundBuffer`. -/
def triangleSamples (wave : Nat → Int) (freq : Nat) : Nat → List Int → Nat × List Int
  | seq, [] => (seq, [])
  | seq, x :: xs =>
      let sequencer := ((seq >>> 14) &&& 31) % 256
      let r := triangleSamples wave freq ((seq + freq) % 4294967296) xs
      (r.1, toInt16 (x + toInt16 (wave sequencer)) :: r.2)

/-- The triangle block of `Apu::FillSoundBuffer`. -/
def mixTriangle (s : Apu × List Int) : Apu × List Int :=
  let a := s.1
  if a.m_triangleEnabled ≠ 0 ∧ a.m_triangleLength ≠ 0 ∧ a.m_triangleCounter ≠ 0 ∧
      a.m_triangleTimer > 1 then
    let freq := 21277924 / (32 * (a.m_triangleTimer + 1))
    let r := triangleSamples a.m_triangleWaveForm freq a.m_triangleSequencer s.2
    ({ a with m_triangleSequencer := r.1 }, r.2)
  else
    let sequencer := ((a.m_triangleSequencer >>> 14) &&& 31) % 256
    let trianglevalue := a.m_triangleWaveForm sequencer
    (a, s.2.map (fun x => toInt16 (x + trianglevalue)))

/-- The sample loop of the noise mixing of `Apu::FillSoundBuffer`. -/
def noiseSamples (wave : Nat → Int) (freq : Nat) (volume : Int) :
    Nat → List Int → Nat × List Int
  | seq, [] => (seq, [])
  | seq, x :: xs =>
      let seq1 := (seq + freq) % 4294967296
      let r := noiseSamples wave freq volume seq1 xs
      (r.1, toInt16 (x + toInt16 (wave ((seq1 >>> 14) &&& 32767) * volume)) :: r.2)

/-- The noise block of `Apu::FillSoundBuffer`; the static `tweak` is 10. -/
def mixNoise (s : Apu × List Int) : Apu × List Int :=
  let a := s.1
  if a.m_noiseEnabled ≠ 0 ∧ a.m_noiseLength ≠ 0 then
    let tweak := 10
    let freq := 1789773 / (tweak * a.m_noiseFreq a.m_noisePeriod)
    let volume : Int :=
      if a.m_noiseConstant ≠ 0 then (a.m_noiseVolume : Int) else (a.m_noiseEnvelopeCounter : Int)
    let r := noiseSamples a.m_noiseWaveForm freq volume a.m_noiseSequencer s.2
    ({ a with m_noiseSequencer := r.1 }, r.2)
  else s

/-- `Apu::FillSoundBuffer` on a buffer of `len` samples: the state afterwards
and the samples written. -/
def FillSoundBuffer (a : Apu) (len : Nat) : Apu × List Int :=
  let s0 : Apu × List Int := (a, List.replicate len 0)
  let s1 := mixPulse 0 s0
  let s2 := mixPulse 1 s1
  let s3 := mixTriangle s2
  mixNoise s3

/-- Consecutive `Execute` calls, one for each cycle count of the list: the final
state and the number of calls that performed a frame-sequencer step, a call
counting as one when the state it returns has another `m_frameSequencer` than
the state it was given. -/
def executeAll : List Nat → Apu → Apu × Nat
  | [], a => (a, 0)
  | n :: ns, a =>
      let b := Execute a n
      let stepped := if b.m_frameSequencer = a.m_frameSequencer then 0 else 1
      let r := executeAll ns b
      (r.1, stepped + r.2)

end Apu

end NesEmu

/-! ## Waveform tables (`Apu::GenerateWaveForm`) -/

namespace NesEmu

namespace Apu

/-- The store `table[i] = v` into a one-dimensional array member. -/
def store (table : Nat → Int) (i : Nat) (v : Int) : Nat → Int :=
  fun k => if k = i then v else table k

/-- The store `table[j][i] = v` into a two-dimensional array member. -/
def store2 (table : Nat → Nat → Int) (j i : Nat) (v : Int) : Nat → Nat → Int :=
  fun r k => if r = j ∧ k = i then v else table r k

/-- The pulse part of `Apu::GenerateWaveForm`: the nested loops that fill
`m_pulseWaveFormDuty` with `-amplitude`, then the thirteen single stores. -/
def GeneratePulseDuty (table : Nat → Nat → Int) : Nat → Nat → Int :=
  let amplitude : Int := 70
  let t0 := (List.range 4).foldl
    (fun t j => (List.range 8).foldl (fun u i => store2 u j i (toInt16 (-amplitude))) t) table
  let t1 := store2 t0 0 1 amplitude
  let t2 := store2 (store2 t1 1 1 amplitude) 1 2 amplitude
  let t3 := store2 (store2 (store2 (store2 t2 2 1 amplitude) 2 2 amplitude) 2 3 amplitude)
    2 4 amplitude
  store2 (store2 (store2 (store2 (store2 (store2 t3 3 0 amplitude) 3 3 amplitude)
    3 4 amplitude) 3 5 amplitude) 3 6 amplitude) 3 7 amplitude

/-- The triangle loop of `Apu::GenerateWaveForm`, with `amplitude = 1400`: the
`int` expression is cast to `uint16` and stored into the `int16` table, then
copied to the mirrored index. -/
def GenerateTriangle (table : Nat → Int) : Nat → Int :=
  let amplitude : Int := 1400
  (List.range 16).foldl
    (fun t i =>
      let t1 := store t (i + 16)
        (toInt16 ((Int.tdiv ((i : Int) * 2 * amplitude) 16 - amplitude) % 65536))
      store t1 (15 - i) (t1 (i + 16)))
    table

/-- The update of `feedback` in the noise loop of `Apu::GenerateWaveForm`; the
`int` variable stays below `2^15`, so it is a natural number. -/
def noiseFeedback (feedback : Nat) : Nat :=
  let bit := (feedback &&& 1) ^^^ ((feedback &&& 2) >>> 1)
  (feedback >>> 1) ||| (bit <<< 14)

/-- The first `n` iterations of the noise loop of `Apu::GenerateWaveForm`, with
`amplitude = 60` and `feedback = 1` at the start: the value of `feedback` and
the table after them. -/
def noiseLoop (n : Nat) (table : Nat → Int) : Nat × (Nat → Int) :=
  let amplitude : Int := 60
  (List.range n).foldl
    (fun s i =>
      (noiseFeedback s.1,
        store s.2 i (toInt16 (((s.1 &&& 1 : Nat) : Int) * amplitude * 2 - amplitude))))
    (1, table)

/-- The noise loop of `Apu::GenerateWaveForm`: the table after its 32768
iterations. -/
def GenerateNoise (table : Nat → Int) : Nat → Int := (noiseLoop 32768 table).2

/-- The array `noisefreqs` of `Apu::GenerateWaveForm`. -/
def noisefreqs : List Nat :=
  [4, 8, 16, 32, 64, 96, 128, 160, 202, 254, 380, 508, 762, 1016, 2034, 4068]

/-- The array `notelength` of `Apu::GenerateWaveForm`. -/
def notelength : List Nat :=
  [10, 254, 20, 2, 40, 4, 80, 6, 160, 8, 60, 10, 14, 12, 26, 14,
   12, 16, 24, 18, 48, 20, 96, 22, 192, 24, 72, 26, 16, 28, 32, 30]

/-- `Apu::GenerateWaveForm`; the two `memcpy` calls copy the 16 and 32 entries
of the local arrays. -/
def GenerateWaveForm (a : Apu) : Apu :=
  { a with
    m_pulseWaveFormDuty := GeneratePulseDuty a.m_pulseWaveFormDuty,
    m_triangleWaveForm := GenerateTriangle a.m_triangleWaveForm,
    m_noiseFreq := fun i => if i < 16 then noisefreqs.getD i 0 else a.m_noiseFreq i,
    m_noiseWaveForm := GenerateNoise a.m_noiseWaveForm,
    m_noteLength := fun i => if i < 32 then notelength.getD i 0 else a.m_noteLength i }

end Apu

end NesEmu

/-! ## The loop body of `Apu::ExecuteLengthAndSweep`, statement by statement -/

namespace NesEmu

namespace Apu

/-- The length-counter statement of the loop body of
`Apu::ExecuteLengthAndSweep`. -/
def lengthStep (d : PulseData) : PulseData :=
  if d.m_pulseEnabled ≠ 0 ∧ d.m_pulseLength ≠ 0 ∧ d.m_pulseHaltLoop = 0 then
    { d with m_pulseLength := (d.m_pulseLength + 255) % 256 }
  else d

/-- The reload/divider statement of the loop body of
`Apu::ExecuteLengthAndSweep`: `reloadSweepPeriod`, `forceUpdatePulseTimer` and
the channel afterwards. -/
def sweepDividerStep (d : PulseData) : Bool × Bool × PulseData :=
  if d.m_pulseSweepReload then
    (true, decide (d.m_pulseSweepDivider = 0), { d with m_pulseSweepReload := false })
  else if d.m_pulseSweepDivider ≠ 0 then
    (false, false, { d with m_pulseSweepDivider := (d.m_pulseSweepDivider + 255) % 256 })
  else (true, false, d)

/-- The value of the `int16` variable `sweeping` of the loop body of
`Apu::ExecuteLengthAndSweep`, for channel `p`. -/
def sweepingValue (p : Nat) (d : PulseData) : Int :=
  if d.m_pulseSweepNeg ≠ 0 then
    if p = 0 then
      toInt16 (toInt16 (-toInt16 ((d.m_pulseTimer >>> d.m_pulseSweepShift : Nat) : Int)) - 1)
    else toInt16 (-toInt16 ((d.m_pulseTimer >>> d.m_pulseSweepShift : Nat) : Int))
  else toInt16 ((d.m_pulseTimer >>> d.m_pulseSweepShift : Nat) : Int)

/-- The target-period statement (`if (reloadSweepPeriod)`) of the loop body of
`Apu::ExecuteLengthAndSweep`, for channel `p`. -/
def sweepTargetStep (p : Nat) (reloadSweepPeriod : Bool) (d : PulseData) : PulseData :=
  if reloadSweepPeriod = true ∧ d.m_pulseSweepEnabled ≠ 0 then
    { d with m_pulseSweepDivider := (d.m_pulseSweepPeriod + 1) % 256,
             m_pulseSweepTargetPeriod :=
               (((d.m_pulseTimer : Int) + sweepingValue p d) % 65536).toNat }
  else d

/-- The timer statement (the last `if`) of the loop body of
`Apu::ExecuteLengthAndSweep`. -/
def sweepTimerStep (forceUpdatePulseTimer : Bool) (d : PulseData) : PulseData :=
  if d.m_pulseSweepEnabled ≠ 0 ∧ d.m_pulseSweepShift ≠ 0 ∧
      (d.m_pulseSweepDivider = 0 ∨ forceUpdatePulseTimer = true) then
    if ¬ (d.m_pulseTimer < 8 ∨ d.m_pulseSweepTargetPeriod > 0x7FF) then
      { d with m_pulseTimer := d.m_pulseSweepTargetPeriod }
    else d
  else d

end Apu

end NesEmu

/-! ## Reading conventions used by the statements -/

namespace NesEmu

/-- The value of a byte read as a two's-complement signed 8-bit integer. -/
def asInt8 (v : Nat) : Int := if v < 128 then (v : Int) else (v : Int) - 256

/-- A memory holding, at each listed address, the listed byte, and 0 elsewhere. -/
def ramOfList : List (Nat × Nat) → CpuRam
  | [] => fun _ => 0
  | (a, v) :: rest => CpuRam.Write8 (ramOfList rest) a v

/-- The 257 bytes `0, 1, ..., 255, 0`. -/
def sampleBytes : List Nat := (List.range 257).map (fun i => i % 256)

/-- The frame-sequencer step index used by a step of `Apu::Execute`: the member
`m_frameSequencer` after the wrap-around test `m_frameSequencer >= wrap`. -/
def Apu.stepIndex (a : Apu) (wrap : Int) : Int :=
  if a.m_frameSequencer ≥ wrap then 0 else a.m_frameSequencer

/-- The APU at the start of the frame-sequencer step taken by `Execute a n`:
7457 cycles are consumed from the cycle counter and the step index is `s`. -/
def Apu.atStep (a : Apu) (n : Nat) (s : Int) : Apu :=
  { a with m_cycleCounter := (a.m_cycleCounter + n % 4294967296) % 4294967296 - 7457,
           m_frameSequencer := s }

/-- The APU with the step index set to `s`. -/
def Apu.withStep (a : Apu) (s : Int) : Apu := { a with m_frameSequencer := s }

/-- The value of `m_frameSequencer` after a frame-sequencer step of
`Apu::Execute` taken at the value `s`: the wrap-around test of the mode
(`>= 4` in mode 0, `>= 5` in mode 1, none in another mode), then the
increment. -/
def Apu.nextStep (mode : Nat) (s : Int) : Int :=
  (if mode = 0 then (if s ≥ 4 then 0 else s)
   else if mode = 1 then (if s ≥ 5 then 0 else s)
   else s) + 1

/-- A pulse channel with every member 0 or false. -/
def pulseZero : PulseData :=
  { m_pulseDuty := 0, m_pulseHaltLoop := 0, m_pulseConstant := 0, m_pulseVolume := 0,
    m_pulseSweepEnabled := 0, m_pulseSweepPeriod := 0, m_pulseSweepNeg := 0,
    m_pulseSweepShift := 0, m_pulseSweepReload := false, m_pulseSweepDivider := 0,
    m_pulseSweepTargetPeriod := 0, m_pulseTimer := 0, m_pulseLength := 0,
    m_pulseSequencer := 0, m_pulseEnabled := 0, m_pulseEnvelopeDivider := 0,
    m_pulseEnvelopeCounter := 0, m_startFlag := false }

/-- An APU with the given tables and every other member 0 or false. -/
def apuZero (duty : Nat → Nat → Int) (tri : Nat → Int) (nfreq : Nat → Nat)
    (nwave : Nat → Int) (notes : Nat → Nat) : Apu :=
  { m_frameCounter := 0, m_cycleCounter := 0, m_frameSequencer := 0, m_lastPause := false,
    m_pulseWaveFormDuty := duty, m_triangleWaveForm := tri, m_noiseFreq := nfreq,
    m_noiseWaveForm := nwave, m_noteLength := notes,
    m_DMCEnabled := 0, m_DMCLength := 0, m_frameSequencerMode := 0,
    m_frameSequencerIRQDisable := 0, m_pulses0 := pulseZero, m_pulses1 := pulseZero,
    m_triangleControlFlag := 0, m_triangleCounterReload := 0, m_triangleTimer := 0,
    m_triangleLength := 0, m_triangleReloadFlag := false, m_triangleSequencer := 0,
    m_triangleEnabled := 0, m_triangleCounter := 0, m_noiseHaltFlag := 0,
    m_noiseConstant := 0, m_noiseVolume := 0, m_noiseMode := 0, m_noisePeriod := 0,
    m_noiseLength := 0, m_noiseSequencer := 0, m_noiseLinearFeedback := 0,
    m_noiseEnabled := 0, m_noiseEnvelopeRestart := false, m_noiseEnvelopeDivider := 0,
    m_noiseEnvelopeCounter := 0 }

/-- An APU whose first pulse channel is enabled with a non-zero length and
volume but a timer below 8, and whose triangle channel is disabled. -/
def apuMutedPulse : Apu :=
  let a := apuZero (fun _ _ => 70) (fun _ => 175) (fun _ => 4) (fun _ => 60) (fun _ => 10)
  let d : PulseData :=
    { pulseZero with m_pulseEnabled := 1, m_pulseLength := 10, m_pulseTimer := 5,
                     m_pulseConstant := 1, m_pulseVolume := 15 }
  { a with m_pulses0 := d }

/-- An APU with constant tables, as left by `Apu::Reset`. -/
def apuSample : Apu :=
  (apuZero (fun _ _ => 70) (fun _ => 175) (fun _ => 4) (fun _ => 60) (fun _ => 10)).Reset

/-- A CPU state given by its registers, decoded entry, operand address and
memory. -/
def cpuState (a x y sp pc p : Nat) (entry : OpCodeEntry) (operand : Nat)
    (ram : CpuRam) : Cpu :=
  { A := a, X := x, Y := y, SP := sp, PC := pc, P := p, m_pEntry := entry,
    m_operandAddress := operand, m_pRam := ram }

/-- The duty patterns of the specification, one byte for each duty index. -/
def dutyPattern : List Nat := [0b00000010, 0b00000110, 0b00011110, 0b11111001]

/-- The 32-entry ramp `15, 14, ..., 1, 0, 0, 1, ..., 14, 15` of the
specification. -/
def triangleRamp (k : Nat) : Int := if k < 16 then 15 - (k : Int) else (k : Int) - 16

/-- An APU whose first pulse channel is enabled with length 3, timer `0x100`
and a negating sweep of shift 2 with the reload flag set, whose triangle
channel is enabled with length 5 and whose noise channel is enabled with
length 1. -/
def apuSweep : Apu :=
  let d : PulseData :=
    { pulseZero with m_pulseEnabled := 1, m_pulseLength := 3, m_pulseTimer := 0x100,
                     m_pulseSweepEnabled := 1, m_pulseSweepReload := true,
                     m_pulseSweepNeg := 1, m_pulseSweepShift := 2 }
  { apuSample with m_pulses0 := d, m_triangleEnabled := 1, m_triangleLength := 5,
                   m_noiseEnabled := 1, m_noiseLength := 1 }

/-- An APU whose triangle reload flag is set, with linear reload value 5,
linear counter 9 and the control flag clear. -/
def apuLinear : Apu :=
  { apuSample with m_triangleReloadFlag := true, m_triangleCounterReload := 5,
                   m_triangleCounter := 9 }

/-- An APU whose first pulse channel has volume/period value 3 and the start
flag set, the halt/loop flag clear. -/
def apuEnvelope : Apu :=
  let d : PulseData := { pulseZero with m_pulseVolume := 3, m_startFlag := true }
  { apuSample with m_pulses0 := d }

end NesEmu

/-! ## Bit-level facts -/

namespace NesEmu

theorem land_FF00 (x : Nat) : x &&& 0xFF00 = ((x / 256) % 256) * 256 := by
  have h : (0xFF00 : Nat) = (2 ^ 8 - 1) <<< 8 := by decide
  rw [h]
  apply Nat.eq_of_testBit_eq
  intro i
  rw [Nat.testBit_and, Nat.testBit_shiftLeft, Nat.testBit_two_pow_sub_one]
  have h2 : (x / 256) % 256 * 256 = ((x >>> 8) % 2 ^ 8) <<< 8 := by
    rw [Nat.shiftLeft_eq, Nat.shiftRight_eq_div_pow]; norm_num
  rw [h2, Nat.testBit_shiftLeft, Nat.testBit_mod_two_pow, Nat.testBit_shiftRight]
  by_cases hi : i ≥ 8
  · have : 8 + (i - 8) = i := by omega
    simp [hi, this, Bool.and_comm]
  · simp [hi]

theorem land_FF (x : Nat) : x &&& 0xFF = x % 256 := by
  have := Nat.and_pow_two_sub_one_eq_mod x 8
  simpa using this

theorem land_80 (x : Nat) : x &&& 0x80 = if x.testBit 7 then 128 else 0 := by
  have := Nat.and_two_pow x 7
  rw [show (2 : Nat) ^ 7 = 128 from rfl] at this
  rw [this]; cases x.testBit 7 <;> simp

theorem testBit_seven (x : Nat) : x.testBit 7 = decide (128 ≤ x % 256) := by
  rw [Nat.testBit_to_div_mod]
  congr 1
  apply propext
  constructor <;> intro h <;> omega

theorem CalcCarryFlag_eq (v : Nat) :
    CalcCarryFlag v = if 256 ≤ v % 65536 then 1 else 0 := by
  unfold CalcCarryFlag
  rw [land_FF00]
  by_cases h : 256 ≤ v % 65536
  · rw [if_pos h, if_pos]; omega
  · rw [if_neg h, if_neg]; omega

theorem CalcZeroFlag_eq (v : Nat) : CalcZeroFlag v = if v % 256 = 0 then 1 else 0 := by
  unfold CalcZeroFlag
  rw [land_FF]

theorem CalcNegativeFlag_eq (v : Nat) :
    CalcNegativeFlag v = if v.testBit 7 then 1 else 0 := by
  unfold CalcNegativeFlag
  rw [land_80]
  cases v.testBit 7 <;> simp

theorem CalcNegativeFlag8_eq (v : Nat) :
    CalcNegativeFlag8 v = if v.testBit 7 then 1 else 0 := by
  unfold CalcNegativeFlag8
  rw [land_80]
  cases v.testBit 7 <;> simp

namespace Bitfield8

theorem Test_le_one (p bits : Nat) : Test p bits ≤ 1 := by
  unfold Test
  split <;> omega

theorem Test_two_pow (p i : Nat) : Test p (2 ^ i) = if p.testBit i then 1 else 0 := by
  unfold Test
  rw [Nat.and_two_pow]
  cases p.testBit i <;> simp

theorem testBit_Set (p i j : Nat) (hj : j < 8) :
    (Set p (2 ^ i)).testBit j = (p.testBit j || decide (i = j)) := by
  unfold Set
  rw [show (256 : Nat) = 2 ^ 8 from rfl, Nat.testBit_mod_two_pow, Nat.testBit_or,
    Nat.testBit_two_pow]
  simp [hj]

theorem testBit_Clear (p i j : Nat) (hi : i < 8) (hj : j < 8) :
    (Clear p (2 ^ i)).testBit j = (p.testBit j && !decide (i = j)) := by
  unfold Clear
  have h1 : (2 : Nat) ^ i % 256 = 2 ^ i := by
    apply Nat.mod_eq_of_lt
    calc (2 : Nat) ^ i < 2 ^ 8 := Nat.pow_lt_pow_right (by decide) hi
      _ = 256 := rfl
  rw [h1, Nat.testBit_and, Nat.testBit_xor, show (0xFF : Nat) = 2 ^ 8 - 1 from rfl,
    Nat.testBit_two_pow_sub_one, Nat.testBit_two_pow]
  simp [hj]

/-- Reading flag `2 ^ j` after `Set(2 ^ i, e)`: the new value when `i = j`, the
old flag otherwise. -/
theorem Test_SetEnabled (p b e b2 : Nat) (i j : Nat) (hb : b = 2 ^ i) (hb2 : b2 = 2 ^ j)
    (hi : i < 8) (hj : j < 8) :
    Test (SetEnabled p b e) b2 =
      if i = j then (if e ≠ 0 then 1 else 0) else Test p b2 := by
  subst hb hb2
  rw [Test_two_pow, Test_two_pow]
  unfold SetEnabled
  by_cases he : e ≠ 0
  · rw [if_pos he, testBit_Set _ _ _ hj]
    by_cases hij : i = j <;> simp [hij, he]
  · rw [if_neg he, testBit_Clear _ _ _ hi hj]
    by_cases hij : i = j <;> simp [hij, he]

end Bitfield8

open CpuRam StatusFlag

namespace Cpu

theorem ExecuteInstruction_A (c : Cpu) : (ExecuteInstruction c).A = (ExecuteOpCode c).A := by
  unfold ExecuteInstruction
  simp only
  split <;> rfl

theorem ExecuteInstruction_P (c : Cpu) : (ExecuteInstruction c).P = (ExecuteOpCode c).P := by
  unfold ExecuteInstruction
  simp only
  split <;> rfl

theorem ExecuteInstruction_ram (c : Cpu) :
    (ExecuteInstruction c).m_pRam = (ExecuteOpCode c).m_pRam := by
  unfold ExecuteInstruction
  simp only
  split <;> rfl

theorem ExecuteInstruction_SP (c : Cpu) :
    (ExecuteInstruction c).SP = (ExecuteOpCode c).SP := by
  unfold ExecuteInstruction
  simp only
  split <;> rfl

end Cpu

/-! ## ADC -/

/-- C1: for every accumulator value, memory operand and carry-in (0 or 1), ADC
leaves `A = (A + M + C) mod 256`, sets the carry flag exactly when
`A + M + C >= 0x100`, sets N to bit 7 of the sum and Z exactly when the sum is 0
modulo 256. -/
theorem adc_sum_and_flags (c : Cpu) (hop : c.m_pEntry.opCodeName = OpCodeName.ADC)
    (hA : c.A < 256) :
    Bitfield8.Test c.P Carry ≤ 1 ∧
    c.ExecuteInstruction.A = (c.A + c.GetMemValue + Bitfield8.Test c.P Carry) % 256 ∧
    (Bitfield8.Test c.ExecuteInstruction.P Carry = 1 ↔
      0x100 ≤ c.A + c.GetMemValue + Bitfield8.Test c.P Carry) ∧
    (Bitfield8.Test c.ExecuteInstruction.P Negative = 1 ↔
      (c.A + c.GetMemValue + Bitfield8.Test c.P Carry).testBit 7 = true) ∧
    (Bitfield8.Test c.ExecuteInstruction.P Zero = 1 ↔
      (c.A + c.GetMemValue + Bitfield8.Test c.P Carry) % 256 = 0) := by
  have hC := Bitfield8.Test_le_one c.P Carry
  have hM : c.GetMemValue < 256 := Nat.mod_lt _ (by decide)
  rw [Cpu.ExecuteInstruction_A, Cpu.ExecuteInstruction_P]
  simp only [Cpu.ExecuteOpCode, hop]
  have hres : TO16 (TO16 c.A + TO16 c.GetMemValue + TO16 (Bitfield8.Test c.P Carry)) =
      c.A + c.GetMemValue + Bitfield8.Test c.P Carry := by
    unfold TO16; omega
  rw [hres]
  refine ⟨hC, rfl, ?_, ?_, ?_⟩
  · rw [Bitfield8.Test_SetEnabled _ Overflow _ Carry 6 0 rfl rfl (by decide) (by decide),
      if_neg (by decide),
      Bitfield8.Test_SetEnabled _ Carry _ Carry 0 0 rfl rfl (by decide) (by decide),
      if_pos rfl, CalcCarryFlag_eq]
    clear hres
    by_cases h : 256 ≤ (c.A + c.GetMemValue + Bitfield8.Test c.P Carry) % 65536 <;>
      simp [h] <;> omega
  · rw [Bitfield8.Test_SetEnabled _ Overflow _ Negative 6 7 rfl rfl (by decide) (by decide),
      if_neg (by decide),
      Bitfield8.Test_SetEnabled _ Carry _ Negative 0 7 rfl rfl (by decide) (by decide),
      if_neg (by decide),
      Bitfield8.Test_SetEnabled _ StatusFlag.Zero _ Negative 1 7 rfl rfl (by decide) (by decide),
      if_neg (by decide),
      Bitfield8.Test_SetEnabled _ Negative _ Negative 7 7 rfl rfl (by decide) (by decide),
      if_pos rfl, CalcNegativeFlag_eq]
    cases (c.A + c.GetMemValue + Bitfield8.Test c.P Carry).testBit 7 <;> simp
  · rw [Bitfield8.Test_SetEnabled _ Overflow _ StatusFlag.Zero 6 1 rfl rfl (by decide) (by decide),
      if_neg (by decide),
      Bitfield8.Test_SetEnabled _ Carry _ StatusFlag.Zero 0 1 rfl rfl (by decide) (by decide),
      if_neg (by decide),
      Bitfield8.Test_SetEnabled _ StatusFlag.Zero _ StatusFlag.Zero 1 1 rfl rfl (by decide) (by decide),
      if_pos rfl, CalcZeroFlag_eq]
    split_ifs <;> simp_all

/-- C1 at a concrete state: `0xF0 + 0x20 + 1 = 0x111`. -/
theorem adc_sum_and_flags_witness :
    Bitfield8.Test 0x21 Carry ≤ 1 ∧
    (cpuState 0xF0 0 0 0xFD 0x8000 0x21 ⟨OpCodeName.ADC, AddressMode.Immedt, 2⟩ 0x8001
        (ramOfList [(0x8001, 0x20)])).ExecuteInstruction.A = 0x11 ∧
    Bitfield8.Test (cpuState 0xF0 0 0 0xFD 0x8000 0x21 ⟨OpCodeName.ADC, AddressMode.Immedt, 2⟩
        0x8001 (ramOfList [(0x8001, 0x20)])).ExecuteInstruction.P Carry = 1 := by
  have h := adc_sum_and_flags
    (cpuState 0xF0 0 0 0xFD 0x8000 0x21 ⟨OpCodeName.ADC, AddressMode.Immedt, 2⟩ 0x8001
      (ramOfList [(0x8001, 0x20)])) rfl (by decide)
  exact ⟨h.1, h.2.1, h.2.2.1.mpr (by decide)⟩

/-! ## ADC overflow -/

theorem CalcOverflowFlag_ne_zero (a b r : Nat) (ha : a < 65536) (hb : b < 65536) :
    CalcOverflowFlag a b r ≠ 0 ↔
      ((a.testBit 7 ^^ r.testBit 7) && (b.testBit 7 ^^ r.testBit 7)) = true := by
  unfold CalcOverflowFlag TO8 TO16
  rw [Nat.mod_eq_of_lt ha, Nat.mod_eq_of_lt hb, land_80, Nat.testBit_and, Nat.testBit_xor,
    Nat.testBit_xor]
  cases (a.testBit 7 ^^ r.testBit 7) && (b.testBit 7 ^^ r.testBit 7) <;> simp

theorem land_80_ne_zero (x : Nat) : x &&& 0x80 ≠ 0 ↔ x.testBit 7 = true := by
  rw [land_80]
  cases x.testBit 7 <;> simp

/-- C5: ADC sets V exactly when the signed sum of `A` and `M`, plus the carry-in,
lies outside `[-128, 127]`; and exactly when
`((A ^ result) & (M ^ result) & 0x80) != 0`, with `A` the accumulator before
the add. -/
theorem adc_overflow_flag (c : Cpu) (hop : c.m_pEntry.opCodeName = OpCodeName.ADC)
    (hA : c.A < 256) :
    (Bitfield8.Test c.ExecuteInstruction.P Overflow = 1 ↔
      (asInt8 c.A + asInt8 c.GetMemValue + (Bitfield8.Test c.P Carry : Int) < -128 ∨
       127 < asInt8 c.A + asInt8 c.GetMemValue + (Bitfield8.Test c.P Carry : Int))) ∧
    (Bitfield8.Test c.ExecuteInstruction.P Overflow = 1 ↔
      ((c.A ^^^ (c.A + c.GetMemValue + Bitfield8.Test c.P Carry)) &&&
       (c.GetMemValue ^^^ (c.A + c.GetMemValue + Bitfield8.Test c.P Carry)) &&& 0x80) ≠ 0) := by
  have hC := Bitfield8.Test_le_one c.P Carry
  have hM : c.GetMemValue < 256 := Nat.mod_lt _ (by decide)
  rw [Cpu.ExecuteInstruction_P]
  simp only [Cpu.ExecuteOpCode, hop]
  have hres : TO16 (TO16 c.A + TO16 c.GetMemValue + TO16 (Bitfield8.Test c.P Carry)) =
      c.A + c.GetMemValue + Bitfield8.Test c.P Carry := by
    unfold TO16; omega
  rw [hres, Bitfield8.Test_SetEnabled _ Overflow _ Overflow 6 6 rfl rfl (by decide) (by decide),
    if_pos rfl]
  clear hres
  have hov := CalcOverflowFlag_ne_zero c.A c.GetMemValue
    (c.A + c.GetMemValue + Bitfield8.Test c.P Carry) (by omega) (by omega)
  have hkey : (CalcOverflowFlag c.A c.GetMemValue
        (c.A + c.GetMemValue + Bitfield8.Test c.P Carry) ≠ 0) ↔
      (asInt8 c.A + asInt8 c.GetMemValue + (Bitfield8.Test c.P Carry : Int) < -128 ∨
       127 < asInt8 c.A + asInt8 c.GetMemValue + (Bitfield8.Test c.P Carry : Int)) := by
    rw [hov, testBit_seven, testBit_seven, testBit_seven]
    unfold asInt8
    generalize c.A = a at *
    generalize c.GetMemValue = m at *
    generalize Bitfield8.Test c.P Carry = k at *
    by_cases h1 : a < 128 <;> by_cases h2 : m < 128 <;>
      by_cases h3 : 128 ≤ (a + m + k) % 256 <;>
      simp [h1, h2, h3, Nat.mod_eq_of_lt hA, Nat.mod_eq_of_lt hM] <;> omega
  constructor
  · rw [← hkey]
    by_cases h : CalcOverflowFlag c.A c.GetMemValue
        (c.A + c.GetMemValue + Bitfield8.Test c.P Carry) ≠ 0 <;> simp [h]
  · rw [land_80_ne_zero, Nat.testBit_and, Nat.testBit_xor, Nat.testBit_xor, ← hov]
    by_cases h : CalcOverflowFlag c.A c.GetMemValue
        (c.A + c.GetMemValue + Bitfield8.Test c.P Carry) ≠ 0 <;> simp [h]

/-- C5 at a concrete state: `0x50 + 0x50` overflows the signed range. -/
theorem adc_overflow_flag_witness :
    Bitfield8.Test (cpuState 0x50 0 0 0xFD 0x8000 0x20 ⟨OpCodeName.ADC, AddressMode.Immedt, 2⟩
        0x8001 (ramOfList [(0x8001, 0x50)])).ExecuteInstruction.P Overflow = 1 :=
  (adc_overflow_flag
    (cpuState 0x50 0 0 0xFD 0x8000 0x20 ⟨OpCodeName.ADC, AddressMode.Immedt, 2⟩ 0x8001
      (ramOfList [(0x8001, 0x50)])) rfl (by decide)).1.mpr (by decide)

/-! ## SBC -/

set_option maxRecDepth 100000 in
theorem xor_FF : ∀ m : Nat, m < 256 → m ^^^ 0xFF = 255 - m := by
  decide

/-- What `SBC` computes: the operand is negated (two's complement) and added
with the carry, so the accumulator ends one above
`(A + (M XOR 0xFF) + C) mod 256`. -/
theorem sbc_computes (c : Cpu) (hop : c.m_pEntry.opCodeName = OpCodeName.SBC) :
    c.ExecuteInstruction.A =
      (c.A + (c.GetMemValue ^^^ 0xFF) + Bitfield8.Test c.P Carry + 1) % 256 := by
  have hC := Bitfield8.Test_le_one c.P Carry
  have hM : c.GetMemValue < 256 := Nat.mod_lt _ (by decide)
  rw [Cpu.ExecuteInstruction_A, xor_FF _ hM]
  simp only [Cpu.ExecuteOpCode, hop]
  unfold TO8 TO16
  omega

/-- C2 at `A = 5`, `M = 3`, carry set (no borrow): `SBC` leaves `A = 3`, while
`(A + (M XOR 0xFF) + C) mod 256 = 2`. -/
theorem sbc_off_by_one_at_5_3 :
    (cpuState 5 0 0 0xFD 0x8000 0x21 ⟨OpCodeName.SBC, AddressMode.Immedt, 2⟩ 0x8001
        (ramOfList [(0x8001, 3)])).ExecuteInstruction.A = 3 ∧
    (5 + (3 ^^^ 0xFF) + 1) % 256 = 2 := by
  decide

/-! ## CMP, CPX, CPY -/

/-- What the compare instructions compute: the carry flag is raised exactly when
the 16-bit difference wraps, that is when the register is below the operand. -/
theorem cmp_carry_iff_lt (c : Cpu) (hop : c.m_pEntry.opCodeName = OpCodeName.CMP)
    (hA : c.A < 256) :
    Bitfield8.Test c.ExecuteInstruction.P Carry = 1 ↔ c.A < c.GetMemValue := by
  have hM : c.GetMemValue < 256 := Nat.mod_lt _ (by decide)
  rw [Cpu.ExecuteInstruction_P]
  simp only [Cpu.ExecuteOpCode, hop]
  rw [Bitfield8.Test_SetEnabled _ Carry _ Carry 0 0 rfl rfl (by decide) (by decide),
    if_pos rfl, CalcCarryFlag_eq]
  unfold TO16
  have hcf : 256 ≤ (c.A % 65536 + 65536 - c.GetMemValue % 65536) % 65536 % 65536 ↔
      c.A < c.GetMemValue := by omega
  simp only [hcf]
  by_cases h : c.A < c.GetMemValue <;> simp [h]

/-- C3 at `R = 5`, `M = 3`: although `5 >= 3`, each of `CMP`, `CPX` and `CPY`
leaves the carry flag clear. -/
theorem compare_carry_clear_at_5_3 :
    Bitfield8.Test (cpuState 5 0 0 0xFD 0x8000 0x20 ⟨OpCodeName.CMP, AddressMode.Immedt, 2⟩
        0x8001 (ramOfList [(0x8001, 3)])).ExecuteInstruction.P Carry = 0 ∧
    Bitfield8.Test (cpuState 0 5 0 0xFD 0x8000 0x20 ⟨OpCodeName.CPX, AddressMode.Immedt, 2⟩
        0x8001 (ramOfList [(0x8001, 3)])).ExecuteInstruction.P Carry = 0 ∧
    Bitfield8.Test (cpuState 0 0 5 0xFD 0x8000 0x20 ⟨OpCodeName.CPY, AddressMode.Immedt, 2⟩
        0x8001 (ramOfList [(0x8001, 3)])).ExecuteInstruction.P Carry = 0 ∧
    (3 : Nat) ≤ 5 := by
  decide

/-! ## ROR -/

/-- What `ROR` computes: the shifted value and the carry moved to bit 7 are
combined with AND, so the value written back is 0 for every operand and
carry. -/
theorem ror_writes_zero (c : Cpu) (hop : c.m_pEntry.opCodeName = OpCodeName.ROR)
    (hacc : c.m_pEntry.addrMode = AddressMode.Accumu) (hA : c.A < 256) :
    c.ExecuteInstruction.A = 0 := by
  rw [Cpu.ExecuteInstruction_A]
  simp only [Cpu.ExecuteOpCode, hop, Cpu.SetAccumOrMemValue, Cpu.GetAccumOrMemValue, hacc,
    if_true]
  have hz : (c.A >>> 1) &&& (Bitfield8.Test c.P Carry <<< 7) = 0 := by
    apply Nat.eq_of_testBit_eq
    intro i
    rw [Nat.testBit_and, Nat.testBit_shiftRight, Nat.testBit_shiftLeft, Nat.zero_testBit]
    by_cases hi : i ≥ 7
    · have : c.A.testBit (1 + i) = false :=
        Nat.testBit_lt_two_pow (lt_of_lt_of_le hA
          (by
            calc 256 = 2 ^ 8 := rfl
              _ ≤ 2 ^ (1 + i) := Nat.pow_le_pow_right (by decide) (by omega)))
      simp [this]
    · simp [hi]
  simp [hz, TO8]

/-- C4 at `v = 2` in the accumulator with the carry clear: `ROR` leaves
`A = 0`, while `(v >> 1) OR (C << 7) = 1`. -/
theorem ror_and_slip_at_2 :
    (cpuState 2 0 0 0xFD 0x8000 0x20 ⟨OpCodeName.ROR, AddressMode.Accumu, 1⟩ 0
        (ramOfList [])).ExecuteInstruction.A = 0 ∧
    (2 >>> 1) ||| (Bitfield8.Test 0x20 Carry <<< 7) = 1 := by
  decide

/-! ## ASL -/

theorem Cpu.SetAccumOrMemValue_P (c : Cpu) (v : Nat) : (c.SetAccumOrMemValue v).P = c.P := by
  unfold Cpu.SetAccumOrMemValue
  split <;> rfl

theorem Read8_Write8_same (ram : CpuRam) (a v : Nat) :
    Read8 (Write8 ram a v) a = v % 256 := by
  simp [Read8, Write8]

theorem shl_one_byte (v : Nat) (hv : v < 256) : TO16 (TO16 v <<< 1) = 2 * v := by
  unfold TO16
  rw [Nat.shiftLeft_eq]
  omega

/-- C6: ASL writes back `(v << 1) mod 256` (to the accumulator in accumulator
mode, to the operand address otherwise), sets the carry flag to bit 7 of `v`,
N to bit 7 of the written value and Z exactly when the written value is 0; in
particular `A = 0x80` gives `A = 0`, `C = 1`, `N = 0`, `Z = 1`. -/
theorem asl_shift_and_flags (c : Cpu) (hop : c.m_pEntry.opCodeName = OpCodeName.ASL)
    (hA : c.A < 256) :
    (if c.m_pEntry.addrMode = AddressMode.Accumu then
        c.ExecuteInstruction.A = (c.GetAccumOrMemValue <<< 1) % 256 ∧
        c.ExecuteInstruction.m_pRam = c.m_pRam
      else
        c.ExecuteInstruction.m_pRam =
          Write8 c.m_pRam c.m_operandAddress ((c.GetAccumOrMemValue <<< 1) % 256) ∧
        Read8 c.ExecuteInstruction.m_pRam c.m_operandAddress =
          (c.GetAccumOrMemValue <<< 1) % 256 ∧
        c.ExecuteInstruction.A = c.A) ∧
    (Bitfield8.Test c.ExecuteInstruction.P Carry = 1 ↔ c.GetAccumOrMemValue.testBit 7 = true) ∧
    (Bitfield8.Test c.ExecuteInstruction.P Negative = 1 ↔
      ((c.GetAccumOrMemValue <<< 1) % 256).testBit 7 = true) ∧
    (Bitfield8.Test c.ExecuteInstruction.P Zero = 1 ↔
      (c.GetAccumOrMemValue <<< 1) % 256 = 0) ∧
    (c.m_pEntry.addrMode = AddressMode.Accumu → c.A = 0x80 →
      c.ExecuteInstruction.A = 0 ∧
      Bitfield8.Test c.ExecuteInstruction.P Carry = 1 ∧
      Bitfield8.Test c.ExecuteInstruction.P Negative = 0 ∧
      Bitfield8.Test c.ExecuteInstruction.P Zero = 1) := by
  have hv : c.GetAccumOrMemValue < 256 := by
    unfold Cpu.GetAccumOrMemValue
    split
    · exact hA
    · exact Nat.mod_lt _ (by decide)
  have hshl : c.GetAccumOrMemValue <<< 1 = 2 * c.GetAccumOrMemValue := by
    rw [Nat.shiftLeft_eq]; omega
  have hexec : c.ExecuteOpCode =
      Cpu.SetAccumOrMemValue
        { c with P := (Bitfield8.SetEnabled
          (Bitfield8.SetEnabled
            (Bitfield8.SetEnabled c.P Negative (CalcNegativeFlag (2 * c.GetAccumOrMemValue)))
            StatusFlag.Zero (CalcZeroFlag (2 * c.GetAccumOrMemValue)))
          Carry (CalcCarryFlag (2 * c.GetAccumOrMemValue))) }
        (TO8 (2 * c.GetAccumOrMemValue)) := by
    simp only [Cpu.ExecuteOpCode, hop, shl_one_byte _ hv]
  have hCarry : Bitfield8.Test c.ExecuteInstruction.P Carry = 1 ↔
      c.GetAccumOrMemValue.testBit 7 = true := by
    rw [Cpu.ExecuteInstruction_P, hexec, Cpu.SetAccumOrMemValue_P]
    simp only
    rw [Bitfield8.Test_SetEnabled _ Carry _ Carry 0 0 rfl rfl (by decide) (by decide),
      if_pos rfl, CalcCarryFlag_eq, testBit_seven]
    by_cases h : 128 ≤ c.GetAccumOrMemValue
    · have h2 : 256 ≤ 2 * c.GetAccumOrMemValue % 65536 := by omega
      have h3 : 128 ≤ c.GetAccumOrMemValue % 256 := by omega
      simp [h2, h3]
    · have h2 : ¬ 256 ≤ 2 * c.GetAccumOrMemValue % 65536 := by omega
      have h3 : ¬ 128 ≤ c.GetAccumOrMemValue % 256 := by omega
      simp [h2, h3]
  have hNeg : Bitfield8.Test c.ExecuteInstruction.P Negative = 1 ↔
      ((c.GetAccumOrMemValue <<< 1) % 256).testBit 7 = true := by
    rw [Cpu.ExecuteInstruction_P, hexec, Cpu.SetAccumOrMemValue_P, hshl]
    simp only
    rw [Bitfield8.Test_SetEnabled _ Carry _ Negative 0 7 rfl rfl (by decide) (by decide),
      if_neg (by decide),
      Bitfield8.Test_SetEnabled _ StatusFlag.Zero _ Negative 1 7 rfl rfl (by decide) (by decide),
      if_neg (by decide),
      Bitfield8.Test_SetEnabled _ Negative _ Negative 7 7 rfl rfl (by decide) (by decide),
      if_pos rfl, CalcNegativeFlag_eq, testBit_seven, testBit_seven, Nat.mod_mod]
    by_cases h : 128 ≤ 2 * c.GetAccumOrMemValue % 256 <;> simp [h]
  have hZero : Bitfield8.Test c.ExecuteInstruction.P StatusFlag.Zero = 1 ↔
      (c.GetAccumOrMemValue <<< 1) % 256 = 0 := by
    rw [Cpu.ExecuteInstruction_P, hexec, Cpu.SetAccumOrMemValue_P, hshl]
    simp only
    rw [Bitfield8.Test_SetEnabled _ Carry _ StatusFlag.Zero 0 1 rfl rfl (by decide) (by decide),
      if_neg (by decide),
      Bitfield8.Test_SetEnabled _ StatusFlag.Zero _ StatusFlag.Zero 1 1 rfl rfl (by decide)
        (by decide),
      if_pos rfl, CalcZeroFlag_eq]
    by_cases h : 2 * c.GetAccumOrMemValue % 256 = 0 <;> simp [h]
  have hWrite : (if c.m_pEntry.addrMode = AddressMode.Accumu then
        c.ExecuteInstruction.A = (c.GetAccumOrMemValue <<< 1) % 256 ∧
        c.ExecuteInstruction.m_pRam = c.m_pRam
      else
        c.ExecuteInstruction.m_pRam =
          Write8 c.m_pRam c.m_operandAddress ((c.GetAccumOrMemValue <<< 1) % 256) ∧
        Read8 c.ExecuteInstruction.m_pRam c.m_operandAddress =
          (c.GetAccumOrMemValue <<< 1) % 256 ∧
        c.ExecuteInstruction.A = c.A) := by
    rw [Cpu.ExecuteInstruction_A, Cpu.ExecuteInstruction_ram, hexec, hshl]
    unfold Cpu.SetAccumOrMemValue TO8
    by_cases hm : c.m_pEntry.addrMode = AddressMode.Accumu
    · simp [hm]
    · simp [hm, Read8_Write8_same]
  refine ⟨hWrite, hCarry, hNeg, hZero, ?_⟩
  intro hm h80
  have hval : c.GetAccumOrMemValue = 0x80 := by
    unfold Cpu.GetAccumOrMemValue
    rw [if_pos hm, h80]
  rw [if_pos hm, hval] at hWrite
  rw [hval] at hCarry hNeg hZero
  refine ⟨hWrite.1, hCarry.mpr (by decide), ?_, hZero.mpr (by decide)⟩
  have hN1 : ¬ Bitfield8.Test c.ExecuteInstruction.P Negative = 1 := by
    rw [hNeg]; decide
  have := Bitfield8.Test_le_one c.ExecuteInstruction.P Negative
  omega

/-- C6 at a concrete state (scenario S2): `A = 0x80`, accumulator mode. -/
theorem asl_shift_and_flags_witness :
    (cpuState 0x80 0 0 0xFD 0x8000 0x20 ⟨OpCodeName.ASL, AddressMode.Accumu, 1⟩ 0
        (ramOfList [])).ExecuteInstruction.A = 0 ∧
    Bitfield8.Test (cpuState 0x80 0 0 0xFD 0x8000 0x20 ⟨OpCodeName.ASL, AddressMode.Accumu, 1⟩ 0
        (ramOfList [])).ExecuteInstruction.P Carry = 1 ∧
    Bitfield8.Test (cpuState 0x80 0 0 0xFD 0x8000 0x20 ⟨OpCodeName.ASL, AddressMode.Accumu, 1⟩ 0
        (ramOfList [])).ExecuteInstruction.P Negative = 0 ∧
    Bitfield8.Test (cpuState 0x80 0 0 0xFD 0x8000 0x20 ⟨OpCodeName.ASL, AddressMode.Accumu, 1⟩ 0
        (ramOfList [])).ExecuteInstruction.P StatusFlag.Zero = 1 :=
  (asl_shift_and_flags
    (cpuState 0x80 0 0 0xFD 0x8000 0x20 ⟨OpCodeName.ASL, AddressMode.Accumu, 1⟩ 0
      (ramOfList [])) rfl (by decide)).2.2.2.2 rfl rfl

/-! ## Indirect addressing -/

theorem Read8_lt (ram : CpuRam) (a : Nat) : Read8 ram a < 256 :=
  Nat.mod_lt _ (by decide)

theorem byte_pair_lt (lo hi : Nat) (hlo : lo < 256) (hhi : hi < 256) :
    lo ||| (hi <<< 8) < 65536 := by
  have h1 : lo < 2 ^ 16 := by omega
  have h2 : hi <<< 8 < 2 ^ 16 := by
    rw [Nat.shiftLeft_eq]; omega
  exact Nat.or_lt_two_pow h1 h2

/-- C7: in Indirect mode, with `p` the 16-bit pointer that follows the opcode,
the operand address is
`mem[p] | (mem[(p & 0xFF00) | ((p + 1) & 0x00FF)] << 8)`; for a pointer `$xxFF`
the high byte comes from `$xx00`, not from `$(xx+1)00`. -/
theorem indirect_operand_same_page (c : Cpu) (p : Nat)
    (hmode : c.m_pEntry.addrMode = AddressMode.Indrct)
    (hp : Read16 c.m_pRam (c.PC + 1) = p) :
    c.UpdateOperand.m_operandAddress =
      (Read8 c.m_pRam p |||
        (Read8 c.m_pRam ((p &&& 0xFF00) ||| ((p + 1) &&& 0x00FF)) <<< 8)) ∧
    (p % 256 = 0xFF →
      (p &&& 0xFF00) ||| ((p + 1) &&& 0x00FF) = (p / 256) * 256 ∧
      (p &&& 0xFF00) ||| ((p + 1) &&& 0x00FF) ≠ (p / 256 + 1) * 256) := by
  have hp16 : p < 65536 := by
    rw [← hp]
    exact byte_pair_lt _ _ (Read8_lt _ _) (Read8_lt _ _)
  constructor
  · simp only [Cpu.UpdateOperand, hmode, hp]
    unfold TO16
    rw [Nat.mod_eq_of_lt (lt_trans (Read8_lt _ _) (by decide)),
      Nat.mod_eq_of_lt (lt_trans (Read8_lt c.m_pRam ((p &&& 0xFF00) ||| ((p + 1) &&& 0x00FF)))
        (by decide)),
      Nat.mod_eq_of_lt (byte_pair_lt _ _ (Read8_lt _ _) (Read8_lt _ _))]
  · intro hFF
    have h1 : (p + 1) &&& 0x00FF = 0 := by
      rw [land_FF]; omega
    have h2 : p &&& 0xFF00 = (p / 256) * 256 := by
      rw [land_FF00]
      have : p / 256 % 256 = p / 256 := by omega
      rw [this]
    rw [h1, h2, Nat.or_zero]
    constructor
    · rfl
    · omega

/-- C7 at a concrete state (scenario S6): `JMP ($02FF)` with `$02FF = 0x34` and
`$0200 = 0x12` resolves to `0x1234`, whatever is stored at `$0300`. -/
theorem indirect_operand_same_page_witness :
    (cpuState 0 0 0 0xFD 0x8000 0x20 ⟨OpCodeName.JMP, AddressMode.Indrct, 3⟩ 0
        (ramOfList [(0x8000, 0x6C), (0x8001, 0xFF), (0x8002, 0x02), (0x02FF, 0x34),
          (0x0200, 0x12), (0x0300, 0x56)])).UpdateOperand.m_operandAddress = 0x1234 :=
  (indirect_operand_same_page
    (cpuState 0 0 0 0xFD 0x8000 0x20 ⟨OpCodeName.JMP, AddressMode.Indrct, 3⟩ 0
      (ramOfList [(0x8000, 0x6C), (0x8001, 0xFF), (0x8002, 0x02), (0x02FF, 0x34),
        (0x0200, 0x12), (0x0300, 0x56)])) 0x02FF rfl (by decide)).1.trans (by decide)

/-! ## JMP -/

/-- What `JMP` does when the target differs from the address of the `JMP`
itself: the program counter ends on the target. -/
theorem jmp_sets_pc_of_ne (c : Cpu) (hop : c.m_pEntry.opCodeName = OpCodeName.JMP)
    (hne : c.m_operandAddress ≠ c.PC) :
    c.ExecuteInstruction.PC = c.m_operandAddress := by
  unfold Cpu.ExecuteInstruction
  simp only [Cpu.ExecuteOpCode, hop, Cpu.GetBranchOrJmpLocation]
  rw [if_neg (fun h => hne h.symm)]

/-- C8 at `JMP $8000` stored at `$8000` (a jump to itself): after `Run` the
program counter is `$8003`, the address after the instruction, and not the
target `$8000`. -/
theorem jmp_to_self_advances_pc :
    (Cpu.UpdateOperand (cpuState 0 0 0 0xFD 0x8000 0x20
        ⟨OpCodeName.JMP, AddressMode.Absolu, 3⟩ 0
        (ramOfList [(0x8000, 0x4C), (0x8001, 0x00), (0x8002, 0x80)]))).m_operandAddress
      = 0x8000 ∧
    (Cpu.Run ⟨OpCodeName.JMP, AddressMode.Absolu, 3⟩ (cpuState 0 0 0 0xFD 0x8000 0x20
        ⟨OpCodeName.JMP, AddressMode.Absolu, 3⟩ 0
        (ramOfList [(0x8000, 0x4C), (0x8001, 0x00), (0x8002, 0x80)]))).PC = 0x8003 := by
  decide

/-! ## ADC followed by SBC -/

/-- C9 at `A = 0x10`, `M = 0x05`, carry clear: `ADC #$05`, then `SEC`, then
`SBC #$05` leaves `A = 0x11`, not the original `0x10`. -/
theorem adc_sbc_round_trip_fails_at_10_05 :
    (Cpu.Run ⟨OpCodeName.SBC, AddressMode.Immedt, 2⟩
      (Cpu.Run ⟨OpCodeName.SEC, AddressMode.Implid, 1⟩
        (Cpu.Run ⟨OpCodeName.ADC, AddressMode.Immedt, 2⟩
          (cpuState 0x10 0 0 0xFD 0x8000 0x20 ⟨OpCodeName.NOP, AddressMode.Implid, 1⟩ 0
            (ramOfList [(0x8000, 0x69), (0x8001, 0x05), (0x8002, 0x38), (0x8003, 0xE9),
              (0x8004, 0x05)]))))).A = 0x11 := by
  decide

/-! ## Stack: Push8 and Pop8 -/

namespace Cpu

theorem pushAll_SP_lt (bs : List Nat) : ∀ c : Cpu, c.SP < 256 → (pushAll bs c).SP < 256 := by
  induction bs with
  | nil => intro c h; exact h
  | cons b bs ih =>
      intro c _
      exact ih (Push8 c b) (Nat.mod_lt _ (by decide))

theorem pushAll_SP (bs : List Nat) :
    ∀ c : Cpu, c.SP < 256 → (pushAll bs c).SP = (c.SP + 255 * bs.length) % 256 := by
  induction bs with
  | nil => intro c h; simp [pushAll, Nat.mod_eq_of_lt h]
  | cons b bs ih =>
      intro c _
      have h2 : (Push8 c b).SP = (c.SP + 255) % 256 := rfl
      show (pushAll bs (Push8 c b)).SP = _
      rw [ih (Push8 c b) (Nat.mod_lt _ (by decide)), h2, List.length_cons]
      omega

/-- Pushes leave every address outside the stack page untouched. -/
theorem pushAll_frame_page (bs : List Nat) :
    ∀ (c : Cpu) (a : Nat), c.SP < 256 → ¬ (0x0100 ≤ a ∧ a ≤ 0x01FF) →
      (pushAll bs c).m_pRam a = c.m_pRam a := by
  induction bs with
  | nil => intro c a _ _; rfl
  | cons b bs ih =>
      intro c a hSP ha
      show (pushAll bs (Push8 c b)).m_pRam a = _
      rw [ih (Push8 c b) a (Nat.mod_lt _ (by decide)) ha]
      show Write8 c.m_pRam (kStackBase + c.SP) b a = _
      unfold Write8 kStackBase
      rw [if_neg]
      omega

/-- At most 256 pushes leave untouched every address that is not one of the
slots they go through. -/
theorem pushAll_frame_addr (bs : List Nat) :
    ∀ (c : Cpu) (a : Nat), c.SP < 256 → bs.length ≤ 256 →
      (∀ i, i < bs.length → a ≠ kStackBase + (c.SP + 256 - i) % 256) →
      (pushAll bs c).m_pRam a = c.m_pRam a := by
  induction bs with
  | nil => intro c a _ _ _; rfl
  | cons b bs ih =>
      intro c a hSP hlen hne
      rw [List.length_cons] at hlen hne
      have h2 : (Push8 c b).SP = (c.SP + 255) % 256 := rfl
      show (pushAll bs (Push8 c b)).m_pRam a = _
      rw [ih (Push8 c b) a (Nat.mod_lt _ (by decide)) (by omega)]
      · show Write8 c.m_pRam (kStackBase + c.SP) b a = _
        have h0 := hne 0 (by omega)
        unfold Write8
        unfold kStackBase at h0 ⊢
        rw [if_neg]
        omega
      · intro i hi
        have h1 := hne (i + 1) (by omega)
        rw [h2]
        unfold kStackBase at h1 ⊢
        omega

theorem popN_ram (n : Nat) : ∀ c : Cpu, (popN n c).2.m_pRam = c.m_pRam := by
  induction n with
  | zero => intro c; rfl
  | succ n ih =>
      intro c
      show (popN n (Pop8 c).2).2.m_pRam = _
      rw [ih]
      rfl

theorem popN_succ_last (n : Nat) :
    ∀ c : Cpu, popN (n + 1) c =
      ((popN n c).1 ++ [(Pop8 (popN n c).2).1], (Pop8 (popN n c).2).2) := by
  induction n with
  | zero => intro c; rfl
  | succ n ih =>
      intro c
      have h1 : popN (n + 1 + 1) c =
          ((Pop8 c).1 :: (popN (n + 1) (Pop8 c).2).1, (popN (n + 1) (Pop8 c).2).2) := rfl
      have h2 : popN (n + 1) c =
          ((Pop8 c).1 :: (popN n (Pop8 c).2).1, (popN n (Pop8 c).2).2) := rfl
      rw [h1, ih (Pop8 c).2, h2]
      rfl

/-- Pushing at most 256 bytes and popping as many returns them in reverse order
and restores the stack pointer. -/
theorem push_pop (cs : List Nat) :
    ∀ c : Cpu, c.SP < 256 → cs.length ≤ 256 → (∀ b ∈ cs, b < 256) →
      (popN cs.length (pushAll cs c)).1 = cs.reverse ∧
      (popN cs.length (pushAll cs c)).2.SP = c.SP := by
  induction cs with
  | nil => intro c _ _ _; exact ⟨rfl, rfl⟩
  | cons b cs ih =>
      intro c hSP hlen hb
      rw [List.length_cons] at hlen
      have h2 : (Push8 c b).SP = (c.SP + 255) % 256 := rfl
      obtain ⟨ihl, ihs⟩ := ih (Push8 c b) (Nat.mod_lt _ (by decide)) (by omega)
        (fun x hx => hb x (List.mem_cons_of_mem _ hx))
      have hpush : pushAll (b :: cs) c = pushAll cs (Push8 c b) := rfl
      rw [List.length_cons, hpush, popN_succ_last]
      have hsp : ((popN cs.length (pushAll cs (Push8 c b))).2.SP + 1) % 256 = c.SP := by
        rw [ihs, h2]; omega
      have hread : (Pop8 (popN cs.length (pushAll cs (Push8 c b))).2).1 = b := by
        show Read8 (popN cs.length (pushAll cs (Push8 c b))).2.m_pRam
          (kStackBase + ((popN cs.length (pushAll cs (Push8 c b))).2.SP + 1) % 256) = b
        rw [hsp, popN_ram]
        unfold Read8
        have haddr : (kStackBase + c.SP) % 65536 = kStackBase + c.SP := by
          unfold kStackBase; omega
        rw [haddr, pushAll_frame_addr cs (Push8 c b) (kStackBase + c.SP)
          (Nat.mod_lt _ (by decide)) (by omega)]
        · show Write8 c.m_pRam (kStackBase + c.SP) b (kStackBase + c.SP) % 256 = b
          unfold Write8
          rw [haddr, if_pos rfl, Nat.mod_mod]
          exact Nat.mod_eq_of_lt (hb b (List.mem_cons_self _ _))
        · intro i hi
          rw [h2]
          unfold kStackBase
          omega
      constructor
      · show (popN cs.length (pushAll cs (Push8 c b))).1 ++
          [(Pop8 (popN cs.length (pushAll cs (Push8 c b))).2).1] = (b :: cs).reverse
        rw [hread, ihl, List.reverse_cons]
      · exact hsp

end Cpu

/-- C10: from any stack pointer `s`, 257 `Push8` calls store only at addresses
`0x0100-0x01FF` and leave `SP = (s - 1) mod 256`; 256 `Pop8` calls then return
the last 256 pushed bytes, last pushed first, and leave `SP = (s - 1) mod 256`. -/
theorem stack_wrap_lifo (c : Cpu) (bs : List Nat) (hSP : c.SP < 256)
    (hlen : bs.length = 257) (hb : ∀ b ∈ bs, b < 256) :
    (∀ k, k < 257 →
      0x0100 ≤ kStackBase + (Cpu.pushAll (bs.take k) c).SP ∧
      kStackBase + (Cpu.pushAll (bs.take k) c).SP ≤ 0x01FF) ∧
    (∀ a, ¬ (0x0100 ≤ a ∧ a ≤ 0x01FF) → (Cpu.pushAll bs c).m_pRam a = c.m_pRam a) ∧
    (Cpu.pushAll bs c).SP = (c.SP + 256 - 1) % 256 ∧
    (Cpu.popN 256 (Cpu.pushAll bs c)).1 = (bs.drop 1).reverse ∧
    (Cpu.popN 256 (Cpu.pushAll bs c)).2.SP = (c.SP + 256 - 1) % 256 := by
  refine ⟨?_, ?_, ?_, ?_⟩
  · intro k _
    have := Cpu.pushAll_SP_lt (bs.take k) c hSP
    unfold kStackBase
    omega
  · intro a ha
    exact Cpu.pushAll_frame_page bs c a hSP ha
  · rw [Cpu.pushAll_SP bs c hSP, hlen]
    omega
  · match bs, hlen, hb with
    | b0 :: rest, hlen, hb =>
        have hrest : rest.length = 256 := by
          rw [List.length_cons] at hlen; omega
        have h := Cpu.push_pop rest (Cpu.Push8 c b0) (Nat.mod_lt _ (by decide))
          (by omega) (fun x hx => hb x (List.mem_cons_of_mem _ hx))
        rw [hrest] at h
        have hpush : Cpu.pushAll (b0 :: rest) c = Cpu.pushAll rest (Cpu.Push8 c b0) := rfl
        rw [hpush]
        refine ⟨h.1, ?_⟩
        rw [h.2]
        show (c.SP + 255) % 256 = _
        omega

/-- C10 at a concrete state: `SP = 0xFD` and the bytes `0, 1, ..., 255, 0`. -/
theorem stack_wrap_lifo_witness :
    (Cpu.pushAll sampleBytes
      (cpuState 0 0 0 0xFD 0x8000 0x20 ⟨OpCodeName.PHA, AddressMode.Implid, 1⟩ 0
        (ramOfList []))).SP = 0xFC ∧
    (Cpu.popN 256 (Cpu.pushAll sampleBytes
      (cpuState 0 0 0 0xFD 0x8000 0x20 ⟨OpCodeName.PHA, AddressMode.Implid, 1⟩ 0
        (ramOfList [])))).1 = (sampleBytes.drop 1).reverse ∧
    (Cpu.popN 256 (Cpu.pushAll sampleBytes
      (cpuState 0 0 0 0xFD 0x8000 0x20 ⟨OpCodeName.PHA, AddressMode.Implid, 1⟩ 0
        (ramOfList [])))).2.SP = 0xFC := by
  have h := stack_wrap_lifo
    (cpuState 0 0 0 0xFD 0x8000 0x20 ⟨OpCodeName.PHA, AddressMode.Implid, 1⟩ 0 (ramOfList []))
    sampleBytes (by decide) (by simp [sampleBytes])
    (by
      intro b hb
      unfold sampleBytes at hb
      rw [List.mem_map] at hb
      obtain ⟨i, _, rfl⟩ := hb
      exact Nat.mod_lt _ (by decide))
  exact ⟨h.2.2.1, h.2.2.2.1, h.2.2.2.2⟩

/-! ## Reset -/

/-- C11: after `Cpu::Reset`, `A = X = Y = 0`, `SP = 0xFD`, the I flag is set, the
status register holds exactly U, B and I (C, Z, D, V and N clear), and `PC` is
the little-endian 16-bit value stored at `0xFFFC`. -/
theorem cpu_reset_state (c : Cpu) :
    c.Reset.A = 0 ∧ c.Reset.X = 0 ∧ c.Reset.Y = 0 ∧ c.Reset.SP = 0xFD ∧
    Bitfield8.Test c.Reset.P InterruptsOff = 1 ∧
    c.Reset.P = Unused ||| BrkExecuted ||| InterruptsOff ∧
    Bitfield8.Test c.Reset.P Unused = 1 ∧
    Bitfield8.Test c.Reset.P BrkExecuted = 1 ∧
    Bitfield8.Test c.Reset.P Carry = 0 ∧
    Bitfield8.Test c.Reset.P StatusFlag.Zero = 0 ∧
    Bitfield8.Test c.Reset.P Decimal = 0 ∧
    Bitfield8.Test c.Reset.P Overflow = 0 ∧
    Bitfield8.Test c.Reset.P Negative = 0 ∧
    c.Reset.PC = Read8 c.m_pRam 0xFFFC ||| (Read8 c.m_pRam 0xFFFD <<< 8) := by
  have hP : c.Reset.P = 0x34 := rfl
  rw [hP]
  exact ⟨rfl, rfl, rfl, rfl, by decide, by decide, by decide, by decide, by decide, by decide,
    by decide, by decide, by decide, rfl⟩

/-- C12: `Reset` is idempotent, for the CPU (registers and all other members)
and for the APU. -/
theorem reset_idempotent (c : Cpu) (a : Apu) :
    c.Reset.Reset = c.Reset ∧ a.Reset.Reset = a.Reset :=
  ⟨rfl, rfl⟩

/-! ## The Unused flag -/

namespace Bitfield8

theorem Test_Unused_iff (p : Nat) : Test p Unused = 1 ↔ p.testBit 5 = true := by
  have h := Test_two_pow p 5
  rw [show (2 : Nat) ^ 5 = Unused from rfl] at h
  rw [h]
  cases p.testBit 5 <;> simp

theorem Unused_Set (p bits : Nat) (h : Test p Unused = 1) : Test (Set p bits) Unused = 1 := by
  rw [Test_Unused_iff] at h ⊢
  unfold Set
  rw [show (256 : Nat) = 2 ^ 8 from rfl, Nat.testBit_mod_two_pow, Nat.testBit_or, h]
  simp

theorem Unused_Clear (p b i : Nat) (hb : b = 2 ^ i) (hi : i < 8) (h5 : i ≠ 5)
    (h : Test p Unused = 1) : Test (Clear p b) Unused = 1 := by
  rw [Test_Unused_iff] at h ⊢
  subst hb
  rw [testBit_Clear p i 5 hi (by decide), h]
  simp [h5]

theorem Unused_SetEnabled (p b e i : Nat) (hb : b = 2 ^ i) (hi : i < 8) (h5 : i ≠ 5)
    (h : Test p Unused = 1) : Test (SetEnabled p b e) Unused = 1 := by
  unfold SetEnabled
  split
  · exact Unused_Set p b h
  · exact Unused_Clear p b i hb hi h5 h

theorem Unused_SetEnabled_N (p e : Nat) (h : Test p Unused = 1) :
    Test (SetEnabled p Negative e) Unused = 1 :=
  Unused_SetEnabled p _ e 7 rfl (by decide) (by decide) h

theorem Unused_SetEnabled_Z (p e : Nat) (h : Test p Unused = 1) :
    Test (SetEnabled p StatusFlag.Zero e) Unused = 1 :=
  Unused_SetEnabled p _ e 1 rfl (by decide) (by decide) h

theorem Unused_SetEnabled_C (p e : Nat) (h : Test p Unused = 1) :
    Test (SetEnabled p Carry e) Unused = 1 :=
  Unused_SetEnabled p _ e 0 rfl (by decide) (by decide) h

theorem Unused_SetEnabled_V (p e : Nat) (h : Test p Unused = 1) :
    Test (SetEnabled p Overflow e) Unused = 1 :=
  Unused_SetEnabled p _ e 6 rfl (by decide) (by decide) h

theorem Unused_Clear_C (p : Nat) (h : Test p Unused = 1) : Test (Clear p Carry) Unused = 1 :=
  Unused_Clear p _ 0 rfl (by decide) (by decide) h

theorem Unused_Clear_D (p : Nat) (h : Test p Unused = 1) : Test (Clear p Decimal) Unused = 1 :=
  Unused_Clear p _ 3 rfl (by decide) (by decide) h

theorem Unused_Clear_I (p : Nat) (h : Test p Unused = 1) :
    Test (Clear p InterruptsOff) Unused = 1 :=
  Unused_Clear p _ 2 rfl (by decide) (by decide) h

theorem Unused_Clear_V (p : Nat) (h : Test p Unused = 1) : Test (Clear p Overflow) Unused = 1 :=
  Unused_Clear p _ 6 rfl (by decide) (by decide) h

theorem Unused_Clear_N (p : Nat) (h : Test p Unused = 1) : Test (Clear p Negative) Unused = 1 :=
  Unused_Clear p _ 7 rfl (by decide) (by decide) h

end Bitfield8

/-- C13: the Unused flag is preserved by every instruction: when U is set
before `ExecuteInstruction`, it is set afterwards, whatever the opcode, and for
`PLP` and `RTI` whatever byte is popped. -/
theorem unused_flag_preserved (c : Cpu) (hU : Bitfield8.Test c.P Unused = 1) :
    Bitfield8.Test c.ExecuteInstruction.P Unused = 1 := by
  rw [Cpu.ExecuteInstruction_P]
  cases hop : c.m_pEntry.opCodeName <;>
    simp only [Cpu.ExecuteOpCode, hop, Cpu.SetAccumOrMemValue_P, Cpu.SetMemValue, Cpu.Push8,
      Cpu.Push16, Cpu.Pop8, Cpu.Pop16, Bitfield8.Value] <;>
    (try split) <;>
    with_reducible (repeat (first
      | exact hU
      | apply Bitfield8.Unused_SetEnabled_N
      | apply Bitfield8.Unused_SetEnabled_Z
      | apply Bitfield8.Unused_SetEnabled_C
      | apply Bitfield8.Unused_SetEnabled_V
      | apply Bitfield8.Unused_Clear_C
      | apply Bitfield8.Unused_Clear_D
      | apply Bitfield8.Unused_Clear_I
      | apply Bitfield8.Unused_Clear_V
      | apply Bitfield8.Unused_Clear_N
      | apply Bitfield8.Unused_Set))

/-- C13 at a concrete state: `PLP` popping the byte `0x00` keeps U set. -/
theorem unused_flag_preserved_witness :
    Bitfield8.Test (cpuState 0 0 0 0xFC 0x8000 0x20 ⟨OpCodeName.PLP, AddressMode.Implid, 1⟩ 0
        (ramOfList [(0x01FD, 0x00)])).ExecuteInstruction.P Unused = 1 :=
  unused_flag_preserved
    (cpuState 0 0 0 0xFC 0x8000 0x20 ⟨OpCodeName.PLP, AddressMode.Implid, 1⟩ 0
      (ramOfList [(0x01FD, 0x00)])) (by decide)

/-! ## BRK -/

theorem Read8_Write8_ne (ram : CpuRam) (a b v : Nat) (h : b % 65536 ≠ a % 65536) :
    Read8 (Write8 ram a v) b = Read8 ram b := by
  simp [Read8, Write8, h]

/-- What `BRK` does: the return address `PC + numBytes` is pushed high byte
first, then the status with B raised; SP drops by 3; I is raised; the switch
leaves `PC` at the IRQ/BRK vector, and so does `ExecuteInstruction` unless the
vector is the address of the `BRK` itself. -/
theorem brk_effect (c : Cpu) (hop : c.m_pEntry.opCodeName = OpCodeName.BRK)
    (hSP : c.SP < 256) :
    c.ExecuteInstruction.m_pRam =
      Write8 (Write8 (Write8 c.m_pRam (kStackBase + c.SP)
          (TO16 (c.PC + c.m_pEntry.numBytes) >>> 8))
        (kStackBase + (c.SP + 255) % 256) (TO16 (c.PC + c.m_pEntry.numBytes) &&& 0x00FF))
        (kStackBase + (c.SP + 254) % 256) (Bitfield8.Set c.P BrkExecuted) ∧
    c.ExecuteInstruction.SP = (c.SP + 253) % 256 ∧
    c.ExecuteInstruction.P = Bitfield8.Set (Bitfield8.Set c.P BrkExecuted) InterruptsOff ∧
    c.ExecuteOpCode.PC = Read16 c.m_pRam kIrqVector ∧
    (Read16 c.m_pRam kIrqVector ≠ c.PC →
      c.ExecuteInstruction.PC = Read16 c.m_pRam kIrqVector) := by
  have h254 : ((c.SP + 255) % 256 + 255) % 256 = (c.SP + 254) % 256 := by omega
  have h253 : (((c.SP + 255) % 256 + 255) % 256 + 255) % 256 = (c.SP + 253) % 256 := by omega
  have hram : c.ExecuteOpCode.m_pRam =
      Write8 (Write8 (Write8 c.m_pRam (kStackBase + c.SP)
          (TO16 (c.PC + c.m_pEntry.numBytes) >>> 8))
        (kStackBase + (c.SP + 255) % 256) (TO16 (c.PC + c.m_pEntry.numBytes) &&& 0x00FF))
        (kStackBase + (c.SP + 254) % 256) (Bitfield8.Set c.P BrkExecuted) := by
    simp only [Cpu.ExecuteOpCode, hop, Cpu.Push16, Cpu.Push8, Bitfield8.Value, h254]
  have hpc : c.ExecuteOpCode.PC = Read16 c.m_pRam kIrqVector := by
    have h1 : c.ExecuteOpCode.PC = Read16 c.ExecuteOpCode.m_pRam kIrqVector := by
      simp only [Cpu.ExecuteOpCode, hop, Cpu.Push16, Cpu.Push8, Bitfield8.Value]
    rw [h1, hram]
    unfold Read16
    rw [Read8_Write8_ne, Read8_Write8_ne, Read8_Write8_ne, Read8_Write8_ne, Read8_Write8_ne,
      Read8_Write8_ne] <;> (unfold kStackBase kIrqVector; omega)
  refine ⟨?_, ?_, ?_, hpc, ?_⟩
  · rw [Cpu.ExecuteInstruction_ram, hram]
  · rw [Cpu.ExecuteInstruction_SP]
    simp only [Cpu.ExecuteOpCode, hop, Cpu.Push16, Cpu.Push8, h253]
  · rw [Cpu.ExecuteInstruction_P]
    simp only [Cpu.ExecuteOpCode, hop, Cpu.Push16, Cpu.Push8]
  · intro hne
    unfold Cpu.ExecuteInstruction
    simp only
    rw [if_neg (by rw [hpc]; exact fun h => hne h.symm), hpc]

/-- C14 at a `BRK` stored at `$8000` whose IRQ/BRK vector holds `$8000`: the
return address `$8002` and the status `0x30` are pushed and SP drops by 3, but
after `Run` the program counter is `$8002` and not the vector `$8000`. -/
theorem brk_vector_to_self_advances_pc :
    Read16 (ramOfList [(0x8000, 0x00), (0xFFFE, 0x00), (0xFFFF, 0x80)]) kIrqVector = 0x8000 ∧
    (Cpu.Run ⟨OpCodeName.BRK, AddressMode.Implid, 2⟩
      (cpuState 0 0 0 0xFD 0x8000 0x20 ⟨OpCodeName.NOP, AddressMode.Implid, 1⟩ 0
        (ramOfList [(0x8000, 0x00), (0xFFFE, 0x00), (0xFFFF, 0x80)]))).PC = 0x8002 ∧
    (Cpu.Run ⟨OpCodeName.BRK, AddressMode.Implid, 2⟩
      (cpuState 0 0 0 0xFD 0x8000 0x20 ⟨OpCodeName.NOP, AddressMode.Implid, 1⟩ 0
        (ramOfList [(0x8000, 0x00), (0xFFFE, 0x00), (0xFFFF, 0x80)]))).SP = 0xFA := by
  decide

/-! ## FillSoundBuffer: pulse channels -/

namespace Apu

theorem pulse_setPulse_other (a : Apu) (p q : Nat) (d : PulseData) (hp : p = 0 ∨ p = 1)
    (hq : q = 0 ∨ q = 1) (hpq : p ≠ q) : (a.setPulse p d).pulse q = a.pulse q := by
  unfold setPulse pulse
  rcases hp with rfl | rfl <;> rcases hq with rfl | rfl <;> simp at hpq ⊢

/-- The pulse block leaves channel `p` alone when the channel is disabled, its
length counter is 0, its timer is below 8 or its target period is above
`0x7FF`. -/
theorem mixPulse_muted (p : Nat) (s : Apu × List Int)
    (hm : (s.1.pulse p).m_pulseEnabled = 0 ∨ (s.1.pulse p).m_pulseLength = 0 ∨
      (s.1.pulse p).m_pulseTimer < 8 ∨ (s.1.pulse p).m_pulseSweepTargetPeriod > 0x7FF) :
    mixPulse p s = s := by
  unfold mixPulse
  simp only
  by_cases h1 : (s.1.pulse p).m_pulseEnabled = 0 ∨ (s.1.pulse p).m_pulseLength = 0
  · rw [if_pos h1]
  · rw [if_neg h1]
    have h2 : (s.1.pulse p).m_pulseTimer < 8 ∨ (s.1.pulse p).m_pulseSweepTargetPeriod > 0x7FF := by
      rcases hm with h | h | h | h
      · exact absurd (Or.inl h) h1
      · exact absurd (Or.inr h) h1
      · exact Or.inl h
      · exact Or.inr h
    rw [if_pos h2, if_pos rfl]

/-- The pulse block for channel `p` leaves the other pulse channel alone. -/
theorem mixPulse_other (p q : Nat) (s : Apu × List Int) (hp : p = 0 ∨ p = 1)
    (hq : q = 0 ∨ q = 1) (hpq : p ≠ q) : (mixPulse p s).1.pulse q = s.1.pulse q := by
  unfold mixPulse
  simp only
  split_ifs <;> first | rfl | exact pulse_setPulse_other _ p q _ hp hq hpq

theorem mixTriangle_pulse (q : Nat) (s : Apu × List Int) :
    (mixTriangle s).1.pulse q = s.1.pulse q := by
  unfold mixTriangle
  simp only
  split <;> rfl

theorem mixNoise_pulse (q : Nat) (s : Apu × List Int) :
    (mixNoise s).1.pulse q = s.1.pulse q := by
  unfold mixNoise
  simp only
  split <;> rfl

end Apu

/-- C15: in `FillSoundBuffer`, a pulse channel that is disabled, or whose length
counter is 0, or whose timer is below 8, or whose stored sweep target period is
above `0x7FF`, adds nothing to any sample (its block returns the samples and the
state as they were, so the buffer is the one produced without the channel) and
its phase accumulator `m_pulseSequencer` is unchanged. -/
theorem pulse_muted_is_silent (a : Apu) (len p : Nat) (hp : p = 0 ∨ p = 1)
    (hm : (a.pulse p).m_pulseEnabled = 0 ∨ (a.pulse p).m_pulseLength = 0 ∨
      (a.pulse p).m_pulseTimer < 8 ∨ (a.pulse p).m_pulseSweepTargetPeriod > 0x7FF) :
    (∀ buf : List Int, Apu.mixPulse p (a, buf) = (a, buf)) ∧
    Apu.FillSoundBuffer a len =
      Apu.mixNoise (Apu.mixTriangle (Apu.mixPulse (1 - p) (a, List.replicate len 0))) ∧
    ((Apu.FillSoundBuffer a len).1.pulse p).m_pulseSequencer =
      (a.pulse p).m_pulseSequencer := by
  have hfill : Apu.FillSoundBuffer a len =
      Apu.mixNoise (Apu.mixTriangle (Apu.mixPulse (1 - p) (a, List.replicate len 0))) := by
    unfold Apu.FillSoundBuffer
    simp only
    rcases hp with rfl | rfl
    · rw [Apu.mixPulse_muted 0 (a, List.replicate len 0) hm]
    · rw [Apu.mixPulse_muted 1 (Apu.mixPulse 0 (a, List.replicate len 0))]
      rw [Apu.mixPulse_other 0 1 _ (Or.inl rfl) (Or.inr rfl) (by decide)]
      exact hm
  refine ⟨fun buf => Apu.mixPulse_muted p (a, buf) hm, hfill, ?_⟩
  rw [hfill, Apu.mixNoise_pulse, Apu.mixTriangle_pulse,
    Apu.mixPulse_other (1 - p) p _ (by omega) hp (by omega)]

/-- C15 at a concrete state: the first pulse channel is enabled with length 10
and constant volume 15, but its timer is 5. -/
theorem pulse_muted_is_silent_witness :
    Apu.mixPulse 0 (apuMutedPulse, [1, 2, 3]) = (apuMutedPulse, [1, 2, 3]) ∧
    ((Apu.FillSoundBuffer apuMutedPulse 4).1.pulse 0).m_pulseSequencer = 0 :=
  ⟨(pulse_muted_is_silent apuMutedPulse 4 0 (Or.inl rfl)
      (Or.inr (Or.inr (Or.inl (by decide))))).1 [1, 2, 3],
   (pulse_muted_is_silent apuMutedPulse 4 0 (Or.inl rfl)
      (Or.inr (Or.inr (Or.inl (by decide))))).2.2⟩

/-! ## Register writes -/

open CpuMemory

theorem bit_extract (v i : Nat) :
    ((v &&& 2 ^ i) >>> i) % 256 = if v.testBit i then 1 else 0 := by
  rw [Nat.and_two_pow, Nat.shiftRight_eq_div_pow,
    Nat.mul_div_cancel _ (Nat.pos_pow_of_pos i (by decide))]
  cases v.testBit i <;> rfl

namespace Apu

theorem HandleCpuWritePulse_other (p : Nat) (addr v : Nat) (a : Apu) (hp : p = 0 ∨ p = 1)
    (h : addr < 0x4000 ∨ 0x4007 < addr) : HandleCpuWritePulse p addr v a = a := by
  unfold HandleCpuWritePulse kApuPulse1ChannelA kApuPulse1ChannelB kApuPulse1ChannelC
    kApuPulse1ChannelD
  simp only
  rcases hp with rfl | rfl
  · rw [if_neg, if_neg, if_neg, if_neg] <;> (simp; omega)
  · rw [if_neg, if_neg, if_neg, if_neg] <;> (simp; omega)

end Apu

/-- The state after a write of `v` to the channel enable register. -/
theorem Apu.HandleCpuWrite_controlStatus (a : Apu) (v : Nat) :
    a.HandleCpuWrite kApuControlStatus v =
      { a with
        m_pulses0 :=
          ({ a.m_pulses0 with
            m_pulseEnabled := (if v.testBit 0 then 1 else 0),
            m_pulseLength := (if v.testBit 0 then a.m_pulses0.m_pulseLength else 0) }),
        m_pulses1 :=
          ({ a.m_pulses1 with
            m_pulseEnabled := (if v.testBit 1 then 1 else 0),
            m_pulseLength := (if v.testBit 1 then a.m_pulses1.m_pulseLength else 0) }),
        m_triangleEnabled := (if v.testBit 2 then 1 else 0),
        m_triangleLength := (if v.testBit 2 then a.m_triangleLength else 0),
        m_noiseEnabled := (if v.testBit 3 then 1 else 0),
        m_noiseLength := (if v.testBit 3 then a.m_noiseLength else 0),
        m_DMCEnabled := (if v.testBit 4 then 1 else 0),
        m_DMCLength := (if v.testBit 4 then a.m_DMCLength else 0) } := by
  have h0 := bit_extract v 0
  have h1 := bit_extract v 1
  have h2 := bit_extract v 2
  have h3 := bit_extract v 3
  have h4 := bit_extract v 4
  have e0 : BITS [0] = 2 ^ 0 := rfl
  have e1 : BITS [1] = 2 ^ 1 := rfl
  have e2 : BITS [2] = 2 ^ 2 := rfl
  have e3 : BITS [3] = 2 ^ 3 := rfl
  have e4 : BITS [4] = 2 ^ 4 := rfl
  have hp0 := Apu.HandleCpuWritePulse_other 0 kApuControlStatus v a (Or.inl rfl)
    (Or.inr (by decide))
  have hp1 := Apu.HandleCpuWritePulse_other 1 kApuControlStatus v a (Or.inr rfl)
    (Or.inr (by decide))
  cases hb0 : v.testBit 0 <;> cases hb1 : v.testBit 1 <;> cases hb2 : v.testBit 2 <;>
    cases hb3 : v.testBit 3 <;> cases hb4 : v.testBit 4 <;>
    (simp only [hb0, hb1, hb2, hb3, hb4, if_true, if_false, Bool.false_eq_true]
        at h0 h1 h2 h3 h4
     unfold Apu.HandleCpuWrite
     simp only [hp0, hp1, if_true, if_false, e0, e1, e2, e3, e4, h0, h1, h2, h3, h4,
       one_ne_zero, Bool.false_eq_true])

/-- C16: a write of `v` to the channel enable register `0x4015` sets, for pulse
1 (bit 0), pulse 2 (bit 1), triangle (bit 2), noise (bit 3) and DMC (bit 4), the
enable flag to the channel's bit; a channel whose bit is 0 gets length 0, a
channel whose bit is 1 keeps its length; nothing else changes. -/
theorem control_status_write (a : Apu) (v : Nat) :
    (a.HandleCpuWrite kApuControlStatus v).m_pulses0.m_pulseEnabled =
      (if v.testBit 0 then 1 else 0) ∧
    (a.HandleCpuWrite kApuControlStatus v).m_pulses0.m_pulseLength =
      (if v.testBit 0 then a.m_pulses0.m_pulseLength else 0) ∧
    (a.HandleCpuWrite kApuControlStatus v).m_pulses1.m_pulseEnabled =
      (if v.testBit 1 then 1 else 0) ∧
    (a.HandleCpuWrite kApuControlStatus v).m_pulses1.m_pulseLength =
      (if v.testBit 1 then a.m_pulses1.m_pulseLength else 0) ∧
    (a.HandleCpuWrite kApuControlStatus v).m_triangleEnabled =
      (if v.testBit 2 then 1 else 0) ∧
    (a.HandleCpuWrite kApuControlStatus v).m_triangleLength =
      (if v.testBit 2 then a.m_triangleLength else 0) ∧
    (a.HandleCpuWrite kApuControlStatus v).m_noiseEnabled =
      (if v.testBit 3 then 1 else 0) ∧
    (a.HandleCpuWrite kApuControlStatus v).m_noiseLength =
      (if v.testBit 3 then a.m_noiseLength else 0) ∧
    (a.HandleCpuWrite kApuControlStatus v).m_DMCEnabled =
      (if v.testBit 4 then 1 else 0) ∧
    (a.HandleCpuWrite kApuControlStatus v).m_DMCLength =
      (if v.testBit 4 then a.m_DMCLength else 0) ∧
    a.HandleCpuWrite kApuControlStatus v =
      { a with
        m_pulses0 :=
          ({ a.m_pulses0 with
            m_pulseEnabled := (a.HandleCpuWrite kApuControlStatus v).m_pulses0.m_pulseEnabled,
            m_pulseLength := (a.HandleCpuWrite kApuControlStatus v).m_pulses0.m_pulseLength }),
        m_pulses1 :=
          ({ a.m_pulses1 with
            m_pulseEnabled := (a.HandleCpuWrite kApuControlStatus v).m_pulses1.m_pulseEnabled,
            m_pulseLength := (a.HandleCpuWrite kApuControlStatus v).m_pulses1.m_pulseLength }),
        m_triangleEnabled := (a.HandleCpuWrite kApuControlStatus v).m_triangleEnabled,
        m_triangleLength := (a.HandleCpuWrite kApuControlStatus v).m_triangleLength,
        m_noiseEnabled := (a.HandleCpuWrite kApuControlStatus v).m_noiseEnabled,
        m_noiseLength := (a.HandleCpuWrite kApuControlStatus v).m_noiseLength,
        m_DMCEnabled := (a.HandleCpuWrite kApuControlStatus v).m_DMCEnabled,
        m_DMCLength := (a.HandleCpuWrite kApuControlStatus v).m_DMCLength } := by
  rw [Apu.HandleCpuWrite_controlStatus]
  refine ⟨rfl, rfl, rfl, rfl, rfl, rfl, rfl, rfl, rfl, rfl, rfl⟩

/-- C17, as amended: a write of `v` to the frame counter register `0x4017` sets
the sequencer mode to bit 7 of `v` and the IRQ-disable flag to bit 6 of `v`, and
changes nothing else: no length/sweep clock and no envelope clock is run. -/
theorem frame_counter_write_sets_mode_only (a : Apu) (v : Nat) :
    a.HandleCpuWrite kApuFrameCounter v =
      { a with m_frameSequencerMode := (if v.testBit 7 then 1 else 0),
               m_frameSequencerIRQDisable := (if v.testBit 6 then 1 else 0) } := by
  have h6 := bit_extract v 6
  have h7 := bit_extract v 7
  have e6 : BITS [6] = 2 ^ 6 := rfl
  have e7 : BITS [7] = 2 ^ 7 := rfl
  have hp0 := Apu.HandleCpuWritePulse_other 0 kApuFrameCounter v a (Or.inl rfl)
    (Or.inr (by decide))
  have hp1 := Apu.HandleCpuWritePulse_other 1 kApuFrameCounter v a (Or.inr rfl)
    (Or.inr (by decide))
  unfold Apu.HandleCpuWrite
  simp only [hp0, hp1, e6, e7, h6, h7]
  rw [if_neg (by decide), if_pos trivial]

/-- C17 fails at the write of `0x80` (bit 7 set) to `0x4017` on a freshly reset
APU: the state after the write is not the state obtained by setting the mode
bits and running `ExecuteLengthAndSweep` and `ExecuteEnvelope` once (the
envelope divider of the first pulse channel is still 0, a clock would leave
255). -/
theorem frame_counter_write_runs_no_clock :
    (0x80 : Nat).testBit 7 = true ∧
    (apuSample.HandleCpuWrite kApuFrameCounter 0x80).m_pulses0.m_pulseEnvelopeDivider = 0 ∧
    (Apu.ExecuteEnvelope (Apu.ExecuteLengthAndSweep
      { apuSample with m_frameSequencerMode := 1,
                       m_frameSequencerIRQDisable := 0 })).m_pulses0.m_pulseEnvelopeDivider
      = 255 ∧
    apuSample.HandleCpuWrite kApuFrameCounter 0x80 ≠
      Apu.ExecuteEnvelope (Apu.ExecuteLengthAndSweep
        { apuSample with m_frameSequencerMode := 1, m_frameSequencerIRQDisable := 0 }) := by
  refine ⟨by decide, by decide, by decide, ?_⟩
  intro h
  have h2 := congrArg (fun s : Apu => s.m_pulses0.m_pulseEnvelopeDivider) h
  exact absurd h2 (by decide)

/-! ## Frame sequencer -/

namespace Apu

theorem ExecuteEnvelope_frame (a : Apu) :
    (ExecuteEnvelope a).m_frameSequencer = a.m_frameSequencer ∧
    (ExecuteEnvelope a).m_cycleCounter = a.m_cycleCounter ∧
    (ExecuteEnvelope a).m_frameSequencerMode = a.m_frameSequencerMode := by
  unfold ExecuteEnvelope
  simp only
  split_ifs <;> exact ⟨rfl, rfl, rfl⟩

theorem ExecuteLengthAndSweep_frame (a : Apu) :
    (ExecuteLengthAndSweep a).m_frameSequencer = a.m_frameSequencer ∧
    (ExecuteLengthAndSweep a).m_cycleCounter = a.m_cycleCounter ∧
    (ExecuteLengthAndSweep a).m_frameSequencerMode = a.m_frameSequencerMode := by
  unfold ExecuteLengthAndSweep
  simp only
  split_ifs <;> exact ⟨rfl, rfl, rfl⟩

theorem ite_clock_seq (c : Prop) [Decidable c] (z : Apu) :
    (ExecuteEnvelope (if c then ExecuteLengthAndSweep z else z)).m_frameSequencer =
      z.m_frameSequencer := by
  rw [(ExecuteEnvelope_frame _).1]
  split
  · exact (ExecuteLengthAndSweep_frame z).1
  · rfl

theorem ite_clock_seq' (c d : Prop) [Decidable c] [Decidable d] (z : Apu) :
    (if d then ExecuteEnvelope (if c then ExecuteLengthAndSweep z else z)
      else (if c then ExecuteLengthAndSweep z else z)).m_frameSequencer =
      z.m_frameSequencer := by
  split
  · exact ite_clock_seq c z
  · split
    · exact (ExecuteLengthAndSweep_frame z).1
    · rfl

/-- A call of `Execute` that takes the early return only adds to the cycle
counter. -/
theorem Execute_no_step (a : Apu) (n : Nat)
    (hlt : (a.m_cycleCounter + n % 4294967296) % 4294967296 < 7457) :
    a.Execute n =
      { a with m_cycleCounter := (a.m_cycleCounter + n % 4294967296) % 4294967296 } := by
  unfold Execute
  simp only [if_pos hlt]

/-- A call of `Execute` that goes past the early return. -/
theorem Execute_step (a : Apu) (n : Nat)
    (hnot : ¬ (a.m_cycleCounter + n % 4294967296) % 4294967296 < 7457) :
    a.Execute n =
      { (if a.m_frameSequencerMode = 0 then ExecuteMode0 (a.atStep n a.m_frameSequencer)
          else if a.m_frameSequencerMode = 1 then ExecuteMode1 (a.atStep n a.m_frameSequencer)
          else a.atStep n a.m_frameSequencer)
        with m_frameSequencer :=
          (if a.m_frameSequencerMode = 0 then ExecuteMode0 (a.atStep n a.m_frameSequencer)
            else if a.m_frameSequencerMode = 1
              then ExecuteMode1 (a.atStep n a.m_frameSequencer)
            else a.atStep n a.m_frameSequencer).m_frameSequencer + 1 } := by
  unfold Execute
  simp only [if_neg hnot]
  rfl

theorem ExecuteMode0_eq (b : Apu) :
    ExecuteMode0 b =
      ExecuteEnvelope
        (if b.stepIndex 4 = 1 ∨ b.stepIndex 4 = 3
          then ExecuteLengthAndSweep (b.withStep (b.stepIndex 4))
          else b.withStep (b.stepIndex 4)) := by
  have hs : b.withStep b.m_frameSequencer = b := rfl
  unfold ExecuteMode0 stepIndex
  by_cases h4 : b.m_frameSequencer ≥ 4
  · simp only [if_pos h4]
    rfl
  · simp only [if_neg h4, hs]

theorem ExecuteMode1_eq (b : Apu) :
    ExecuteMode1 b =
      (if b.stepIndex 5 ≤ 3 then
        ExecuteEnvelope
          (if b.stepIndex 5 = 0 ∨ b.stepIndex 5 = 2
            then ExecuteLengthAndSweep (b.withStep (b.stepIndex 5))
            else b.withStep (b.stepIndex 5))
      else
        (if b.stepIndex 5 = 0 ∨ b.stepIndex 5 = 2
          then ExecuteLengthAndSweep (b.withStep (b.stepIndex 5))
          else b.withStep (b.stepIndex 5))) := by
  have hs : b.withStep b.m_frameSequencer = b := rfl
  have h0 : ∀ c : Prop, ∀ _ : Decidable c, (if c then ExecuteLengthAndSweep (b.withStep 0)
      else b.withStep 0).m_frameSequencer = 0 := by
    intro c _
    split
    · exact (ExecuteLengthAndSweep_frame _).1
    · rfl
  have h1 : ∀ c : Prop, ∀ _ : Decidable c, (if c then ExecuteLengthAndSweep b
      else b).m_frameSequencer = b.m_frameSequencer := by
    intro c _
    split
    · exact (ExecuteLengthAndSweep_frame _).1
    · rfl
  have hw : ({ b with m_frameSequencer := 0 } : Apu) = b.withStep 0 := rfl
  have hws : ∀ t : Int, (b.withStep t).m_frameSequencer = t := fun _ => rfl
  unfold ExecuteMode1 stepIndex
  by_cases h5 : b.m_frameSequencer ≥ 5
  · simp only [if_pos h5, hw, h0, hws]
  · simp only [if_neg h5, hs, h1]

theorem atStep_stepIndex (a : Apu) (n : Nat) (w : Int) :
    (a.atStep n a.m_frameSequencer).stepIndex w = a.stepIndex w := by
  unfold atStep stepIndex
  rfl

theorem atStep_withStep (a : Apu) (n : Nat) (s t : Int) :
    (a.atStep n s).withStep t = a.atStep n t := by
  unfold atStep withStep
  rfl

theorem atStep_seq (a : Apu) (n : Nat) (s : Int) : (a.atStep n s).m_frameSequencer = s := by
  unfold atStep
  rfl

end Apu

/-- The step counter `m_frameSequencer` is 0 after `Reset` and stays
non-negative under `Execute`. -/
theorem Apu.frameSequencer_nonneg (a : Apu) (n : Nat) :
    a.Reset.m_frameSequencer = 0 ∧
    (0 ≤ a.m_frameSequencer → 0 ≤ (a.Execute n).m_frameSequencer) := by
  refine ⟨rfl, fun h => ?_⟩
  by_cases hlt : (a.m_cycleCounter + n % 4294967296) % 4294967296 < 7457
  · rw [Apu.Execute_no_step a n hlt]
    exact h
  · rw [Apu.Execute_step a n hlt]
    show 0 ≤ (if a.m_frameSequencerMode = 0 then
        Apu.ExecuteMode0 (a.atStep n a.m_frameSequencer)
      else if a.m_frameSequencerMode = 1 then Apu.ExecuteMode1 (a.atStep n a.m_frameSequencer)
      else a.atStep n a.m_frameSequencer).m_frameSequencer + 1
    have hs4 : 0 ≤ a.stepIndex 4 := by unfold Apu.stepIndex; split <;> omega
    have hs5 : 0 ≤ a.stepIndex 5 := by unfold Apu.stepIndex; split <;> omega
    split
    · rw [Apu.ExecuteMode0_eq, Apu.atStep_stepIndex, Apu.atStep_withStep, Apu.ite_clock_seq,
        Apu.atStep_seq]
      omega
    · split
      · rw [Apu.ExecuteMode1_eq, Apu.atStep_stepIndex, Apu.atStep_withStep,
          Apu.ite_clock_seq', Apu.atStep_seq]
        omega
      · rw [Apu.atStep_seq]
        omega

/-- C18: at a frame-sequencer step taken by `Execute`, with `s` the step index
after wrap-around: in mode 0, `s` is in `0..3`, length counters and sweep units
are clocked exactly when `s` is 1 or 3 and the envelopes and the linear counter
are clocked at every step; in mode 1, `s` is in `0..4`, length and sweep are
clocked exactly when `s` is 0 or 2 and the envelopes exactly when `s <= 3`.  The
step leaves `m_frameSequencer = s + 1`. -/
theorem frame_sequencer_schedule (a : Apu) (n : Nat) (hseq : 0 ≤ a.m_frameSequencer)
    (hstep : 7457 ≤ (a.m_cycleCounter + n % 4294967296) % 4294967296) :
    (a.m_frameSequencerMode = 0 →
      0 ≤ a.stepIndex 4 ∧ a.stepIndex 4 ≤ 3 ∧
      a.Execute n =
        { Apu.ExecuteEnvelope
            (if a.stepIndex 4 = 1 ∨ a.stepIndex 4 = 3
              then Apu.ExecuteLengthAndSweep (a.atStep n (a.stepIndex 4))
              else a.atStep n (a.stepIndex 4))
          with m_frameSequencer := a.stepIndex 4 + 1 }) ∧
    (a.m_frameSequencerMode = 1 →
      0 ≤ a.stepIndex 5 ∧ a.stepIndex 5 ≤ 4 ∧
      a.Execute n =
        { (if a.stepIndex 5 ≤ 3
            then Apu.ExecuteEnvelope
              (if a.stepIndex 5 = 0 ∨ a.stepIndex 5 = 2
                then Apu.ExecuteLengthAndSweep (a.atStep n (a.stepIndex 5))
                else a.atStep n (a.stepIndex 5))
            else
              (if a.stepIndex 5 = 0 ∨ a.stepIndex 5 = 2
                then Apu.ExecuteLengthAndSweep (a.atStep n (a.stepIndex 5))
                else a.atStep n (a.stepIndex 5)))
          with m_frameSequencer := a.stepIndex 5 + 1 }) := by
  have hnot : ¬ (a.m_cycleCounter + n % 4294967296) % 4294967296 < 7457 := by omega
  constructor
  · intro hmode
    have hs : 0 ≤ a.stepIndex 4 ∧ a.stepIndex 4 ≤ 3 := by
      unfold Apu.stepIndex
      split <;> omega
    refine ⟨hs.1, hs.2, ?_⟩
    rw [Apu.Execute_step a n hnot, if_pos hmode, Apu.ExecuteMode0_eq, Apu.atStep_stepIndex,
      Apu.atStep_withStep, Apu.ite_clock_seq, Apu.atStep_seq]
  · intro hmode
    have hmode0 : ¬ a.m_frameSequencerMode = 0 := by rw [hmode]; decide
    have hs : 0 ≤ a.stepIndex 5 ∧ a.stepIndex 5 ≤ 4 := by
      unfold Apu.stepIndex
      split <;> omega
    refine ⟨hs.1, hs.2, ?_⟩
    rw [Apu.Execute_step a n hnot, if_neg hmode0, if_pos hmode, Apu.ExecuteMode1_eq,
      Apu.atStep_stepIndex, Apu.atStep_withStep, Apu.ite_clock_seq', Apu.atStep_seq]

/-- C18 at a concrete state: a freshly reset APU in mode 0 that receives 7457
cycles takes step 0, where only the envelopes are clocked. -/
theorem frame_sequencer_schedule_witness :
    0 ≤ apuSample.stepIndex 4 ∧ apuSample.stepIndex 4 ≤ 3 ∧
    apuSample.Execute 7457 =
      { Apu.ExecuteEnvelope
          (if apuSample.stepIndex 4 = 1 ∨ apuSample.stepIndex 4 = 3
            then Apu.ExecuteLengthAndSweep (apuSample.atStep 7457 (apuSample.stepIndex 4))
            else apuSample.atStep 7457 (apuSample.stepIndex 4))
        with m_frameSequencer := apuSample.stepIndex 4 + 1 } :=
  (frame_sequencer_schedule apuSample 7457 (by decide) (by decide)).1 rfl

/-! ## Cycle counter -/

namespace Apu

theorem ExecuteMode0_cycle (b : Apu) : (ExecuteMode0 b).m_cycleCounter = b.m_cycleCounter := by
  rw [ExecuteMode0_eq, (ExecuteEnvelope_frame _).2.1]
  split
  · rw [(ExecuteLengthAndSweep_frame _).2.1]; rfl
  · rfl

theorem ExecuteMode1_cycle (b : Apu) : (ExecuteMode1 b).m_cycleCounter = b.m_cycleCounter := by
  rw [ExecuteMode1_eq]
  split
  · rw [(ExecuteEnvelope_frame _).2.1]
    split
    · rw [(ExecuteLengthAndSweep_frame _).2.1]; rfl
    · rfl
  · split
    · rw [(ExecuteLengthAndSweep_frame _).2.1]; rfl
    · rfl

theorem atStep_cycle (a : Apu) (n : Nat) (s : Int) :
    (a.atStep n s).m_cycleCounter =
      (a.m_cycleCounter + n % 4294967296) % 4294967296 - 7457 := by
  unfold atStep
  rfl

theorem Execute_cycleCounter (a : Apu) (n : Nat) :
    (a.Execute n).m_cycleCounter =
      if (a.m_cycleCounter + n % 4294967296) % 4294967296 < 7457
        then (a.m_cycleCounter + n % 4294967296) % 4294967296
        else (a.m_cycleCounter + n % 4294967296) % 4294967296 - 7457 := by
  by_cases hlt : (a.m_cycleCounter + n % 4294967296) % 4294967296 < 7457
  · rw [if_pos hlt, Execute_no_step a n hlt]
  · rw [if_neg hlt, Execute_step a n hlt]
    show (if a.m_frameSequencerMode = 0 then ExecuteMode0 (a.atStep n a.m_frameSequencer)
          else if a.m_frameSequencerMode = 1 then ExecuteMode1 (a.atStep n a.m_frameSequencer)
          else a.atStep n a.m_frameSequencer).m_cycleCounter = _
    split
    · rw [ExecuteMode0_cycle, atStep_cycle]
    · split
      · rw [ExecuteMode1_cycle, atStep_cycle]
      · rw [atStep_cycle]

theorem ExecuteMode0_mode (b : Apu) :
    (ExecuteMode0 b).m_frameSequencerMode = b.m_frameSequencerMode := by
  rw [ExecuteMode0_eq, (ExecuteEnvelope_frame _).2.2]
  split
  · rw [(ExecuteLengthAndSweep_frame _).2.2]; rfl
  · rfl

theorem ExecuteMode1_mode (b : Apu) :
    (ExecuteMode1 b).m_frameSequencerMode = b.m_frameSequencerMode := by
  rw [ExecuteMode1_eq]
  split
  · rw [(ExecuteEnvelope_frame _).2.2]
    split
    · rw [(ExecuteLengthAndSweep_frame _).2.2]; rfl
    · rfl
  · split
    · rw [(ExecuteLengthAndSweep_frame _).2.2]; rfl
    · rfl

theorem atStep_mode (a : Apu) (n : Nat) (s : Int) :
    (a.atStep n s).m_frameSequencerMode = a.m_frameSequencerMode := by
  unfold atStep
  rfl

/-- `Execute` never changes the frame-sequencer mode. -/
theorem Execute_mode (a : Apu) (n : Nat) :
    (a.Execute n).m_frameSequencerMode = a.m_frameSequencerMode := by
  by_cases hlt : (a.m_cycleCounter + n % 4294967296) % 4294967296 < 7457
  · rw [Execute_no_step a n hlt]
  · rw [Execute_step a n hlt]
    show (if a.m_frameSequencerMode = 0 then ExecuteMode0 (a.atStep n a.m_frameSequencer)
          else if a.m_frameSequencerMode = 1 then ExecuteMode1 (a.atStep n a.m_frameSequencer)
          else a.atStep n a.m_frameSequencer).m_frameSequencerMode = _
    split
    · rw [ExecuteMode0_mode, atStep_mode]
    · split
      · rw [ExecuteMode1_mode, atStep_mode]
      · rw [atStep_mode]

/-- What `Execute` does to `m_frameSequencer`: nothing on the early return, one
step otherwise. -/
theorem Execute_frameSequencer (a : Apu) (n : Nat) :
    (a.Execute n).m_frameSequencer =
      if (a.m_cycleCounter + n % 4294967296) % 4294967296 < 7457 then a.m_frameSequencer
      else nextStep a.m_frameSequencerMode a.m_frameSequencer := by
  by_cases hlt : (a.m_cycleCounter + n % 4294967296) % 4294967296 < 7457
  · rw [if_pos hlt, Execute_no_step a n hlt]
  · rw [if_neg hlt, Execute_step a n hlt]
    show (if a.m_frameSequencerMode = 0 then ExecuteMode0 (a.atStep n a.m_frameSequencer)
          else if a.m_frameSequencerMode = 1 then ExecuteMode1 (a.atStep n a.m_frameSequencer)
          else a.atStep n a.m_frameSequencer).m_frameSequencer + 1 = _
    unfold nextStep
    split
    · rw [ExecuteMode0_eq, atStep_stepIndex, atStep_withStep, ite_clock_seq, atStep_seq]
      rfl
    · split
      · rw [ExecuteMode1_eq, atStep_stepIndex, atStep_withStep, ite_clock_seq', atStep_seq]
        rfl
      · rw [atStep_seq]

theorem nextStep_ne (mode : Nat) (s : Int) : nextStep mode s ≠ s := by
  unfold nextStep
  split_ifs <;> omega

/-- A call of `Execute` leaves `m_frameSequencer` as it was exactly when it
takes the early return. -/
theorem Execute_frameSequencer_eq_iff (a : Apu) (n : Nat) :
    (a.Execute n).m_frameSequencer = a.m_frameSequencer ↔
      (a.m_cycleCounter + n % 4294967296) % 4294967296 < 7457 := by
  rw [Execute_frameSequencer]
  split
  · exact ⟨fun _ => by assumption, fun _ => rfl⟩
  · exact ⟨fun h => absurd h (nextStep_ne _ _), fun h => by contradiction⟩

/-- From a cycle counter below 7457, calls of at most 7457 cycles each leave the
counter at the total modulo 7457, perform the quotient many steps and advance
`m_frameSequencer` once for each step. -/
theorem executeAll_counter (cs : List Nat) :
    ∀ a : Apu, a.m_cycleCounter < 7457 → (∀ n ∈ cs, n ≤ 7457) →
      (executeAll cs a).1.m_cycleCounter = (a.m_cycleCounter + cs.sum) % 7457 ∧
      (executeAll cs a).2 = (a.m_cycleCounter + cs.sum) / 7457 ∧
      (executeAll cs a).1.m_frameSequencer =
        (nextStep a.m_frameSequencerMode)^[(executeAll cs a).2] a.m_frameSequencer := by
  induction cs with
  | nil =>
      intro a ha _
      simp only [executeAll, List.sum_nil, Nat.add_zero]
      refine ⟨?_, ?_, rfl⟩ <;> omega
  | cons n ns ih =>
      intro a ha hcs
      have hn : n ≤ 7457 := hcs n (List.mem_cons_self _ _)
      have hc : (a.m_cycleCounter + n % 4294967296) % 4294967296 = a.m_cycleCounter + n := by
        omega
      have hE := Execute_cycleCounter a n
      have hF := Execute_frameSequencer a n
      have hI := Execute_frameSequencer_eq_iff a n
      rw [hc] at hE hF hI
      have hlt : (a.Execute n).m_cycleCounter < 7457 := by
        rw [hE]; split <;> omega
      obtain ⟨ih1, ih2, ih3⟩ :=
        ih (a.Execute n) hlt (fun m hm => hcs m (List.mem_cons_of_mem _ hm))
      have h1 : (executeAll (n :: ns) a).1 = (executeAll ns (a.Execute n)).1 := rfl
      have h2 : (executeAll (n :: ns) a).2 =
          (if (a.Execute n).m_frameSequencer = a.m_frameSequencer then 0 else 1) +
            (executeAll ns (a.Execute n)).2 := rfl
      rw [Execute_mode] at ih3
      rw [h1, h2, ih1, ih3, ih2, hE, List.sum_cons]
      by_cases hs : a.m_cycleCounter + n < 7457
      · rw [if_pos (hI.2 hs), if_pos hs, hF, if_pos hs, Nat.zero_add]
        refine ⟨?_, ?_, rfl⟩ <;> omega
      · rw [if_neg (fun h => hs (hI.1 h)), if_neg hs, hF, if_neg hs, Nat.add_comm 1,
          Function.iterate_succ_apply]
        refine ⟨?_, ?_, rfl⟩ <;> omega

end Apu

/-- C19: starting from `Apu::Reset`, for every sequence of `Execute` calls of at
most 7457 cycles each, the cycle counter is below 7457 after every call, the
number of frame-sequencer steps performed (the calls that advance
`m_frameSequencer`) is `floor(T / 7457)` and the cycle counter ends at
`T mod 7457`, with `T` the total number of cycles; `m_frameSequencer` ends at
the value reached from 0 by that many steps.  A call advances
`m_frameSequencer` exactly when it goes past the early return. -/
theorem cycle_counter_steps (a0 : Apu) (cs : List Nat) (hcs : ∀ n ∈ cs, n ≤ 7457) :
    (∀ k : Nat, (Apu.executeAll (cs.take k) a0.Reset).1.m_cycleCounter < 7457) ∧
    (Apu.executeAll cs a0.Reset).2 = cs.sum / 7457 ∧
    (Apu.executeAll cs a0.Reset).1.m_cycleCounter = cs.sum % 7457 ∧
    (Apu.executeAll cs a0.Reset).1.m_frameSequencer =
      (Apu.nextStep a0.m_frameSequencerMode)^[cs.sum / 7457] 0 ∧
    (∀ (a : Apu) (n : Nat),
      (a.Execute n).m_frameSequencer ≠ a.m_frameSequencer ↔
        7457 ≤ (a.m_cycleCounter + n % 4294967296) % 4294967296) := by
  have h0 : a0.Reset.m_cycleCounter = 0 := rfl
  have hs0 : a0.Reset.m_frameSequencer = 0 := rfl
  have hm0 : a0.Reset.m_frameSequencerMode = a0.m_frameSequencerMode := rfl
  have hall := Apu.executeAll_counter cs a0.Reset (by rw [h0]; decide) hcs
  rw [h0, Nat.zero_add, hs0, hm0] at hall
  refine ⟨?_, hall.2.1, hall.1, ?_, ?_⟩
  · intro k
    have h := (Apu.executeAll_counter (cs.take k) a0.Reset (by rw [h0]; decide)
      (fun n hn => hcs n (List.mem_of_mem_take hn))).1
    rw [h]
    exact Nat.mod_lt _ (by decide)
  · rw [hall.2.2, hall.2.1]
  · intro a n
    rw [Ne, Apu.Execute_frameSequencer_eq_iff]
    omega

/-- C19 at a concrete run: calls of 7457, 3000, 7000 and 5000 cycles (22457 in
total) on a reset APU in mode 0 perform 3 steps, leave the counter at 86 and
`m_frameSequencer` at 3. -/
theorem cycle_counter_steps_witness :
    (Apu.executeAll [7457, 3000, 7000, 5000] apuSample.Reset).2 = 3 ∧
    (Apu.executeAll [7457, 3000, 7000, 5000] apuSample.Reset).1.m_cycleCounter = 86 ∧
    (Apu.executeAll [7457, 3000, 7000, 5000] apuSample.Reset).1.m_frameSequencer = 3 :=
  ⟨(cycle_counter_steps apuSample [7457, 3000, 7000, 5000] (by decide)).2.1,
   (cycle_counter_steps apuSample [7457, 3000, 7000, 5000] (by decide)).2.2.1,
   (cycle_counter_steps apuSample [7457, 3000, 7000, 5000] (by decide)).2.2.2.1⟩

/-! ## FillSoundBuffer: triangle channel -/

namespace Apu

theorem setPulse_triangle (a : Apu) (p : Nat) (d : PulseData) :
    (a.setPulse p d).m_triangleEnabled = a.m_triangleEnabled ∧
    (a.setPulse p d).m_triangleLength = a.m_triangleLength ∧
    (a.setPulse p d).m_triangleCounter = a.m_triangleCounter ∧
    (a.setPulse p d).m_triangleTimer = a.m_triangleTimer ∧
    (a.setPulse p d).m_triangleSequencer = a.m_triangleSequencer ∧
    (a.setPulse p d).m_triangleWaveForm = a.m_triangleWaveForm := by
  unfold setPulse
  split <;> exact ⟨rfl, rfl, rfl, rfl, rfl, rfl⟩

/-- The pulse blocks do not touch the triangle members. -/
theorem mixPulse_triangle (p : Nat) (s : Apu × List Int) :
    (mixPulse p s).1.m_triangleEnabled = s.1.m_triangleEnabled ∧
    (mixPulse p s).1.m_triangleLength = s.1.m_triangleLength ∧
    (mixPulse p s).1.m_triangleCounter = s.1.m_triangleCounter ∧
    (mixPulse p s).1.m_triangleTimer = s.1.m_triangleTimer ∧
    (mixPulse p s).1.m_triangleSequencer = s.1.m_triangleSequencer ∧
    (mixPulse p s).1.m_triangleWaveForm = s.1.m_triangleWaveForm := by
  unfold mixPulse
  simp only
  split_ifs <;> first | exact ⟨rfl, rfl, rfl, rfl, rfl, rfl⟩ | exact setPulse_triangle _ _ _

theorem mixNoise_triangleSequencer (s : Apu × List Int) :
    (mixNoise s).1.m_triangleSequencer = s.1.m_triangleSequencer := by
  unfold mixNoise
  simp only
  split <;> rfl

/-- The triangle block when the channel is not running: the state is unchanged
and the waveform entry at the current phase is added to every sample. -/
theorem mixTriangle_frozen (s : Apu × List Int)
    (h : s.1.m_triangleEnabled = 0 ∨ s.1.m_triangleLength = 0 ∨ s.1.m_triangleCounter = 0 ∨
      s.1.m_triangleTimer ≤ 1) :
    mixTriangle s =
      (s.1, s.2.map (fun x => toInt16 (x +
        s.1.m_triangleWaveForm (((s.1.m_triangleSequencer >>> 14) &&& 31) % 256)))) := by
  unfold mixTriangle
  simp only
  rw [if_neg]
  intro hc
  rcases h with h | h | h | h
  · exact hc.1 h
  · exact hc.2.1 h
  · exact hc.2.2.1 h
  · exact absurd hc.2.2.2 (by omega)

end Apu

/-- C20: in `FillSoundBuffer`, when the triangle channel is disabled, or its
length counter is 0, or its linear counter is 0, or its timer is at most 1, the
phase accumulator `m_triangleSequencer` is unchanged and the triangle adds the
same value, the waveform entry at the current phase, to every sample; so the
phase advances only when the channel is enabled with linear counter, length
counter and timer above these bounds. -/
theorem triangle_frozen_unless_running (a : Apu) (len : Nat)
    (h : a.m_triangleEnabled = 0 ∨ a.m_triangleLength = 0 ∨ a.m_triangleCounter = 0 ∨
      a.m_triangleTimer ≤ 1) :
    (∀ buf : List Int, Apu.mixTriangle (a, buf) =
      (a, buf.map (fun x => toInt16 (x +
        a.m_triangleWaveForm (((a.m_triangleSequencer >>> 14) &&& 31) % 256))))) ∧
    (Apu.FillSoundBuffer a len).1.m_triangleSequencer = a.m_triangleSequencer ∧
    Apu.FillSoundBuffer a len =
      Apu.mixNoise
        ((Apu.mixPulse 1 (Apu.mixPulse 0 (a, List.replicate len 0))).1,
         (Apu.mixPulse 1 (Apu.mixPulse 0 (a, List.replicate len 0))).2.map
           (fun x => toInt16 (x +
             a.m_triangleWaveForm (((a.m_triangleSequencer >>> 14) &&& 31) % 256)))) := by
  have t0 := Apu.mixPulse_triangle 0 (a, List.replicate len 0)
  have t1 := Apu.mixPulse_triangle 1 (Apu.mixPulse 0 (a, List.replicate len 0))
  have hE : (Apu.mixPulse 1 (Apu.mixPulse 0 (a, List.replicate len 0))).1.m_triangleEnabled =
      a.m_triangleEnabled := t1.1.trans t0.1
  have hL : (Apu.mixPulse 1 (Apu.mixPulse 0 (a, List.replicate len 0))).1.m_triangleLength =
      a.m_triangleLength := t1.2.1.trans t0.2.1
  have hC : (Apu.mixPulse 1 (Apu.mixPulse 0 (a, List.replicate len 0))).1.m_triangleCounter =
      a.m_triangleCounter := t1.2.2.1.trans t0.2.2.1
  have hT : (Apu.mixPulse 1 (Apu.mixPulse 0 (a, List.replicate len 0))).1.m_triangleTimer =
      a.m_triangleTimer := t1.2.2.2.1.trans t0.2.2.2.1
  have hS : (Apu.mixPulse 1 (Apu.mixPulse 0 (a, List.replicate len 0))).1.m_triangleSequencer =
      a.m_triangleSequencer := t1.2.2.2.2.1.trans t0.2.2.2.2.1
  have hW : (Apu.mixPulse 1 (Apu.mixPulse 0 (a, List.replicate len 0))).1.m_triangleWaveForm =
      a.m_triangleWaveForm := t1.2.2.2.2.2.trans t0.2.2.2.2.2
  have hfill : Apu.FillSoundBuffer a len =
      Apu.mixNoise
        ((Apu.mixPulse 1 (Apu.mixPulse 0 (a, List.replicate len 0))).1,
         (Apu.mixPulse 1 (Apu.mixPulse 0 (a, List.replicate len 0))).2.map
           (fun x => toInt16 (x +
             a.m_triangleWaveForm (((a.m_triangleSequencer >>> 14) &&& 31) % 256)))) := by
    unfold Apu.FillSoundBuffer
    simp only
    rw [Apu.mixTriangle_frozen _ (by rw [hE, hL, hC, hT]; exact h), hS, hW]
  refine ⟨fun buf => Apu.mixTriangle_frozen (a, buf) h, ?_, hfill⟩
  rw [hfill, Apu.mixNoise_triangleSequencer]
  exact hS

/-- C20 at a concrete state: the triangle channel is disabled, the table entry
at phase 0 is 175 and four samples are produced. -/
theorem triangle_frozen_unless_running_witness :
    Apu.mixTriangle (apuMutedPulse, [0, 0, 0, 0]) = (apuMutedPulse, [175, 175, 175, 175]) ∧
    (Apu.FillSoundBuffer apuMutedPulse 4).1.m_triangleSequencer = 0 :=
  ⟨(triangle_frozen_unless_running apuMutedPulse 4 (Or.inl rfl)).1 [0, 0, 0, 0],
   (triangle_frozen_unless_running apuMutedPulse 4 (Or.inl rfl)).2.1⟩

/-! ## Noise waveform -/

namespace Apu

theorem noiseLoop_succ (n : Nat) (t : Nat → Int) :
    noiseLoop (n + 1) t =
      (noiseFeedback (noiseLoop n t).1,
        store (noiseLoop n t).2 n
          (toInt16 ((((noiseLoop n t).1 &&& 1 : Nat) : Int) * 60 * 2 - 60))) := by
  unfold noiseLoop
  rw [List.range_succ, List.foldl_append]
  rfl

theorem lor_ne_zero_left (x y : Nat) (h : x ≠ 0) : x ||| y ≠ 0 := by
  obtain ⟨i, hi⟩ := Nat.ne_zero_implies_bit_true h
  intro h0
  have hb := Nat.testBit_or x y i
  rw [h0, hi] at hb
  simp at hb

theorem noiseFeedback_bit_lt (s : Nat) : (s &&& 1) ^^^ ((s &&& 2) >>> 1) < 2 := by
  have h1 : s &&& 1 < 2 ^ 1 := Nat.and_lt_two_pow s (by decide)
  have h2 : s &&& 2 < 2 ^ 2 := Nat.and_lt_two_pow s (by decide)
  have h3 : (s &&& 2) >>> 1 < 2 ^ 1 := by
    rw [Nat.shiftRight_eq_div_pow]
    omega
  exact Nat.xor_lt_two_pow h1 h3

theorem noiseFeedback_lt (s : Nat) (hs : s < 2 ^ 15) : noiseFeedback s < 2 ^ 15 := by
  unfold noiseFeedback
  apply Nat.or_lt_two_pow
  · rw [Nat.shiftRight_eq_div_pow]
    omega
  · have hb := noiseFeedback_bit_lt s
    rw [Nat.shiftLeft_eq]
    omega

theorem noiseFeedback_pos (s : Nat) (hs : 0 < s) : 0 < noiseFeedback s := by
  by_cases h1 : s = 1
  · subst h1
    decide
  · apply Nat.pos_of_ne_zero
    unfold noiseFeedback
    apply lor_ne_zero_left
    rw [Nat.shiftRight_eq_div_pow]
    omega

end Apu

/-- C22: the LFSR state of the noise loop of `GenerateWaveForm` starts at 1;
the update `(state >> 1) | ((bit0 XOR bit1) << 14)` maps every non-zero state
below `2^15` to a non-zero state below `2^15`; each iteration applies this
update; hence after any number of iterations (the 32768 of the loop among
them) the state is non-zero and below `2^15`. -/
theorem lfsr_state_stays_nonzero (t : Nat → Int) :
    (Apu.noiseLoop 0 t).1 = 1 ∧
    (∀ s, 0 < s → s < 2 ^ 15 →
      0 < Apu.noiseFeedback s ∧ Apu.noiseFeedback s < 2 ^ 15) ∧
    (∀ n, (Apu.noiseLoop (n + 1) t).1 = Apu.noiseFeedback (Apu.noiseLoop n t).1) ∧
    (∀ n, 0 < (Apu.noiseLoop n t).1 ∧ (Apu.noiseLoop n t).1 < 2 ^ 15) := by
  refine ⟨rfl, fun s h0 h1 => ⟨Apu.noiseFeedback_pos s h0, Apu.noiseFeedback_lt s h1⟩, ?_, ?_⟩
  · intro n
    rw [Apu.noiseLoop_succ]
  · intro n
    induction n with
    | zero => exact ⟨Nat.one_pos, (by decide : (1 : Nat) < 2 ^ 15)⟩
    | succ n ih =>
        rw [Apu.noiseLoop_succ]
        exact ⟨Apu.noiseFeedback_pos _ ih.1, Apu.noiseFeedback_lt _ ih.2⟩

namespace Apu

theorem LengthAndSweepPulse_eq (p : Nat) (d : PulseData) :
    LengthAndSweepPulse p d =
      sweepTimerStep (sweepDividerStep (lengthStep d)).2.1
        (sweepTargetStep p (sweepDividerStep (lengthStep d)).1
          (sweepDividerStep (lengthStep d)).2.2) := by
  unfold LengthAndSweepPulse sweepTimerStep sweepTargetStep sweepingValue
  rfl

theorem lengthStep_keeps (d : PulseData) :
    (lengthStep d).m_pulseSweepReload = d.m_pulseSweepReload ∧
    (lengthStep d).m_pulseSweepDivider = d.m_pulseSweepDivider ∧
    (lengthStep d).m_pulseSweepEnabled = d.m_pulseSweepEnabled ∧
    (lengthStep d).m_pulseTimer = d.m_pulseTimer ∧
    (lengthStep d).m_pulseSweepShift = d.m_pulseSweepShift ∧
    (lengthStep d).m_pulseSweepNeg = d.m_pulseSweepNeg ∧
    (lengthStep d).m_pulseSweepTargetPeriod = d.m_pulseSweepTargetPeriod := by
  unfold lengthStep
  split_ifs <;> exact ⟨rfl, rfl, rfl, rfl, rfl, rfl, rfl⟩

theorem sweepDividerStep_keeps (d : PulseData) :
    (sweepDividerStep d).2.2.m_pulseSweepEnabled = d.m_pulseSweepEnabled ∧
    (sweepDividerStep d).2.2.m_pulseTimer = d.m_pulseTimer ∧
    (sweepDividerStep d).2.2.m_pulseSweepShift = d.m_pulseSweepShift ∧
    (sweepDividerStep d).2.2.m_pulseSweepNeg = d.m_pulseSweepNeg ∧
    (sweepDividerStep d).2.2.m_pulseSweepTargetPeriod = d.m_pulseSweepTargetPeriod ∧
    (sweepDividerStep d).2.2.m_pulseLength = d.m_pulseLength := by
  unfold sweepDividerStep
  split_ifs <;> exact ⟨rfl, rfl, rfl, rfl, rfl, rfl⟩

theorem sweepDividerStep_reload (d : PulseData)
    (h : d.m_pulseSweepReload = true ∨ d.m_pulseSweepDivider = 0) :
    (sweepDividerStep d).1 = true := by
  unfold sweepDividerStep
  split_ifs with h1 h2
  · rfl
  · rcases h with h | h
    · exact absurd h h1
    · exact absurd h h2
  · rfl

theorem sweepTargetStep_keeps (p : Nat) (r : Bool) (d : PulseData) :
    (sweepTargetStep p r d).m_pulseSweepEnabled = d.m_pulseSweepEnabled ∧
    (sweepTargetStep p r d).m_pulseTimer = d.m_pulseTimer ∧
    (sweepTargetStep p r d).m_pulseSweepShift = d.m_pulseSweepShift ∧
    (sweepTargetStep p r d).m_pulseLength = d.m_pulseLength := by
  unfold sweepTargetStep
  split_ifs <;> exact ⟨rfl, rfl, rfl, rfl⟩

theorem sweepTargetStep_target (p : Nat) (d : PulseData) (hen : d.m_pulseSweepEnabled ≠ 0) :
    (sweepTargetStep p true d).m_pulseSweepTargetPeriod =
      (((d.m_pulseTimer : Int) + sweepingValue p d) % 65536).toNat := by
  unfold sweepTargetStep
  rw [if_pos ⟨rfl, hen⟩]

theorem sweepTimerStep_keeps (f : Bool) (d : PulseData) :
    (sweepTimerStep f d).m_pulseSweepTargetPeriod = d.m_pulseSweepTargetPeriod ∧
    (sweepTimerStep f d).m_pulseLength = d.m_pulseLength := by
  unfold sweepTimerStep
  split_ifs <;> exact ⟨rfl, rfl⟩

theorem sweepTimerStep_timer (f : Bool) (d : PulseData) :
    ((sweepTimerStep f d).m_pulseTimer ≠ d.m_pulseTimer →
      8 ≤ d.m_pulseTimer ∧ (sweepTimerStep f d).m_pulseTimer = d.m_pulseSweepTargetPeriod ∧
      d.m_pulseSweepTargetPeriod ≤ 0x7FF) ∧
    (d.m_pulseTimer < 8 ∨ d.m_pulseSweepTargetPeriod > 0x7FF →
      (sweepTimerStep f d).m_pulseTimer = d.m_pulseTimer) := by
  unfold sweepTimerStep
  split_ifs with h1 h2
  · exact ⟨fun h => absurd rfl h, fun _ => rfl⟩
  · refine ⟨fun _ => ⟨?_, rfl, ?_⟩, fun h => absurd h h2⟩
    · show 8 ≤ d.m_pulseTimer
      omega
    · omega
  · exact ⟨fun h => absurd rfl h, fun _ => rfl⟩

theorem sweepingValue_congr (p : Nat) (d e : PulseData)
    (h1 : e.m_pulseTimer = d.m_pulseTimer) (h2 : e.m_pulseSweepShift = d.m_pulseSweepShift)
    (h3 : e.m_pulseSweepNeg = d.m_pulseSweepNeg) :
    sweepingValue p e = sweepingValue p d := by
  unfold sweepingValue
  rw [h1, h2, h3]

theorem toInt16_emod (x : Int) : toInt16 x % 65536 = x % 65536 := by
  unfold toInt16
  omega

theorem sweepingValue_emod (p : Nat) (d : PulseData) :
    sweepingValue p d % 65536 =
      (if d.m_pulseSweepNeg ≠ 0 then
        -((d.m_pulseTimer >>> d.m_pulseSweepShift : Nat) : Int) - (if p = 0 then 1 else 0)
       else ((d.m_pulseTimer >>> d.m_pulseSweepShift : Nat) : Int)) % 65536 := by
  unfold sweepingValue toInt16
  split_ifs <;> omega

theorem LengthAndSweepPulse_target (p : Nat) (d : PulseData)
    (hre : d.m_pulseSweepReload = true ∨ d.m_pulseSweepDivider = 0)
    (hen : d.m_pulseSweepEnabled ≠ 0) :
    (LengthAndSweepPulse p d).m_pulseSweepTargetPeriod =
      (((d.m_pulseTimer : Int) + sweepingValue p d) % 65536).toNat := by
  have hL := lengthStep_keeps d
  have hD := sweepDividerStep_keeps (lengthStep d)
  have hre1 : (lengthStep d).m_pulseSweepReload = true ∨
      (lengthStep d).m_pulseSweepDivider = 0 := by
    rw [hL.1, hL.2.1]
    exact hre
  have hen1 : (sweepDividerStep (lengthStep d)).2.2.m_pulseSweepEnabled ≠ 0 := by
    rw [hD.1, hL.2.2.1]
    exact hen
  rw [LengthAndSweepPulse_eq, (sweepTimerStep_keeps _ _).1, sweepDividerStep_reload _ hre1,
    sweepTargetStep_target _ _ hen1, hD.2.1, hL.2.2.2.1]
  rw [sweepingValue_congr p d (sweepDividerStep (lengthStep d)).2.2
    (by rw [hD.2.1, hL.2.2.2.1]) (by rw [hD.2.2.1, hL.2.2.2.2.1])
    (by rw [hD.2.2.2.1, hL.2.2.2.2.2.1])]

theorem LengthAndSweepPulse_timer (p : Nat) (d : PulseData) :
    ((LengthAndSweepPulse p d).m_pulseTimer ≠ d.m_pulseTimer →
      8 ≤ d.m_pulseTimer ∧
      (LengthAndSweepPulse p d).m_pulseTimer =
        (LengthAndSweepPulse p d).m_pulseSweepTargetPeriod ∧
      (LengthAndSweepPulse p d).m_pulseTimer ≤ 0x7FF) ∧
    (d.m_pulseTimer < 8 ∨ (LengthAndSweepPulse p d).m_pulseSweepTargetPeriod > 0x7FF →
      (LengthAndSweepPulse p d).m_pulseTimer = d.m_pulseTimer) := by
  have hL := lengthStep_keeps d
  have hD := sweepDividerStep_keeps (lengthStep d)
  have hT := sweepTargetStep_keeps p (sweepDividerStep (lengthStep d)).1
    (sweepDividerStep (lengthStep d)).2.2
  have htimer : (sweepTargetStep p (sweepDividerStep (lengthStep d)).1
      (sweepDividerStep (lengthStep d)).2.2).m_pulseTimer = d.m_pulseTimer := by
    rw [hT.2.1, hD.2.1, hL.2.2.2.1]
  have hS := sweepTimerStep_timer (sweepDividerStep (lengthStep d)).2.1
    (sweepTargetStep p (sweepDividerStep (lengthStep d)).1
      (sweepDividerStep (lengthStep d)).2.2)
  rw [htimer] at hS
  rw [LengthAndSweepPulse_eq, (sweepTimerStep_keeps _ _).1]
  refine ⟨fun h => ?_, hS.2⟩
  obtain ⟨h1, h2, h3⟩ := hS.1 h
  exact ⟨h1, h2, by rw [h2]; exact h3⟩

theorem LengthAndSweepPulse_length (p : Nat) (d : PulseData) :
    (LengthAndSweepPulse p d).m_pulseLength =
      if d.m_pulseEnabled ≠ 0 ∧ d.m_pulseLength ≠ 0 ∧ d.m_pulseHaltLoop = 0 then
        (d.m_pulseLength + 255) % 256
      else d.m_pulseLength := by
  rw [LengthAndSweepPulse_eq, (sweepTimerStep_keeps _ _).2, (sweepTargetStep_keeps _ _ _).2.2.2,
    (sweepDividerStep_keeps _).2.2.2.2.2]
  unfold lengthStep
  split_ifs <;> rfl

theorem ExecuteLengthAndSweep_triangleLength (a : Apu) :
    (ExecuteLengthAndSweep a).m_triangleLength =
      if a.m_triangleEnabled ≠ 0 ∧ a.m_triangleLength ≠ 0 ∧ a.m_triangleControlFlag = 0 then
        (a.m_triangleLength + 255) % 256
      else a.m_triangleLength := by
  unfold ExecuteLengthAndSweep
  simp only
  split_ifs <;> rfl

theorem ExecuteLengthAndSweep_noiseLength (a : Apu) :
    (ExecuteLengthAndSweep a).m_noiseLength =
      if a.m_noiseEnabled ≠ 0 ∧ a.m_noiseLength ≠ 0 ∧ a.m_noiseHaltFlag = 0 then
        (a.m_noiseLength + 255) % 256
      else a.m_noiseLength := by
  unfold ExecuteLengthAndSweep
  simp only
  split_ifs <;> rfl

theorem ExecuteLengthAndSweep_pulses0 (a : Apu) :
    (ExecuteLengthAndSweep a).m_pulses0 = LengthAndSweepPulse 0 a.m_pulses0 := by
  unfold ExecuteLengthAndSweep
  simp only
  split_ifs <;> rfl

theorem ExecuteLengthAndSweep_pulses1 (a : Apu) :
    (ExecuteLengthAndSweep a).m_pulses1 = LengthAndSweepPulse 1 a.m_pulses1 := by
  unfold ExecuteLengthAndSweep
  simp only
  split_ifs <;> rfl

theorem ExecuteLengthAndSweep_pulse (a : Apu) (p : Nat) (hp : p < 2) :
    (ExecuteLengthAndSweep a).pulse p = LengthAndSweepPulse p (a.pulse p) := by
  unfold pulse
  by_cases h0 : p = 0
  · subst h0
    rw [if_pos rfl, if_pos rfl, ExecuteLengthAndSweep_pulses0]
  · have h1 : p = 1 := by omega
    subst h1
    rw [if_neg (by decide), if_neg (by decide), ExecuteLengthAndSweep_pulses1]

theorem length_zero_stays (a : Apu) (n : Nat) :
    (a.m_pulses0.m_pulseLength = 0 →
      (ExecuteLengthAndSweep^[n] a).m_pulses0.m_pulseLength = 0) ∧
    (a.m_pulses1.m_pulseLength = 0 →
      (ExecuteLengthAndSweep^[n] a).m_pulses1.m_pulseLength = 0) ∧
    (a.m_triangleLength = 0 → (ExecuteLengthAndSweep^[n] a).m_triangleLength = 0) ∧
    (a.m_noiseLength = 0 → (ExecuteLengthAndSweep^[n] a).m_noiseLength = 0) := by
  induction n with
  | zero => exact ⟨id, id, id, id⟩
  | succ n ih =>
      rw [Function.iterate_succ_apply']
      refine ⟨fun h => ?_, fun h => ?_, fun h => ?_, fun h => ?_⟩
      · rw [ExecuteLengthAndSweep_pulses0, LengthAndSweepPulse_length, ih.1 h]
        simp
      · rw [ExecuteLengthAndSweep_pulses1, LengthAndSweepPulse_length, ih.2.1 h]
        simp
      · rw [ExecuteLengthAndSweep_triangleLength, ih.2.2.1 h]
        simp
      · rw [ExecuteLengthAndSweep_noiseLength, ih.2.2.2 h]
        simp

end Apu

/-- C23: when a length/sweep clock recomputes the sweep target of pulse
channel `p` (the reload flag is set or the divider is 0) and the sweep is
enabled, the stored target is `timer + (timer >> shift)` modulo `2^16` when the
negate flag is clear, and `timer - (timer >> shift) - (1 if p = 0 else 0)`
modulo `2^16` when it is set, `timer` being the timer before the clock. -/
theorem sweep_target_formula (a : Apu) (p : Nat) (hp : p < 2)
    (hre : (a.pulse p).m_pulseSweepReload = true ∨ (a.pulse p).m_pulseSweepDivider = 0)
    (hen : (a.pulse p).m_pulseSweepEnabled ≠ 0) :
    ((a.pulse p).m_pulseSweepNeg = 0 →
      ((Apu.ExecuteLengthAndSweep a).pulse p).m_pulseSweepTargetPeriod =
        ((a.pulse p).m_pulseTimer +
          ((a.pulse p).m_pulseTimer >>> (a.pulse p).m_pulseSweepShift)) % 65536) ∧
    ((a.pulse p).m_pulseSweepNeg ≠ 0 →
      (((Apu.ExecuteLengthAndSweep a).pulse p).m_pulseSweepTargetPeriod : Int) =
        (((a.pulse p).m_pulseTimer : Int) -
          (((a.pulse p).m_pulseTimer >>> (a.pulse p).m_pulseSweepShift : Nat) : Int) -
          (if p = 0 then 1 else 0)) % 65536) := by
  rw [Apu.ExecuteLengthAndSweep_pulse a p hp, Apu.LengthAndSweepPulse_target p _ hre hen]
  have hs := Apu.sweepingValue_emod p (a.pulse p)
  generalize Apu.sweepingValue p (a.pulse p) = sv at hs
  generalize (a.pulse p).m_pulseTimer >>> (a.pulse p).m_pulseSweepShift = sh at hs
  generalize (a.pulse p).m_pulseTimer = t
  constructor
  · intro hneg
    rw [if_neg (by simp [hneg])] at hs
    omega
  · intro hneg
    rw [if_pos hneg] at hs
    split_ifs at hs ⊢ <;> omega

theorem sweep_target_formula_witness :
    (((Apu.ExecuteLengthAndSweep apuSweep).pulse 0).m_pulseSweepTargetPeriod : Int) =
      (((apuSweep.pulse 0).m_pulseTimer : Int) -
        (((apuSweep.pulse 0).m_pulseTimer >>> (apuSweep.pulse 0).m_pulseSweepShift : Nat) : Int) -
        (if (0 : Nat) = 0 then 1 else 0)) % 65536 ∧
    ((Apu.ExecuteLengthAndSweep apuSweep).pulse 0).m_pulseSweepTargetPeriod = 191 :=
  ⟨(sweep_target_formula apuSweep 0 (by decide) (Or.inl rfl) (by decide)).2 (by decide),
   by decide⟩

/-- C24: when a length/sweep clock changes the timer of pulse channel `p`, the
timer before the clock was at least 8 and the timer after the clock equals the
target period stored after the clock, which is at most `0x7FF`; when the timer
is below 8 or that target is above `0x7FF` the timer is unchanged, whatever the
divider and the reload flag. -/
theorem sweep_timer_update (a : Apu) (p : Nat) (hp : p < 2) :
    (((Apu.ExecuteLengthAndSweep a).pulse p).m_pulseTimer ≠ (a.pulse p).m_pulseTimer →
      8 ≤ (a.pulse p).m_pulseTimer ∧
      ((Apu.ExecuteLengthAndSweep a).pulse p).m_pulseTimer =
        ((Apu.ExecuteLengthAndSweep a).pulse p).m_pulseSweepTargetPeriod ∧
      ((Apu.ExecuteLengthAndSweep a).pulse p).m_pulseTimer ≤ 0x7FF) ∧
    ((a.pulse p).m_pulseTimer < 8 ∨
        ((Apu.ExecuteLengthAndSweep a).pulse p).m_pulseSweepTargetPeriod > 0x7FF →
      ((Apu.ExecuteLengthAndSweep a).pulse p).m_pulseTimer = (a.pulse p).m_pulseTimer) := by
  rw [Apu.ExecuteLengthAndSweep_pulse a p hp]
  exact Apu.LengthAndSweepPulse_timer p (a.pulse p)

theorem sweep_timer_update_witness :
    ((Apu.ExecuteLengthAndSweep apuSweep).pulse 0).m_pulseTimer ≠
      (apuSweep.pulse 0).m_pulseTimer ∧
    (8 ≤ (apuSweep.pulse 0).m_pulseTimer ∧
      ((Apu.ExecuteLengthAndSweep apuSweep).pulse 0).m_pulseTimer =
        ((Apu.ExecuteLengthAndSweep apuSweep).pulse 0).m_pulseSweepTargetPeriod ∧
      ((Apu.ExecuteLengthAndSweep apuSweep).pulse 0).m_pulseTimer ≤ 0x7FF) :=
  ⟨by decide, (sweep_timer_update apuSweep 0 (by decide)).1 (by decide)⟩

/-- C26: on a length/sweep clock the length counter of each channel (pulse 1,
pulse 2, triangle, noise) drops by exactly 1 when the channel is enabled, the
length is non-zero and the halt/control flag is clear, and is unchanged
otherwise; a length of 0 is still 0 after any number of length/sweep clocks. -/
theorem length_counter_clock (a : Apu) (h0 : a.m_pulses0.m_pulseLength < 256)
    (h1 : a.m_pulses1.m_pulseLength < 256) (hT : a.m_triangleLength < 256)
    (hN : a.m_noiseLength < 256) :
    (Apu.ExecuteLengthAndSweep a).m_pulses0.m_pulseLength =
      (if a.m_pulses0.m_pulseEnabled ≠ 0 ∧ a.m_pulses0.m_pulseLength ≠ 0 ∧
          a.m_pulses0.m_pulseHaltLoop = 0 then a.m_pulses0.m_pulseLength - 1
       else a.m_pulses0.m_pulseLength) ∧
    (Apu.ExecuteLengthAndSweep a).m_pulses1.m_pulseLength =
      (if a.m_pulses1.m_pulseEnabled ≠ 0 ∧ a.m_pulses1.m_pulseLength ≠ 0 ∧
          a.m_pulses1.m_pulseHaltLoop = 0 then a.m_pulses1.m_pulseLength - 1
       else a.m_pulses1.m_pulseLength) ∧
    (Apu.ExecuteLengthAndSweep a).m_triangleLength =
      (if a.m_triangleEnabled ≠ 0 ∧ a.m_triangleLength ≠ 0 ∧ a.m_triangleControlFlag = 0 then
        a.m_triangleLength - 1
       else a.m_triangleLength) ∧
    (Apu.ExecuteLengthAndSweep a).m_noiseLength =
      (if a.m_noiseEnabled ≠ 0 ∧ a.m_noiseLength ≠ 0 ∧ a.m_noiseHaltFlag = 0 then
        a.m_noiseLength - 1
       else a.m_noiseLength) ∧
    (∀ n,
      (a.m_pulses0.m_pulseLength = 0 →
        (Apu.ExecuteLengthAndSweep^[n] a).m_pulses0.m_pulseLength = 0) ∧
      (a.m_pulses1.m_pulseLength = 0 →
        (Apu.ExecuteLengthAndSweep^[n] a).m_pulses1.m_pulseLength = 0) ∧
      (a.m_triangleLength = 0 → (Apu.ExecuteLengthAndSweep^[n] a).m_triangleLength = 0) ∧
      (a.m_noiseLength = 0 → (Apu.ExecuteLengthAndSweep^[n] a).m_noiseLength = 0)) := by
  have key : ∀ (c : Prop) [Decidable c] (x : Nat), x < 256 → (c → x ≠ 0) →
      (if c then (x + 255) % 256 else x) = (if c then x - 1 else x) := by
    intro c _ x hx hc
    split_ifs with h
    · have := hc h
      omega
    · rfl
  refine ⟨?_, ?_, ?_, ?_, fun n => Apu.length_zero_stays a n⟩
  · rw [Apu.ExecuteLengthAndSweep_pulses0, Apu.LengthAndSweepPulse_length]
    exact key _ _ h0 (fun h => h.2.1)
  · rw [Apu.ExecuteLengthAndSweep_pulses1, Apu.LengthAndSweepPulse_length]
    exact key _ _ h1 (fun h => h.2.1)
  · rw [Apu.ExecuteLengthAndSweep_triangleLength]
    exact key _ _ hT (fun h => h.2.1)
  · rw [Apu.ExecuteLengthAndSweep_noiseLength]
    exact key _ _ hN (fun h => h.2.1)

theorem length_counter_clock_witness :
    (Apu.ExecuteLengthAndSweep apuSweep).m_pulses0.m_pulseLength = 2 ∧
    (Apu.ExecuteLengthAndSweep apuSweep).m_pulses1.m_pulseLength = 0 ∧
    (Apu.ExecuteLengthAndSweep apuSweep).m_triangleLength = 4 ∧
    (Apu.ExecuteLengthAndSweep apuSweep).m_noiseLength = 0 ∧
    (Apu.ExecuteLengthAndSweep^[3] apuSweep).m_noiseLength = 0 :=
  have h := length_counter_clock apuSweep (by decide) (by decide) (by decide) (by decide)
  ⟨h.1.trans (by decide), h.2.1.trans (by decide), h.2.2.1.trans (by decide),
   h.2.2.2.1.trans (by decide), by decide⟩

/-! ## Envelope and linear counter -/

namespace Apu

theorem ExecuteEnvelope_triangleCounter (a : Apu) :
    (ExecuteEnvelope a).m_triangleCounter =
      if a.m_triangleReloadFlag = true then a.m_triangleCounterReload
      else if a.m_triangleCounter ≠ 0 then (a.m_triangleCounter + 255) % 256
      else a.m_triangleCounter := by
  unfold ExecuteEnvelope
  simp only
  split_ifs <;> rfl

theorem ExecuteEnvelope_triangleReloadFlag (a : Apu) :
    (ExecuteEnvelope a).m_triangleReloadFlag =
      if a.m_triangleReloadFlag = true then
        (if a.m_triangleControlFlag = 0 then false else a.m_triangleReloadFlag)
      else a.m_triangleReloadFlag := by
  unfold ExecuteEnvelope
  simp only
  split_ifs <;> rfl

theorem ExecuteEnvelope_pulses0 (a : Apu) :
    (ExecuteEnvelope a).m_pulses0 = EnvelopePulse a.m_pulses0 := by
  unfold ExecuteEnvelope
  simp only
  split_ifs <;> rfl

theorem ExecuteEnvelope_pulses1 (a : Apu) :
    (ExecuteEnvelope a).m_pulses1 = EnvelopePulse a.m_pulses1 := by
  unfold ExecuteEnvelope
  simp only
  split_ifs <;> rfl

theorem ExecuteEnvelope_pulse (a : Apu) (p : Nat) (hp : p < 2) :
    (ExecuteEnvelope a).pulse p = EnvelopePulse (a.pulse p) := by
  unfold pulse
  by_cases h0 : p = 0
  · subst h0
    rw [if_pos rfl, if_pos rfl, ExecuteEnvelope_pulses0]
  · have h1 : p = 1 := by omega
    subst h1
    rw [if_neg (by decide), if_neg (by decide), ExecuteEnvelope_pulses1]

theorem ExecuteEnvelope_iterate_pulse (a : Apu) (p : Nat) (hp : p < 2) (n : Nat) :
    (ExecuteEnvelope^[n] a).pulse p = EnvelopePulse^[n] (a.pulse p) := by
  induction n with
  | zero => rfl
  | succ n ih =>
      rw [Function.iterate_succ_apply', Function.iterate_succ_apply',
        ExecuteEnvelope_pulse _ _ hp, ih]

theorem EnvelopePulse_keeps (d : PulseData) :
    (EnvelopePulse d).m_startFlag = false ∧
    (EnvelopePulse d).m_pulseVolume = d.m_pulseVolume ∧
    (EnvelopePulse d).m_pulseHaltLoop = d.m_pulseHaltLoop := by
  unfold EnvelopePulse
  simp only
  split_ifs <;> first | exact ⟨rfl, rfl, rfl⟩ | (refine ⟨?_, rfl, rfl⟩; simp_all)

theorem EnvelopePulse_start (d : PulseData) (hs : d.m_startFlag = true) :
    (EnvelopePulse d).m_pulseEnvelopeCounter = 15 ∧
    (EnvelopePulse d).m_pulseEnvelopeDivider = (d.m_pulseVolume + 1) % 256 := by
  unfold EnvelopePulse
  rw [if_pos hs]
  exact ⟨rfl, rfl⟩

theorem EnvelopePulse_divider (d : PulseData) (hs : d.m_startFlag = false) :
    (EnvelopePulse d).m_pulseEnvelopeDivider =
      if (d.m_pulseEnvelopeDivider + 255) % 256 = 0 then (d.m_pulseVolume + 1) % 256
      else (d.m_pulseEnvelopeDivider + 255) % 256 := by
  unfold EnvelopePulse
  simp only [hs, Bool.false_eq_true, if_false]
  split_ifs <;> rfl

theorem EnvelopePulse_counter (d : PulseData) (hs : d.m_startFlag = false) :
    (EnvelopePulse d).m_pulseEnvelopeCounter =
      if (d.m_pulseEnvelopeDivider + 255) % 256 = 0 then
        (if d.m_pulseEnvelopeCounter ≠ 0 then (d.m_pulseEnvelopeCounter + 255) % 256
         else if d.m_pulseHaltLoop ≠ 0 then 15 else d.m_pulseEnvelopeCounter)
      else d.m_pulseEnvelopeCounter := by
  unfold EnvelopePulse
  simp only [hs, Bool.false_eq_true, if_false]
  split_ifs <;> rfl

/-- The pulse envelope `q * (V + 1) + r` envelope clocks after the clock that
consumed the start flag, `r ≤ V`: the divider holds `V + 1 - r` and the decay
counter `15 - q` (halt/loop clear) or `15 - q mod 16` (halt/loop set). -/
theorem EnvelopePulse_run (d : PulseData) (hV : d.m_pulseVolume ≤ 15)
    (hs : d.m_startFlag = true) (n : Nat) :
    ∃ q r, r < d.m_pulseVolume + 1 ∧ n = (d.m_pulseVolume + 1) * q + r ∧
      (EnvelopePulse^[n + 1] d).m_startFlag = false ∧
      (EnvelopePulse^[n + 1] d).m_pulseVolume = d.m_pulseVolume ∧
      (EnvelopePulse^[n + 1] d).m_pulseHaltLoop = d.m_pulseHaltLoop ∧
      (EnvelopePulse^[n + 1] d).m_pulseEnvelopeDivider = d.m_pulseVolume + 1 - r ∧
      (EnvelopePulse^[n + 1] d).m_pulseEnvelopeCounter =
        if d.m_pulseHaltLoop = 0 then 15 - q else 15 - q % 16 := by
  induction n with
  | zero =>
      refine ⟨0, 0, Nat.succ_pos _, by simp, ?_⟩
      have hk := EnvelopePulse_keeps d
      have h0 := EnvelopePulse_start d hs
      refine ⟨hk.1, hk.2.1, hk.2.2, ?_, ?_⟩
      · show (EnvelopePulse d).m_pulseEnvelopeDivider = _
        rw [h0.2]
        omega
      · show (EnvelopePulse d).m_pulseEnvelopeCounter = _
        rw [h0.1]
        split_ifs <;> rfl
  | succ n ih =>
      obtain ⟨q, r, hr, hn, h1, h2, h3, h4, h5⟩ := ih
      rw [Function.iterate_succ_apply']
      generalize EnvelopePulse^[n + 1] d = e at h1 h2 h3 h4 h5
      have hk := EnvelopePulse_keeps e
      have hd := EnvelopePulse_divider e h1
      have hc := EnvelopePulse_counter e h1
      rw [h2, h4] at hd
      rw [h3, h4, h5] at hc
      by_cases hlast : r + 1 = d.m_pulseVolume + 1
      · refine ⟨q + 1, 0, Nat.succ_pos _, ?_, hk.1, by rw [hk.2.1, h2], by rw [hk.2.2, h3], ?_, ?_⟩
        · rw [Nat.mul_succ]
          omega
        · rw [hd]
          split_ifs <;> omega
        · rw [hc]
          split_ifs <;> omega
      · refine ⟨q, r + 1, by omega, by omega, hk.1, by rw [hk.2.1, h2], by rw [hk.2.2, h3], ?_, ?_⟩
        · rw [hd]
          split_ifs <;> omega
        · rw [hc]
          split_ifs <;> omega

theorem EnvelopePulse_counter_formula (d : PulseData) (hV : d.m_pulseVolume ≤ 15)
    (hs : d.m_startFlag = true) (n : Nat) :
    (EnvelopePulse^[n + 1] d).m_pulseEnvelopeCounter =
      if d.m_pulseHaltLoop = 0 then 15 - n / (d.m_pulseVolume + 1)
      else 15 - n / (d.m_pulseVolume + 1) % 16 := by
  obtain ⟨q, r, hr, hn, _, _, _, _, h5⟩ := EnvelopePulse_run d hV hs n
  have hq : n / (d.m_pulseVolume + 1) = q := by
    rw [hn, Nat.mul_add_div (Nat.succ_pos _), Nat.div_eq_of_lt hr, Nat.add_zero]
  rw [h5, hq]

end Apu

/-- C25: on an envelope/linear-counter clock, when the triangle reload flag is
set the linear counter becomes the linear reload value and the reload flag is
cleared exactly when the control flag is 0; when the reload flag is clear the
linear counter drops by 1 if non-zero and stays 0 if zero (and the reload flag
stays clear). -/
theorem triangle_linear_counter (a : Apu) (hc : a.m_triangleCounter < 256) :
    (a.m_triangleReloadFlag = true →
      (Apu.ExecuteEnvelope a).m_triangleCounter = a.m_triangleCounterReload ∧
      ((Apu.ExecuteEnvelope a).m_triangleReloadFlag = false ↔ a.m_triangleControlFlag = 0)) ∧
    (a.m_triangleReloadFlag = false →
      (Apu.ExecuteEnvelope a).m_triangleCounter =
        (if a.m_triangleCounter ≠ 0 then a.m_triangleCounter - 1 else 0) ∧
      (Apu.ExecuteEnvelope a).m_triangleReloadFlag = false) := by
  rw [Apu.ExecuteEnvelope_triangleCounter, Apu.ExecuteEnvelope_triangleReloadFlag]
  constructor
  · intro h
    rw [if_pos h, if_pos h]
    refine ⟨rfl, ?_⟩
    split_ifs with h0
    · exact ⟨fun _ => h0, fun _ => rfl⟩
    · rw [h]
      exact ⟨fun hf => absurd hf (by decide), fun hz => absurd hz h0⟩
  · intro h
    have hnt : ¬ a.m_triangleReloadFlag = true := by
      rw [h]
      decide
    rw [if_neg hnt, if_neg hnt]
    refine ⟨?_, h⟩
    split_ifs with h0
    · omega
    · omega

theorem triangle_linear_counter_witness :
    apuLinear.m_triangleReloadFlag = true ∧
    (Apu.ExecuteEnvelope apuLinear).m_triangleCounter = apuLinear.m_triangleCounterReload ∧
    ((Apu.ExecuteEnvelope apuLinear).m_triangleReloadFlag = false ↔
      apuLinear.m_triangleControlFlag = 0) :=
  ⟨rfl, (triangle_linear_counter apuLinear (by decide)).1 rfl⟩

/-- C31: for pulse channel `p` with volume/period value `V ≤ 15` and the start
flag set, with `c k` the decay counter after `k` envelope clocks: the first
clock (which consumes the start flag) gives `c 1 = 15`; after `n` further
clocks, `n ≤ 15 * (V + 1)`, `c (n + 1) = 15 - n / (V + 1)`; from then on, with
the halt/loop flag clear the counter is 0 for ever, and with it set the counter
is 0 until the next divider expiry, `V + 1` clocks later, where it is 15 again;
the counter never exceeds 15. -/
theorem pulse_envelope_decay (a : Apu) (p : Nat) (hp : p < 2)
    (hV : (a.pulse p).m_pulseVolume ≤ 15) (hs : (a.pulse p).m_startFlag = true) :
    ((Apu.ExecuteEnvelope^[1] a).pulse p).m_pulseEnvelopeCounter = 15 ∧
    (∀ n, n ≤ 15 * ((a.pulse p).m_pulseVolume + 1) →
      ((Apu.ExecuteEnvelope^[n + 1] a).pulse p).m_pulseEnvelopeCounter =
        15 - n / ((a.pulse p).m_pulseVolume + 1)) ∧
    ((a.pulse p).m_pulseHaltLoop = 0 →
      ∀ n, 15 * ((a.pulse p).m_pulseVolume + 1) ≤ n →
        ((Apu.ExecuteEnvelope^[n + 1] a).pulse p).m_pulseEnvelopeCounter = 0) ∧
    ((a.pulse p).m_pulseHaltLoop ≠ 0 →
      (∀ n, 15 * ((a.pulse p).m_pulseVolume + 1) ≤ n →
        n < 16 * ((a.pulse p).m_pulseVolume + 1) →
        ((Apu.ExecuteEnvelope^[n + 1] a).pulse p).m_pulseEnvelopeCounter = 0) ∧
      ((Apu.ExecuteEnvelope^[16 * ((a.pulse p).m_pulseVolume + 1) + 1] a).pulse
        p).m_pulseEnvelopeCounter = 15) ∧
    (∀ n, ((Apu.ExecuteEnvelope^[n + 1] a).pulse p).m_pulseEnvelopeCounter ≤ 15) := by
  have hf : ∀ n, ((Apu.ExecuteEnvelope^[n + 1] a).pulse p).m_pulseEnvelopeCounter =
      if (a.pulse p).m_pulseHaltLoop = 0 then 15 - n / ((a.pulse p).m_pulseVolume + 1)
      else 15 - n / ((a.pulse p).m_pulseVolume + 1) % 16 := by
    intro n
    rw [Apu.ExecuteEnvelope_iterate_pulse a p hp]
    exact Apu.EnvelopePulse_counter_formula (a.pulse p) hV hs n
  have hm : 0 < (a.pulse p).m_pulseVolume + 1 := Nat.succ_pos _
  generalize (a.pulse p).m_pulseVolume + 1 = m at hf hm
  refine ⟨?_, ?_, ?_, ?_, ?_⟩
  · rw [hf 0, Nat.zero_div]
    split_ifs <;> rfl
  · intro n hn
    rw [hf n]
    have hq : n / m ≤ 15 := Nat.div_le_of_le_mul (by rw [Nat.mul_comm]; exact hn)
    generalize n / m = q at hq
    split_ifs <;> omega
  · intro hh n hn
    rw [hf n, if_pos hh]
    have hq : 15 ≤ n / m := (Nat.le_div_iff_mul_le hm).2 hn
    omega
  · intro hh
    constructor
    · intro n hn1 hn2
      rw [hf n, if_neg hh]
      have hq1 : 15 ≤ n / m := (Nat.le_div_iff_mul_le hm).2 hn1
      have hq2 : n / m < 16 := (Nat.div_lt_iff_lt_mul hm).2 hn2
      generalize n / m = q at hq1 hq2
      omega
    · rw [hf (16 * m), if_neg hh, Nat.mul_div_cancel _ hm]
  · intro n
    rw [hf n]
    generalize n / m = q
    split_ifs <;> omega

theorem pulse_envelope_decay_witness :
    ((Apu.ExecuteEnvelope^[1] apuEnvelope).pulse 0).m_pulseEnvelopeCounter = 15 ∧
    ((Apu.ExecuteEnvelope^[9 + 1] apuEnvelope).pulse 0).m_pulseEnvelopeCounter = 13 ∧
    ((Apu.ExecuteEnvelope^[70 + 1] apuEnvelope).pulse 0).m_pulseEnvelopeCounter = 0 :=
  have h := pulse_envelope_decay apuEnvelope 0 (by decide) (by decide) rfl
  ⟨h.1, (h.2.1 9 (by decide)).trans (by decide), h.2.2.1 rfl 70 (by decide)⟩

/-! ## Pulse and triangle waveform tables -/

/-- C27: for every duty index `d < 4` and step `i < 8`, the table built by
`GenerateWaveForm` has `m_pulseWaveFormDuty[d][i] = +70` when bit `i` of the
pattern of duty `d` is 1, and `-70` otherwise. -/
theorem pulse_duty_table (a : Apu) :
    ∀ d, d < 4 → ∀ i, i < 8 →
      (Apu.GenerateWaveForm a).m_pulseWaveFormDuty d i =
        if (dutyPattern.getD d 0).testBit i then 70 else -70 := by
  intro d hd i hi
  show Apu.GeneratePulseDuty a.m_pulseWaveFormDuty d i = _
  interval_cases d <;> interval_cases i <;> rfl

theorem pulse_duty_table_witness :
    (Apu.GenerateWaveForm
      (apuZero (fun _ _ => 0) (fun _ => 0) (fun _ => 0) (fun _ => 0)
        (fun _ => 0))).m_pulseWaveFormDuty 3 0 = 70 :=
  (pulse_duty_table _ 3 (by decide) 0 (by decide)).trans (by decide)

/-- C28: for every index `k < 32`, the table built by `GenerateWaveForm` has
`m_triangleWaveForm[k] = 175 * ramp[k] - 1400` with the ramp
`15, 14, ..., 0, 0, 1, ..., 15`, and entry `k` equals entry `31 - k`. -/
theorem triangle_table (a : Apu) :
    ∀ k, k < 32 →
      (Apu.GenerateWaveForm a).m_triangleWaveForm k = 175 * triangleRamp k - 1400 ∧
      (Apu.GenerateWaveForm a).m_triangleWaveForm k =
        (Apu.GenerateWaveForm a).m_triangleWaveForm (31 - k) := by
  intro k hk
  show Apu.GenerateTriangle a.m_triangleWaveForm k = _ ∧
    Apu.GenerateTriangle a.m_triangleWaveForm k =
      Apu.GenerateTriangle a.m_triangleWaveForm (31 - k)
  interval_cases k <;> exact ⟨rfl, rfl⟩

theorem triangle_table_witness :
    (Apu.GenerateWaveForm
      (apuZero (fun _ _ => 0) (fun _ => 0) (fun _ => 0) (fun _ => 0)
        (fun _ => 0))).m_triangleWaveForm 3 = 700 :=
  ((triangle_table _ 3 (by decide)).1).trans (by decide)

open CpuRam StatusFlag

/-! ## LSR -/

/-- What `LSR` does: the flags are set from the operand (carry from bit 0,
Z from the shifted value, N cleared), and neither the accumulator nor the
memory is written. -/
theorem lsr_keeps_operand (c : Cpu) (hop : c.m_pEntry.opCodeName = OpCodeName.LSR) :
    c.ExecuteInstruction.A = c.A ∧ c.ExecuteInstruction.m_pRam = c.m_pRam ∧
    c.ExecuteInstruction.P =
      Bitfield8.Clear
        (Bitfield8.SetEnabled
          (Bitfield8.SetEnabled c.P Carry (c.GetAccumOrMemValue &&& 0x01)) Zero
          (CalcZeroFlag8 (TO8 (c.GetAccumOrMemValue >>> 1)))) Negative := by
  rw [Cpu.ExecuteInstruction_A, Cpu.ExecuteInstruction_ram, Cpu.ExecuteInstruction_P]
  simp only [Cpu.ExecuteOpCode, hop]
  exact ⟨trivial, trivial, trivial⟩

/-- C29 at `v = 2`: `LSR A` with `A = 2` leaves `A = 2`, and `LSR $10` with 2
stored at `$0010` leaves 2 there, while `v >> 1 = 1`; the flags are those of
the claim (carry clear, Z clear, N clear). -/
theorem lsr_keeps_operand_at_2 :
    (Cpu.Run ⟨OpCodeName.LSR, AddressMode.Accumu, 1⟩
      (cpuState 2 0 0 0xFD 0x8000 0x20 ⟨OpCodeName.NOP, AddressMode.Implid, 1⟩ 0
        (ramOfList [(0x8000, 0x4A)]))).A = 2 ∧
    (Cpu.Run ⟨OpCodeName.LSR, AddressMode.Accumu, 1⟩
      (cpuState 2 0 0 0xFD 0x8000 0x20 ⟨OpCodeName.NOP, AddressMode.Implid, 1⟩ 0
        (ramOfList [(0x8000, 0x4A)]))).P = 0x20 ∧
    Read8 (Cpu.Run ⟨OpCodeName.LSR, AddressMode.ZeroPg, 2⟩
      (cpuState 0 0 0 0xFD 0x8000 0x20 ⟨OpCodeName.NOP, AddressMode.Implid, 1⟩ 0
        (ramOfList [(0x8000, 0x46), (0x8001, 0x10), (0x0010, 0x02)]))).m_pRam 0x0010 = 2 ∧
    2 >>> 1 = 1 := by
  decide

/-! ## JSR and RTS -/

theorem byte_pair_join (x : Nat) (hx : x < 65536) :
    TO16 (TO16 ((x &&& 0x00FF) % 256) ||| (TO16 ((x >>> 8) % 256) <<< 8)) = x := by
  unfold TO16
  rw [land_FF, Nat.shiftRight_eq_div_pow, Nat.shiftLeft_eq]
  have h1 : x % 256 % 256 % 65536 = x % 256 := by omega
  have h2 : x / 2 ^ 8 % 256 % 65536 = x / 256 := by omega
  rw [h1, h2]
  have h3 : x % 256 ||| x / 256 * 2 ^ 8 = 2 ^ 8 * (x / 256) + x % 256 := by
    rw [Nat.lor_comm, Nat.mul_comm]
    exact (Nat.mul_add_lt_is_or (by omega) _).symm
  rw [h3]
  omega

theorem jsr_effect (c : Cpu) (hop : c.m_pEntry.opCodeName = OpCodeName.JSR)
    (hne : c.m_operandAddress ≠ c.PC) :
    c.ExecuteInstruction.PC = c.m_operandAddress ∧
    c.ExecuteInstruction.SP = ((c.SP + 255) % 256 + 255) % 256 ∧
    c.ExecuteInstruction.m_pRam =
      Write8 (Write8 c.m_pRam (kStackBase + c.SP)
          (TO16 (c.PC + c.m_pEntry.numBytes + 65536 - 1) >>> 8))
        (kStackBase + (c.SP + 255) % 256)
        (TO16 (c.PC + c.m_pEntry.numBytes + 65536 - 1) &&& 0x00FF) := by
  have hpc : c.ExecuteOpCode.PC = c.m_operandAddress := by
    simp only [Cpu.ExecuteOpCode, hop, Cpu.Push16, Cpu.Push8, Cpu.GetBranchOrJmpLocation]
  refine ⟨?_, ?_, ?_⟩
  · unfold Cpu.ExecuteInstruction
    simp only
    rw [if_neg (by rw [hpc]; exact fun h => hne h.symm), hpc]
  · rw [Cpu.ExecuteInstruction_SP]
    simp only [Cpu.ExecuteOpCode, hop, Cpu.Push16, Cpu.Push8]
  · rw [Cpu.ExecuteInstruction_ram]
    simp only [Cpu.ExecuteOpCode, hop, Cpu.Push16, Cpu.Push8]

theorem rts_effect (c : Cpu) (hop : c.m_pEntry.opCodeName = OpCodeName.RTS) :
    c.ExecuteOpCode.PC =
      TO16 (TO16 (TO16 (Read8 c.m_pRam (kStackBase + (c.SP + 1) % 256)) |||
        (TO16 (Read8 c.m_pRam (kStackBase + ((c.SP + 1) % 256 + 1) % 256)) <<< 8)) + 1) ∧
    c.ExecuteInstruction.SP = ((c.SP + 1) % 256 + 1) % 256 := by
  constructor
  · simp only [Cpu.ExecuteOpCode, hop, Cpu.Pop16, Cpu.Pop8]
  · rw [Cpu.ExecuteInstruction_SP]
    simp only [Cpu.ExecuteOpCode, hop, Cpu.Pop16, Cpu.Pop8]

/-- What `JSR` followed by `RTS` does when the subroutine address is neither
the address of the `JSR` nor the address after it: the program counter ends
on the address after the `JSR` and the stack pointer is restored. -/
theorem jsr_rts_round_trip (c : Cpu) (hPC : c.PC < 65536) (hSP : c.SP < 256)
    (hT1 : Read16 c.m_pRam (c.PC + 1) ≠ c.PC)
    (hT2 : Read16 c.m_pRam (c.PC + 1) ≠ (c.PC + 3) % 65536) :
    (Cpu.Run ⟨OpCodeName.JSR, AddressMode.Absolu, 3⟩ c).PC = Read16 c.m_pRam (c.PC + 1) ∧
    (Cpu.Run ⟨OpCodeName.RTS, AddressMode.Implid, 1⟩
      (Cpu.Run ⟨OpCodeName.JSR, AddressMode.Absolu, 3⟩ c)).PC = (c.PC + 3) % 65536 ∧
    (Cpu.Run ⟨OpCodeName.RTS, AddressMode.Implid, 1⟩
      (Cpu.Run ⟨OpCodeName.JSR, AddressMode.Absolu, 3⟩ c)).SP = c.SP := by
  obtain ⟨j1, j2, j3⟩ := jsr_effect
    (Cpu.UpdateOperand { c with m_pEntry := ⟨OpCodeName.JSR, AddressMode.Absolu, 3⟩ })
    rfl hT1
  generalize hc1 : Cpu.Run ⟨OpCodeName.JSR, AddressMode.Absolu, 3⟩ c = c1
  have e1 : c1.PC = Read16 c.m_pRam (c.PC + 1) := by rw [← hc1]; exact j1
  have e2 : c1.SP = ((c.SP + 255) % 256 + 255) % 256 := by rw [← hc1]; exact j2
  have e3 : c1.m_pRam =
      Write8 (Write8 c.m_pRam (kStackBase + c.SP) (TO16 (c.PC + 3 + 65536 - 1) >>> 8))
        (kStackBase + (c.SP + 255) % 256) (TO16 (c.PC + 3 + 65536 - 1) &&& 0x00FF) := by
    rw [← hc1]; exact j3
  obtain ⟨r1, r2⟩ := rts_effect
    (Cpu.UpdateOperand { c1 with m_pEntry := ⟨OpCodeName.RTS, AddressMode.Implid, 1⟩ }) rfl
  have r1' : (Cpu.UpdateOperand
      { c1 with m_pEntry := ⟨OpCodeName.RTS, AddressMode.Implid, 1⟩ }).ExecuteOpCode.PC =
      TO16 (TO16 (TO16 (Read8 c1.m_pRam (kStackBase + (c1.SP + 1) % 256)) |||
        (TO16 (Read8 c1.m_pRam (kStackBase + ((c1.SP + 1) % 256 + 1) % 256)) <<< 8)) + 1) := r1
  have r2' : (Cpu.Run ⟨OpCodeName.RTS, AddressMode.Implid, 1⟩ c1).SP =
      ((c1.SP + 1) % 256 + 1) % 256 := r2
  have hs1 : (c1.SP + 1) % 256 = (c.SP + 255) % 256 := by rw [e2]; omega
  have hs2 : ((c1.SP + 1) % 256 + 1) % 256 = c.SP := by rw [e2]; omega
  have hret : TO16 (c.PC + 3 + 65536 - 1) = c.PC + 2 ∨ TO16 (c.PC + 3 + 65536 - 1) + 65536 = c.PC + 2 := by
    unfold TO16; omega
  have hretlt : TO16 (c.PC + 3 + 65536 - 1) < 65536 := by unfold TO16; omega
  have hlo : Read8 c1.m_pRam (kStackBase + (c.SP + 255) % 256) =
      (TO16 (c.PC + 3 + 65536 - 1) &&& 0x00FF) % 256 := by
    rw [e3, Read8_Write8_same]
  have hhi : Read8 c1.m_pRam (kStackBase + c.SP) =
      (TO16 (c.PC + 3 + 65536 - 1) >>> 8) % 256 := by
    rw [e3, Read8_Write8_ne, Read8_Write8_same]
    unfold kStackBase
    omega
  rw [hs2, hs1, hlo, hhi, byte_pair_join _ hretlt] at r1'
  have hpc : TO16 (TO16 (c.PC + 3 + 65536 - 1) + 1) = (c.PC + 3) % 65536 := by
    unfold TO16; omega
  rw [hpc] at r1'
  refine ⟨e1, ?_, by rw [r2', hs2]⟩
  show (Cpu.ExecuteInstruction (Cpu.UpdateOperand
    { c1 with m_pEntry := ⟨OpCodeName.RTS, AddressMode.Implid, 1⟩ })).PC = _
  unfold Cpu.ExecuteInstruction
  simp only
  have hstart : (Cpu.UpdateOperand
      { c1 with m_pEntry := ⟨OpCodeName.RTS, AddressMode.Implid, 1⟩ }).PC = c1.PC := rfl
  rw [r1', hstart, if_neg (by rw [e1]; exact hT2)]
  exact r1'

/-- C30 at `JSR $8003` stored at `$8000` with `RTS` at `$8003`: `JSR` pushes
`$8002` and jumps to `$8003`; `RTS` pops `$8002`, but after it the program
counter is `$8004` and not `$8003`, the address after the `JSR`; the stack
pointer is back at `0xFD`. -/
theorem jsr_rts_next_instruction_overshoots :
    (Cpu.Run ⟨OpCodeName.JSR, AddressMode.Absolu, 3⟩
      (cpuState 0 0 0 0xFD 0x8000 0x20 ⟨OpCodeName.NOP, AddressMode.Implid, 1⟩ 0
        (ramOfList [(0x8000, 0x20), (0x8001, 0x03), (0x8002, 0x80), (0x8003, 0x60)]))).PC
      = 0x8003 ∧
    (Cpu.Run ⟨OpCodeName.JSR, AddressMode.Absolu, 3⟩
      (cpuState 0 0 0 0xFD 0x8000 0x20 ⟨OpCodeName.NOP, AddressMode.Implid, 1⟩ 0
        (ramOfList [(0x8000, 0x20), (0x8001, 0x03), (0x8002, 0x80), (0x8003, 0x60)]))).SP
      = 0xFB ∧
    (Cpu.Run ⟨OpCodeName.RTS, AddressMode.Implid, 1⟩
      (Cpu.Run ⟨OpCodeName.JSR, AddressMode.Absolu, 3⟩
        (cpuState 0 0 0 0xFD 0x8000 0x20 ⟨OpCodeName.NOP, AddressMode.Implid, 1⟩ 0
          (ramOfList [(0x8000, 0x20), (0x8001, 0x03), (0x8002, 0x80), (0x8003, 0x60)])))).PC
      = 0x8004 ∧
    (Cpu.Run ⟨OpCodeName.RTS, AddressMode.Implid, 1⟩
      (Cpu.Run ⟨OpCodeName.JSR, AddressMode.Absolu, 3⟩
        (cpuState 0 0 0 0xFD 0x8000 0x20 ⟨OpCodeName.NOP, AddressMode.Implid, 1⟩ 0
          (ramOfList [(0x8000, 0x20), (0x8001, 0x03), (0x8002, 0x80), (0x8003, 0x60)])))).SP
      = 0xFD := by
  decide

end NesEmu
